import Mathlib

/-!
# PG-Strom device code: error write-back, warp prefix sums, atomics, task layout

A shallow embedding of `src/cuda_common.h`, of the function table of
`next/xpu_opcodes.h`, and of the host code of `src/main.c` and `src/gpu_scan.c`
(error reports, removal of dummy plans, the planner of the scan paths and its hook,
the CPU fallback).  Shared memory cells are passed explicitly: an operation on `*ptr`
takes the old content of the cell and returns the new content next to its C return
value.  Unsigned 32-bit arithmetic is arithmetic on `Nat` modulo `2 ^ 32`; a call of
`elog(ERROR, ...)` is the error branch of `Except`.
-/

namespace PgStrom

/-! ## Definitions -/

/-- Declarations that `cuda_common.h` takes from `xpu_common.h`.  The header is
included by `cuda_common.h` but is not among the sources, so every constant,
helper and layout fact it contributes is a field of this record, and the
theorems below hold for every value of the record.
`__strncpy dest src n` is the content of the field `dest` after the call;
`offsetof_kern_gputask_stats` is `offsetof(kern_gputask, stats[0])`, which
depends on `sizeof(kern_errorbuf)`. -/
structure XpuCommon where
  ERRCODE_STROM_SUCCESS : Nat
  KERN_ERRORBUF_FILENAME_LEN : Nat
  KERN_ERRORBUF_FUNCNAME_LEN : Nat
  KERN_ERRORBUF_MESSAGE_LEN : Nat
  __strncpy : String → String → Nat → String
  MAXALIGN : Nat → Nat
  offsetof_kern_gputask_stats : Nat

/-- Modelled from the spec: a sample instance of the `xpu_common.h` declarations,
used to evaluate the definitions on concrete inputs.  "No error" is code 0, a
copied string is cut to the field length, and `MAXALIGN` rounds up to the next
multiple of 8. -/
def xpu_common_h : XpuCommon where
  ERRCODE_STROM_SUCCESS := 0
  KERN_ERRORBUF_FILENAME_LEN := 32
  KERN_ERRORBUF_FUNCNAME_LEN := 64
  KERN_ERRORBUF_MESSAGE_LEN := 200
  __strncpy := fun _ src n => String.mk (src.data.take n)
  MAXALIGN := fun len => (len + 7) / 8 * 8
  offsetof_kern_gputask_stats := 356

/-- The shared error record `kern_errorbuf`. -/
structure kern_errorbuf where
  errcode : Nat
  lineno : Int
  filename : String
  funcname : String
  message : String
deriving DecidableEq, Repr

/-- The error fields of a thread's `kern_context`. -/
structure kern_context where
  errcode : Nat
  error_lineno : Int
  error_filename : String
  error_funcname : String
  error_message : String
deriving DecidableEq, Repr

/-- CUDA `atomicCAS(address, compare, val)` on a cell holding `mem`:
the returned old value and the new content of the cell. -/
def atomicCAS (mem compare val : Nat) : Nat × Nat :=
  (mem, if mem = compare then val else mem)

/-- `STROM_WRITEBACK_ERROR_STATUS(ebuf, kcxt)` (cuda_common.h:85-105), run without
interference: the error buffer after the call. -/
def STROM_WRITEBACK_ERROR_STATUS (X : XpuCommon) (ebuf : kern_errorbuf)
    (kcxt : kern_context) : kern_errorbuf :=
  if kcxt.errcode ≠ X.ERRCODE_STROM_SUCCESS then
    let cas := atomicCAS ebuf.errcode X.ERRCODE_STROM_SUCCESS kcxt.errcode
    let ebuf : kern_errorbuf := ⟨cas.2, ebuf.lineno, ebuf.filename, ebuf.funcname, ebuf.message⟩
    if cas.1 = X.ERRCODE_STROM_SUCCESS then
      ⟨kcxt.errcode,
       kcxt.error_lineno,
       X.__strncpy ebuf.filename kcxt.error_filename X.KERN_ERRORBUF_FILENAME_LEN,
       X.__strncpy ebuf.funcname kcxt.error_funcname X.KERN_ERRORBUF_FUNCNAME_LEN,
       X.__strncpy ebuf.message kcxt.error_message X.KERN_ERRORBUF_MESSAGE_LEN⟩
    else ebuf
  else ebuf

/-- The record a winning thread leaves behind: its code and line number, and its
three strings copied by `__strncpy` over the fields of the initial buffer. -/
def error_record_of (X : XpuCommon) (ebuf0 : kern_errorbuf) (kcxt : kern_context) :
    kern_errorbuf :=
  ⟨kcxt.errcode,
   kcxt.error_lineno,
   X.__strncpy ebuf0.filename kcxt.error_filename X.KERN_ERRORBUF_FILENAME_LEN,
   X.__strncpy ebuf0.funcname kcxt.error_funcname X.KERN_ERRORBUF_FUNCNAME_LEN,
   X.__strncpy ebuf0.message kcxt.error_message X.KERN_ERRORBUF_MESSAGE_LEN⟩

/-- The first context of a sequence whose errcode is not ERRCODE_STROM_SUCCESS. -/
def first_failure (X : XpuCommon) (ks : List kern_context) : Option kern_context :=
  ks.find? (fun k => decide (k.errcode ≠ X.ERRCODE_STROM_SUCCESS))

/-! ### Error write-back under interleaving -/

/-- Program points of one thread inside STROM_WRITEBACK_ERROR_STATUS: before the
guard and the compare-and-swap, before each of the five writes of the winner, and
after the call. -/
inductive wb_pc where
  | at_cas | at_errcode | at_lineno | at_filename | at_funcname | at_message | finished
deriving DecidableEq, Repr

/-- One shared-memory access of a thread that runs STROM_WRITEBACK_ERROR_STATUS
(cuda_common.h:88-103) on the shared buffer `ebuf`: the buffer and the thread's
program point afterwards. -/
def wb_thread_step (X : XpuCommon) (ebuf : kern_errorbuf) (kcxt : kern_context) :
    wb_pc → kern_errorbuf × wb_pc
  | .at_cas =>
    if kcxt.errcode ≠ X.ERRCODE_STROM_SUCCESS then
      let cas := atomicCAS ebuf.errcode X.ERRCODE_STROM_SUCCESS kcxt.errcode
      (⟨cas.2, ebuf.lineno, ebuf.filename, ebuf.funcname, ebuf.message⟩,
       if cas.1 = X.ERRCODE_STROM_SUCCESS then .at_errcode else .finished)
    else (ebuf, .finished)
  | .at_errcode =>
    (⟨kcxt.errcode, ebuf.lineno, ebuf.filename, ebuf.funcname, ebuf.message⟩, .at_lineno)
  | .at_lineno =>
    (⟨ebuf.errcode, kcxt.error_lineno, ebuf.filename, ebuf.funcname, ebuf.message⟩,
     .at_filename)
  | .at_filename =>
    (⟨ebuf.errcode, ebuf.lineno,
      X.__strncpy ebuf.filename kcxt.error_filename X.KERN_ERRORBUF_FILENAME_LEN,
      ebuf.funcname, ebuf.message⟩, .at_funcname)
  | .at_funcname =>
    (⟨ebuf.errcode, ebuf.lineno, ebuf.filename,
      X.__strncpy ebuf.funcname kcxt.error_funcname X.KERN_ERRORBUF_FUNCNAME_LEN,
      ebuf.message⟩, .at_message)
  | .at_message =>
    (⟨ebuf.errcode, ebuf.lineno, ebuf.filename, ebuf.funcname,
      X.__strncpy ebuf.message kcxt.error_message X.KERN_ERRORBUF_MESSAGE_LEN⟩, .finished)
  | .finished => (ebuf, .finished)

/-- The shared error buffer and the program point of every thread. -/
structure wb_state where
  ebuf : kern_errorbuf
  pcs : List wb_pc
deriving DecidableEq, Repr

/-- Thread `tid` performs its next shared-memory access. -/
def wb_step (X : XpuCommon) (ctxs : List kern_context) (s : wb_state) (tid : Nat) :
    wb_state :=
  match ctxs[tid]?, s.pcs[tid]? with
  | some kcxt, some pc =>
    let r := wb_thread_step X s.ebuf kcxt pc
    ⟨r.1, s.pcs.set tid r.2⟩
  | _, _ => s

/-- All threads at the start of their call. -/
def wb_init (ebuf0 : kern_errorbuf) (ctxs : List kern_context) : wb_state :=
  ⟨ebuf0, ctxs.map (fun _ => wb_pc.at_cas)⟩

/-- An interleaving: the list of the thread ids in the order of their accesses. -/
def wb_run (X : XpuCommon) (ctxs : List kern_context) (ebuf0 : kern_errorbuf)
    (sched : List Nat) : wb_state :=
  sched.foldl (wb_step X ctxs) (wb_init ebuf0 ctxs)

/-- What the shared buffer holds while the winner `kcxt` is at program point `pc`. -/
def wb_progress (X : XpuCommon) (ebuf0 : kern_errorbuf) (kcxt : kern_context) :
    wb_pc → kern_errorbuf
  | .at_cas => ebuf0
  | .at_errcode => ⟨kcxt.errcode, ebuf0.lineno, ebuf0.filename, ebuf0.funcname, ebuf0.message⟩
  | .at_lineno => ⟨kcxt.errcode, ebuf0.lineno, ebuf0.filename, ebuf0.funcname, ebuf0.message⟩
  | .at_filename =>
    ⟨kcxt.errcode, kcxt.error_lineno, ebuf0.filename, ebuf0.funcname, ebuf0.message⟩
  | .at_funcname =>
    ⟨kcxt.errcode, kcxt.error_lineno,
     X.__strncpy ebuf0.filename kcxt.error_filename X.KERN_ERRORBUF_FILENAME_LEN,
     ebuf0.funcname, ebuf0.message⟩
  | .at_message =>
    ⟨kcxt.errcode, kcxt.error_lineno,
     X.__strncpy ebuf0.filename kcxt.error_filename X.KERN_ERRORBUF_FILENAME_LEN,
     X.__strncpy ebuf0.funcname kcxt.error_funcname X.KERN_ERRORBUF_FUNCNAME_LEN,
     ebuf0.message⟩
  | .finished => error_record_of X ebuf0 kcxt

/-- Invariant of every interleaving: either nobody has passed the compare-and-swap
and the buffer is untouched, or exactly one thread `w` has won it, the buffer holds
what `w` has written so far, and every other thread is before its compare-and-swap
or has left. -/
def wb_inv (X : XpuCommon) (ctxs : List kern_context) (ebuf0 : kern_errorbuf)
    (s : wb_state) : Prop :=
  s.pcs.length = ctxs.length ∧
  ((s.ebuf = ebuf0 ∧ ∀ pc ∈ s.pcs, pc = wb_pc.at_cas) ∨
   (∃ w kcxt pc, ctxs[w]? = some kcxt ∧ s.pcs[w]? = some pc ∧ pc ≠ wb_pc.at_cas ∧
      s.ebuf = wb_progress X ebuf0 kcxt pc ∧
      ∀ t : Nat, t ≠ w → ∀ pc', s.pcs[t]? = some pc' →
        pc' = wb_pc.at_cas ∨ pc' = wb_pc.finished))

/-! ### Warp prefix sum -/

/-- CUDA `warpSize`. -/
def warpSize : Nat := 32

/-- CUDA `__shfl_sync(0xffffffff, var, srcLane)` with all 32 lanes active: the
value that lane `srcLane % warpSize` holds in `var`. -/
def __shfl_sync (value : Fin 32 → Nat) (srcLane : Nat) : Nat :=
  value (Fin.ofNat srcLane)

/-- One round of the loop of `__reduce_stair_add_sync` (cuda_common.h:73-78), done
by all 32 lanes in lock-step; `M` is the modulus of the unsigned type `T` and
`mask` a `uint32_t`. -/
def stair_step (M : Nat) (mask : Nat) (value : Fin 32 → Nat) : Fin 32 → Nat :=
  fun lane_id =>
    let temp := __shfl_sync value
      ((lane_id.val &&& (0xffffffff ^^^ mask)) ||| ((mask + 2 ^ 32 - 1) % 2 ^ 32))
    if lane_id.val &&& mask ≠ 0 then (value lane_id + temp) % M else value lane_id

/-- The loop `for (mask = 1; mask < warpSize; mask <<= 1)` entered with `mask`,
with a bound `fuel` on the number of rounds; `none` when the bound is hit. -/
def stair_loop (M : Nat) : Nat → Nat → (Fin 32 → Nat) → Option (Fin 32 → Nat)
  | 0, mask, value => if mask < warpSize then none else some value
  | fuel + 1, mask, value =>
    if mask < warpSize then
      stair_loop M fuel ((mask <<< 1) % 2 ^ 32) (stair_step M mask value)
    else some value

/-- `__reduce_stair_add_sync(value, p_total_sum)` (cuda_common.h:64-83) as seen by
lane `lane_id` when the 32 lanes pass the values `value`: the returned value and,
when `p_total_sum` is not NULL, the value stored through it. -/
def __reduce_stair_add_sync (M fuel : Nat) (value : Fin 32 → Nat) (p_total_sum : Bool)
    (lane_id : Fin 32) : Option (Nat × Option Nat) :=
  match stair_loop M fuel 1 value with
  | none => none
  | some value =>
    let temp := __shfl_sync value (warpSize - 1)
    some (value lane_id, if p_total_sum then some temp else none)

/-- Invariant of the loop: after the rounds with mask below `2 ^ k`, lane `i`
holds the sum of the inputs from the start of its block of `2 ^ k` lanes up to
itself. -/
def stair_inv (v : Fin 32 → Nat) (k : Nat) (g : Fin 32 → Nat) : Prop :=
  ∀ i : Fin 32, g i = ∑ j in Finset.Ico (i.val - i.val % 2 ^ k) (i.val + 1), v (Fin.ofNat j)

/-! ### Atomic wrappers -/

/-- `__atomic_add_uint32(ptr, ival)` (cuda_common.h:375-383) on a cell holding
`mem`: the returned old value and the new content of the cell. -/
def __atomic_add_uint32 (mem ival : Nat) : Nat × Nat :=
  (mem, (mem + ival) % 2 ^ 32)

/-- A sequence of calls `__atomic_add_uint32(ptr, k)` on one counter holding `c`,
in the order in which the atomic operations take effect: the values returned
to the callers, and the final counter. -/
def atomic_add_calls : Nat → List Nat → List Nat × Nat
  | c, [] => ([], c)
  | c, k :: ks =>
    let r := __atomic_add_uint32 c k
    let rest := atomic_add_calls r.2 ks
    (r.1 :: rest.1, rest.2)

/-- The index range `[r, r + k)` reserved by a call that asked for `k` slots and was
returned `r`, for a pair `(r, k)`. -/
def slot_range (s : Nat × Nat) (x : Nat) : Prop := s.1 ≤ x ∧ x < s.1 + s.2

/-- GCC `__atomic_compare_exchange_n(ptr, &expected, desired, ...)` on a cell holding
`mem`: whether it succeeded, the new content of the cell, and the new content of
`expected`. -/
def __atomic_compare_exchange_n (mem expected desired : Nat) : Bool × Nat × Nat :=
  if mem = expected then (true, desired, expected) else (false, mem, mem)

/-- The loop of the host branch of `__atomic_max_uint32` (cuda_common.h:457-466),
with no other writer of the cell: the final `oldval` and the cell content, or
`none` when `fuel` rounds were not enough. -/
def __atomic_max_uint32_loop : Nat → Nat → Nat → Nat → Option (Nat × Nat)
  | 0, mem, oldval, ival => if oldval > ival then none else some (oldval, mem)
  | fuel + 1, mem, oldval, ival =>
    if oldval > ival then
      let r := __atomic_compare_exchange_n mem oldval ival
      if r.1 then some (r.2.2, r.2.1)
      else __atomic_max_uint32_loop fuel r.2.1 r.2.2 ival
    else some (oldval, mem)

/-- Host (non-CUDA) branch of `__atomic_max_uint32(ptr, ival)` (cuda_common.h:455-467)
on a cell holding `mem`: the returned value and the new content of the cell. -/
def __atomic_max_uint32 (fuel mem ival : Nat) : Option (Nat × Nat) :=
  let oldval := mem
  __atomic_max_uint32_loop fuel mem oldval ival

/-! ### Layout of the task descriptor -/

/-- `WARPSIZE` (cuda_common.h:16). -/
def WARPSIZE : Nat := 32

/-- `UNIT_TUPLES_PER_DEPTH` (cuda_common.h:114). -/
def UNIT_TUPLES_PER_DEPTH : Nat := 2 * WARPSIZE

/-- `offsetof(kern_warp_context, pos[n_dims])`: eight 4-byte fields, the 64
entries of `lp_items`, then 8 bytes for each `pos` item. -/
def offsetof_kern_warp_context_pos (n_dims : Nat) : Nat :=
  8 * 4 + 4 * UNIT_TUPLES_PER_DEPTH + 8 * n_dims

/-- `__KERN_WARP_CONTEXT_BASESZ(n_dims)` (cuda_common.h:154). -/
def __KERN_WARP_CONTEXT_BASESZ (X : XpuCommon) (n_dims : Nat) : Nat :=
  X.MAXALIGN (offsetof_kern_warp_context_pos n_dims)

/-- `KERN_WARP_CONTEXT_UNITSZ(n_dims,nbytes)` (cuda_common.h:156).  Its operands
are the `uint32_t` fields `kvars_ndims` and `kvars_nbytes`, so the product of
the second summand is taken modulo `2 ^ 32` before it is widened to `size_t`. -/
def KERN_WARP_CONTEXT_UNITSZ (X : XpuCommon) (n_dims nbytes : Nat) : Nat :=
  __KERN_WARP_CONTEXT_BASESZ X n_dims + (nbytes * UNIT_TUPLES_PER_DEPTH * n_dims) % 2 ^ 32

/-- `__KERN_GPUTASK_WARP_OFFSET(n_rels,n_dims,nbytes,gid)` (cuda_common.h:229);
each `stats` item takes 8 bytes. -/
def __KERN_GPUTASK_WARP_OFFSET (X : XpuCommon) (n_rels n_dims nbytes gid : Nat) : Nat :=
  X.MAXALIGN (X.offsetof_kern_gputask_stats + 8 * n_rels) +
    KERN_WARP_CONTEXT_UNITSZ X n_dims nbytes * (gid / WARPSIZE)

/-- `KERN_GPUTASK_WARP_CONTEXT(kgtask)` (cuda_common.h:233) as a byte offset from
`kgtask`, for the thread with `get_global_id() = gid`. -/
def KERN_GPUTASK_WARP_CONTEXT (X : XpuCommon) (n_rels n_dims nbytes gid : Nat) : Nat :=
  __KERN_GPUTASK_WARP_OFFSET X n_rels n_dims nbytes gid

/-- `KERN_GPUTASK_LSTATE_ARRAY(kgtask)` (cuda_common.h:240) as a byte offset from
`kgtask`; `none` is NULL. -/
def KERN_GPUTASK_LSTATE_ARRAY (X : XpuCommon) (n_rels n_dims nbytes global_size gid : Nat) :
    Option Nat :=
  if n_rels = 0 then none
  else some (__KERN_GPUTASK_WARP_OFFSET X n_rels n_dims nbytes global_size +
    4 * n_dims * gid)

/-- Modelled from the spec: the warp context of the scan kernel, whose body is not
among the sources (section 3 "Warp Context", section 4.3).  The fields `smx_row_count`
(source cursor), `depth`, `scan_done` and `pos_read` / `pos_write` (`pos[0]`) are
those of `kern_warp_context` (cuda_common.h:115-131).  `kvars` holds the entries of
the depth-0 queue between `pos_read` and `pos_write`, oldest first, each the index
of a source row.  `suspended` tells that the warp has left the current launch by
suspension; it is not part of the saved context. -/
structure scan_warp where
  smx_row_count : Nat
  depth : Int
  scan_done : Int
  pos_read : Nat
  pos_write : Nat
  kvars : List Nat
  suspended : Bool
deriving DecidableEq, Repr

/-- Modelled from the spec: the task descriptor `kern_gputask` (cuda_common.h:192-227)
of a scan with the chunks it works on (section 3 "Task Descriptor"): resume flag,
suspend counter, statistics, the warp contexts, `dst` the rows appended to the
destination chunk in the current launch, `output` the rows the host has collected
from earlier launches.  A row is identified by its index in the source chunk.
`consumed` is a ghost field: the source row indices loaded so far. -/
structure scan_task where
  resume_context : Bool
  suspend_count : Nat
  nitems_raw : Nat
  nitems_in : Nat
  nitems_out : Nat
  warps : List scan_warp
  dst : List Nat
  output : List Nat
  consumed : List Nat
deriving DecidableEq, Repr

/-- Modelled from the spec: a warp context of a first launch, zero-cleared. -/
def scan_warp_zero : scan_warp := ⟨0, 0, 0, 0, 0, [], false⟩

/-- Modelled from the spec: the task descriptor before the first launch. -/
def scan_task_init : scan_task := ⟨false, 0, 0, 0, 0, [], [], [], []⟩

/-- Modelled from the spec: `execGpuScanLoadSource` is only declared in
cuda_common.h:165-173; its body is missing.  After section 4.3 (LOAD_SOURCE,
EVAL_QUALS): if the queue of warp `w` has room for a unit of WARPSIZE rows, the warp
takes its next unit of the chunk of `R` rows (the `W` warps stride over the units:
unit `smx_row_count * W + w`), advances its source cursor, evaluates the quals on
each row and buffers the rows that pass; when its units are exhausted it sets
`scan_done`.  Then it advances to the projection. -/
def scan_load_source (R W : Nat) (quals : Nat → Bool) (s : scan_task) (w : Nat)
    (wp : scan_warp) : scan_task :=
  if wp.pos_write - wp.pos_read + WARPSIZE ≤ UNIT_TUPLES_PER_DEPTH then
    let index := (wp.smx_row_count * W + w) * WARPSIZE
    if index < R then
      let rows := List.range' index (min WARPSIZE (R - index))
      let matched := rows.filter quals
      { s with
        warps := s.warps.set w
          { wp with
            smx_row_count := wp.smx_row_count + 1
            pos_write := wp.pos_write + matched.length
            kvars := wp.kvars ++ matched
            depth := 1 }
        nitems_raw := s.nitems_raw + rows.length
        nitems_in := s.nitems_in + matched.length
        consumed := s.consumed ++ rows }
    else
      { s with warps := s.warps.set w { wp with scan_done := 1, depth := 1 } }
  else
    { s with warps := s.warps.set w { wp with depth := 1 } }

/-- Modelled from the spec: the projection stage of the scan kernel, whose body is
missing (section 4.3, PROJECT and the suspend trigger; section 4.1, append by slot
reservation).  With fewer than WARPSIZE rows buffered while the source may still
produce rows, the warp revisits depth 0.  With nothing buffered and `scan_done` set it is DONE
(`depth = -1`).  Otherwise it appends a batch of up to WARPSIZE buffered rows to the
destination chunk of `nrooms` rows if the whole batch fits; if not, it suspends: the
suspend counter is incremented, the context keeps its positions, and no row of the
batch is written. -/
def scan_projection (nrooms : Nat) (s : scan_task) (w : Nat) (wp : scan_warp) : scan_task :=
  if wp.scan_done < 1 ∧ wp.pos_write - wp.pos_read < WARPSIZE then
    { s with warps := s.warps.set w { wp with depth := 0 } }
  else
    let n := min WARPSIZE (wp.pos_write - wp.pos_read)
    if n = 0 then
      { s with warps := s.warps.set w { wp with depth := -1 } }
    else if s.dst.length + n ≤ nrooms then
      { s with
        warps := s.warps.set w
          { wp with pos_read := wp.pos_read + n, kvars := wp.kvars.drop n }
        dst := s.dst ++ wp.kvars.take n
        nitems_out := s.nitems_out + n }
    else
      { s with
        warps := s.warps.set w { wp with suspended := true }
        suspend_count := s.suspend_count + 1 }

/-- Modelled from the spec: one step of warp `w` in the main loop of the scan kernel;
a warp that is DONE or has suspended in this launch does nothing. -/
def scan_warp_step (R W nrooms : Nat) (quals : Nat → Bool) (s : scan_task) (w : Nat) :
    scan_task :=
  match s.warps[w]? with
  | none => s
  | some wp =>
    if wp.suspended = true ∨ wp.depth < 0 then s
    else if wp.depth = 0 then scan_load_source R W quals s w wp
    else scan_projection nrooms s w wp

/-- Modelled from the spec: one launch of `kern_gpuscan_main` (only declared in
cuda_common.h:337-343; its body is missing) on a destination chunk of `nrooms`
rows.  With `resume_context` set every warp restores its saved context (cursor,
depth, scan_done, positions, buffered entries); otherwise the contexts are
zero-cleared.  `sched` is the interleaving of the warps: the list of the warp
numbers in the order of their steps.  The contexts are saved in the task
descriptor when the launch ends. -/
def kern_gpuscan_main (R W : Nat) (quals : Nat → Bool) (nrooms : Nat) (sched : List Nat)
    (t : scan_task) : scan_task :=
  let entered : scan_task :=
    { t with
      warps :=
        if t.resume_context then t.warps.map (fun wp => { wp with suspended := false })
        else List.replicate W scan_warp_zero
      dst := [] }
  sched.foldl (scan_warp_step R W nrooms quals) entered

/-- Modelled from the spec: the host side of one launch (section 4.3, Resume): it
launches the kernel with destination capacity `launch.1` and interleaving
`launch.2`, collects the rows of the destination chunk, and sets the resume flag
for the next launch, which reuses the task descriptor as saved. -/
def scan_relaunch (R W : Nat) (quals : Nat → Bool) (t : scan_task)
    (launch : Nat × List Nat) : scan_task :=
  let s := kern_gpuscan_main R W quals launch.1 launch.2 t
  { s with output := s.output ++ s.dst, dst := [], resume_context := true }

/-- Modelled from the spec: a scan of a chunk of `R` rows by `W` warps as a sequence
of launches, the first one fresh and each later one a relaunch. -/
def scan_run (R W : Nat) (quals : Nat → Bool) (launches : List (Nat × List Nat)) :
    scan_task :=
  launches.foldl (scan_relaunch R W quals) scan_task_init

/-- Modelled from the spec: the single-pass non-suspending reference evaluation
(section 8): every row of the chunk is evaluated once, in order, and the rows that
pass the quals are the output. -/
def scan_reference (R : Nat) (quals : Nat → Bool) : List Nat :=
  (List.range R).filter quals

/-- The rows buffered in the queues of all warps. -/
def scan_pending (l : List scan_warp) : List Nat := (l.map scan_warp.kvars).flatten

/-- Invariant of one warp context: the positions delimit the buffered entries, a warp
that is DONE has exhausted its units and emptied its queue, and `scan_done` is set
only past the last unit of the warp. -/
def scan_warp_ok (R W : Nat) (w : Nat) (wp : scan_warp) : Prop :=
  wp.pos_write = wp.pos_read + wp.kvars.length ∧
  (wp.depth < 0 → 1 ≤ wp.scan_done ∧ wp.kvars = []) ∧
  (1 ≤ wp.scan_done → R ≤ (wp.smx_row_count * W + w) * WARPSIZE)

/-- Invariant of the scan: there are `W` contexts, each of them sound; the consumed
row indices are exactly those of the units the warps have passed; none is consumed
twice; and the rows collected, written or buffered are, with multiplicity, the
consumed rows that pass the quals. -/
def scan_inv (R W : Nat) (quals : Nat → Bool) (s : scan_task) : Prop :=
  s.warps.length = W ∧
  (∀ (w : Nat) (wp : scan_warp), s.warps[w]? = some wp → scan_warp_ok R W w wp) ∧
  (∀ i : Nat, i ∈ s.consumed ↔
    i < R ∧ ∃ wp, s.warps[i / WARPSIZE % W]? = some wp ∧ i / WARPSIZE / W < wp.smx_row_count) ∧
  s.consumed.Nodup ∧
  (∀ a : Nat, (s.output ++ s.dst ++ scan_pending s.warps).count a
    = (s.consumed.filter quals).count a)

/-- What holds of the task descriptor between two launches: nothing has run yet, or
the resume flag is set, the host has emptied the destination, and the invariant of
the scan holds of the saved warp contexts. -/
def scan_host_inv (R W : Nat) (quals : Nat → Bool) (t : scan_task) : Prop :=
  t = scan_task_init ∨ (t.resume_context = true ∧ t.dst = [] ∧ scan_inv R W quals t)

/-- Modelled from the spec: the interleaving of the single pass: each of the `W` warps
in turn takes `8 * R + 6` steps, more than it needs to reach DONE. -/
def scan_single_sched (R W : Nat) : List Nat :=
  (List.range W).flatMap (fun w => List.replicate (8 * R + 6) w)

/-- Modelled from the spec: the single non-suspending pass over the chunk (section 8):
one fresh launch whose destination chunk has room for all `R` rows. -/
def scan_single_pass (R W : Nat) (quals : Nat → Bool) : scan_task :=
  scan_run R W quals [(R, scan_single_sched R W)]

/-- Number of steps within which warp `w` reaches DONE when the destination never
lacks room: it decreases with every step of a warp that is not DONE. -/
def scan_measure (R W w : Nat) (wp : scan_warp) : Nat :=
  if wp.depth < 0 then 0
  else
    1 + 8 * (R - (wp.smx_row_count * W + w) * WARPSIZE) + 3 * (wp.pos_write - wp.pos_read)
      + (if wp.scan_done < 1 then 4 else 0)
      + (if wp.depth = 0 then 1
         else if wp.scan_done < 1 ∧ wp.pos_write - wp.pos_read < WARPSIZE then 2 else 0)

/-- The sum of `scan_measure` over the warp contexts of a list whose first context
belongs to warp `k`. -/
def scan_measure_from (R W : Nat) : Nat → List scan_warp → Nat
  | _, [] => 0
  | k, wp :: l => scan_measure R W k wp + scan_measure_from R W (k + 1) l

/-- A bound on the number of relaunches after which a scan has ended: the sum of
`scan_measure` over the saved warp contexts. -/
def scan_total_measure (R W : Nat) (t : scan_task) : Nat :=
  scan_measure_from R W 0 t.warps

/-! ### GpuCache identifiers (cuda_common.h) -/

/-- `GpuCacheIdent` (cuda_common.h:269-273): two `uint32_t` and one `uint64_t`. -/
structure GpuCacheIdent where
  database_oid : Nat
  table_oid : Nat
  signature : Nat
deriving DecidableEq, Repr

/-- `GpuCacheIdentEqual(a, b)` (cuda_common.h:275-281). -/
def GpuCacheIdentEqual (a b : GpuCacheIdent) : Bool :=
  (a.database_oid == b.database_oid &&
   a.table_oid == b.table_oid &&
   a.signature == b.signature)

/-! ### The function table (xpu_opcodes.h) -/

/-- The flags that occur in `FUNC_FLAGS`; their values come from another header. -/
inductive func_flag where
  | DEVKERN__ANY
  | DEVFUNC__LOCALE_AWARE
deriving DecidableEq, Repr

open func_flag

/-- One expansion of `FUNC_OPCODE(FUNC_SQL_NAME,FUNC_ARGS,FUNC_FLAGS,FUNC_DEV_NAME,EXTENSION)`
(xpu_opcodes.h:63).  `FUNC_ARGS` is the list of the argument types that the source
separates by `/`; `FUNC_FLAGS` is the list of the flags that the source joins by `|`;
`EXTENSION` is `none` for NULL. -/
structure func_opcode where
  FUNC_SQL_NAME : String
  FUNC_ARGS : List String
  FUNC_FLAGS : List func_flag
  FUNC_DEV_NAME : String
  EXTENSION : Option String
deriving DecidableEq, Repr

/-- `FUNC_OPCODE(...)` with a single flag. -/
def FUNC_OPCODE (FUNC_SQL_NAME : String) (FUNC_ARGS : List String) (FUNC_FLAGS : func_flag)
    (FUNC_DEV_NAME : String) (EXTENSION : Option String) : func_opcode :=
  ⟨FUNC_SQL_NAME, FUNC_ARGS, [FUNC_FLAGS], FUNC_DEV_NAME, EXTENSION⟩

/-- `__FUNC_OPCODE(FUNC_NAME,FUNC_ARGS,EXTENSION)` (xpu_opcodes.h:66-67). -/
def __FUNC_OPCODE (FUNC_NAME : String) (FUNC_ARGS : List String) (EXTENSION : Option String) :
    func_opcode :=
  ⟨FUNC_NAME, FUNC_ARGS, [DEVKERN__ANY], FUNC_NAME, EXTENSION⟩

/-- `__FUNC_LOCALE_OPCODE(FUNC_NAME,FUNC_ARGS,EXTENSION)` (xpu_opcodes.h:68-69). -/
def __FUNC_LOCALE_OPCODE (FUNC_NAME : String) (FUNC_ARGS : List String)
    (EXTENSION : Option String) : func_opcode :=
  ⟨FUNC_NAME, FUNC_ARGS, [DEVFUNC__LOCALE_AWARE, DEVKERN__ANY], FUNC_NAME, EXTENSION⟩

/-- Entries of the section "type cast functions" of the function table (xpu_opcodes.h:71-120). -/
def type_cast_functions : List func_opcode :=
  [FUNC_OPCODE "bool" ["int4"] DEVKERN__ANY "int4_to_bool" none,
   FUNC_OPCODE "int1" ["int2"] DEVKERN__ANY "int2_to_int1" (some "pg_strom"),
   FUNC_OPCODE "int1" ["int4"] DEVKERN__ANY "int4_to_int1" (some "pg_strom"),
   FUNC_OPCODE "int1" ["int8"] DEVKERN__ANY "int8_to_int1" (some "pg_strom"),
   FUNC_OPCODE "int1" ["float2"] DEVKERN__ANY "float2_to_int1" (some "pg_strom"),
   FUNC_OPCODE "int1" ["float4"] DEVKERN__ANY "float4_to_int1" (some "pg_strom"),
   FUNC_OPCODE "int1" ["float8"] DEVKERN__ANY "float8_to_int1" (some "pg_strom"),
   FUNC_OPCODE "int2" ["int1"] DEVKERN__ANY "int1_to_int2" (some "pg_strom"),
   FUNC_OPCODE "int2" ["int4"] DEVKERN__ANY "int4_to_int2" none,
   FUNC_OPCODE "int2" ["int8"] DEVKERN__ANY "int8_to_int2" none,
   FUNC_OPCODE "int2" ["float2"] DEVKERN__ANY "float2_to_int2" (some "pg_strom"),
   FUNC_OPCODE "int2" ["float4"] DEVKERN__ANY "float4_to_int2" none,
   FUNC_OPCODE "int2" ["float8"] DEVKERN__ANY "float8_to_int2" none,
   FUNC_OPCODE "int4" ["int1"] DEVKERN__ANY "int1_to_int4" (some "pg_strom"),
   FUNC_OPCODE "int4" ["int2"] DEVKERN__ANY "int2_to_int4" none,
   FUNC_OPCODE "int4" ["int8"] DEVKERN__ANY "int8_to_int4" none,
   FUNC_OPCODE "int4" ["float2"] DEVKERN__ANY "float2_to_int4" (some "pg_strom"),
   FUNC_OPCODE "int4" ["float4"] DEVKERN__ANY "float4_to_int4" none,
   FUNC_OPCODE "int4" ["float8"] DEVKERN__ANY "float8_to_int4" none,
   FUNC_OPCODE "int8" ["int1"] DEVKERN__ANY "int1_to_int8" (some "pg_strom"),
   FUNC_OPCODE "int8" ["int2"] DEVKERN__ANY "int4_to_int8" none,
   FUNC_OPCODE "int8" ["int8"] DEVKERN__ANY "int8_to_int8" none,
   FUNC_OPCODE "int8" ["float2"] DEVKERN__ANY "float2_to_int8" (some "pg_strom"),
   FUNC_OPCODE "int8" ["float4"] DEVKERN__ANY "float4_to_int8" none,
   FUNC_OPCODE "int8" ["float8"] DEVKERN__ANY "float8_to_int8" none,
   FUNC_OPCODE "float2" ["int1"] DEVKERN__ANY "int1_to_float2" (some "pg_strom"),
   FUNC_OPCODE "float2" ["int2"] DEVKERN__ANY "int2_to_float2" (some "pg_strom"),
   FUNC_OPCODE "float2" ["int4"] DEVKERN__ANY "int4_to_float2" (some "pg_strom"),
   FUNC_OPCODE "float2" ["int8"] DEVKERN__ANY "int8_to_float2" (some "pg_strom"),
   FUNC_OPCODE "float2" ["float4"] DEVKERN__ANY "float4_to_float2" (some "pg_strom"),
   FUNC_OPCODE "float2" ["float8"] DEVKERN__ANY "float8_to_float2" (some "pg_strom"),
   FUNC_OPCODE "float4" ["int1"] DEVKERN__ANY "int1_to_float4" (some "pg_strom"),
   FUNC_OPCODE "float4" ["int2"] DEVKERN__ANY "int2_to_float4" none,
   FUNC_OPCODE "float4" ["int4"] DEVKERN__ANY "int4_to_float4" none,
   FUNC_OPCODE "float4" ["int8"] DEVKERN__ANY "int8_to_float4" none,
   FUNC_OPCODE "float4" ["float2"] DEVKERN__ANY "float2_to_float4" (some "pg_strom"),
   FUNC_OPCODE "float4" ["float8"] DEVKERN__ANY "float8_to_float4" none,
   FUNC_OPCODE "float8" ["int1"] DEVKERN__ANY "int1_to_float8" (some "pg_strom"),
   FUNC_OPCODE "float8" ["int2"] DEVKERN__ANY "int2_to_float8" none,
   FUNC_OPCODE "float8" ["int4"] DEVKERN__ANY "int4_to_float8" none,
   FUNC_OPCODE "float8" ["int8"] DEVKERN__ANY "int8_to_float8" none,
   FUNC_OPCODE "float8" ["float2"] DEVKERN__ANY "float2_to_float8" (some "pg_strom"),
   FUNC_OPCODE "float8" ["float4"] DEVKERN__ANY "float4_to_float8" none]

/-- Entries of the section "add operators" of the function table (xpu_opcodes.h:122-147). -/
def add_operators : List func_opcode :=
  [__FUNC_OPCODE "int1pl" ["int1", "int1"] (some "pg_strom"),
   __FUNC_OPCODE "int12pl" ["int1", "int2"] (some "pg_strom"),
   __FUNC_OPCODE "int14pl" ["int1", "int4"] (some "pg_strom"),
   __FUNC_OPCODE "int18pl" ["int1", "int8"] (some "pg_strom"),
   __FUNC_OPCODE "int21pl" ["int2", "int1"] (some "pg_strom"),
   __FUNC_OPCODE "int2pl" ["int2", "int2"] none,
   __FUNC_OPCODE "int24pl" ["int2", "int4"] none,
   __FUNC_OPCODE "int28pl" ["int2", "int8"] none,
   __FUNC_OPCODE "int41pl" ["int4", "int1"] (some "pg_strom"),
   __FUNC_OPCODE "int42pl" ["int4", "int2"] none,
   __FUNC_OPCODE "int4pl" ["int4", "int4"] none,
   __FUNC_OPCODE "int48pl" ["int4", "int8"] none,
   __FUNC_OPCODE "int81pl" ["int8", "int1"] (some "pg_strom"),
   __FUNC_OPCODE "int82pl" ["int8", "int2"] none,
   __FUNC_OPCODE "int84pl" ["int8", "int4"] none,
   __FUNC_OPCODE "int8pl" ["int8", "int8"] none,
   __FUNC_OPCODE "float2pl" ["float2", "float2"] (some "pg_strom"),
   __FUNC_OPCODE "float24pl" ["float2", "float4"] (some "pg_strom"),
   __FUNC_OPCODE "float28pl" ["float2", "float8"] (some "pg_strom"),
   __FUNC_OPCODE "float42pl" ["float4", "float2"] (some "pg_strom"),
   __FUNC_OPCODE "float4pl" ["float4", "float4"] none,
   __FUNC_OPCODE "float48pl" ["float4", "float8"] none,
   __FUNC_OPCODE "float82pl" ["float8", "float2"] (some "pg_strom"),
   __FUNC_OPCODE "float84pl" ["float8", "float4"] none,
   __FUNC_OPCODE "float8pl" ["float8", "float8"] none]

/-- Entries of the section "subtract operators" of the function table (xpu_opcodes.h:149-174). -/
def subtract_operators : List func_opcode :=
  [__FUNC_OPCODE "int1mi" ["int1", "int1"] (some "pg_strom"),
   __FUNC_OPCODE "int12mi" ["int1", "int2"] (some "pg_strom"),
   __FUNC_OPCODE "int14mi" ["int1", "int4"] (some "pg_strom"),
   __FUNC_OPCODE "int18mi" ["int1", "int8"] (some "pg_strom"),
   __FUNC_OPCODE "int21mi" ["int2", "int1"] (some "pg_strom"),
   __FUNC_OPCODE "int2mi" ["int2", "int2"] none,
   __FUNC_OPCODE "int24mi" ["int2", "int4"] none,
   __FUNC_OPCODE "int28mi" ["int2", "int8"] none,
   __FUNC_OPCODE "int41mi" ["int4", "int1"] (some "pg_strom"),
   __FUNC_OPCODE "int42mi" ["int4", "int2"] none,
   __FUNC_OPCODE "int4mi" ["int4", "int4"] none,
   __FUNC_OPCODE "int48mi" ["int4", "int8"] none,
   __FUNC_OPCODE "int81mi" ["int8", "int1"] (some "pg_strom"),
   __FUNC_OPCODE "int82mi" ["int8", "int2"] none,
   __FUNC_OPCODE "int84mi" ["int8", "int4"] none,
   __FUNC_OPCODE "int8mi" ["int8", "int8"] none,
   __FUNC_OPCODE "float2mi" ["float2", "float2"] (some "pg_strom"),
   __FUNC_OPCODE "float24mi" ["float2", "float4"] (some "pg_strom"),
   __FUNC_OPCODE "float28mi" ["float2", "float8"] (some "pg_strom"),
   __FUNC_OPCODE "float42mi" ["float4", "float2"] (some "pg_strom"),
   __FUNC_OPCODE "float4mi" ["float4", "float4"] none,
   __FUNC_OPCODE "float48mi" ["float4", "float8"] none,
   __FUNC_OPCODE "float82mi" ["float8", "float2"] (some "pg_strom"),
   __FUNC_OPCODE "float84mi" ["float8", "float4"] none,
   __FUNC_OPCODE "float8mi" ["float8", "float8"] none]

/-- Entries of the section "subtract operators" of the function table (xpu_opcodes.h:176-201). -/
def multiply_operators : List func_opcode :=
  [__FUNC_OPCODE "int1mul" ["int1", "int1"] (some "pg_strom"),
   __FUNC_OPCODE "int12mul" ["int1", "int2"] (some "pg_strom"),
   __FUNC_OPCODE "int14mul" ["int1", "int4"] (some "pg_strom"),
   __FUNC_OPCODE "int18mul" ["int1", "int8"] (some "pg_strom"),
   __FUNC_OPCODE "int21mul" ["int2", "int1"] (some "pg_strom"),
   __FUNC_OPCODE "int2mul" ["int2", "int2"] none,
   __FUNC_OPCODE "int24mul" ["int2", "int4"] none,
   __FUNC_OPCODE "int28mul" ["int2", "int8"] none,
   __FUNC_OPCODE "int41mul" ["int4", "int1"] (some "pg_strom"),
   __FUNC_OPCODE "int42mul" ["int4", "int2"] none,
   __FUNC_OPCODE "int4mul" ["int4", "int4"] none,
   __FUNC_OPCODE "int48mul" ["int4", "int8"] none,
   __FUNC_OPCODE "int81mul" ["int8", "int1"] (some "pg_strom"),
   __FUNC_OPCODE "int82mul" ["int8", "int2"] none,
   __FUNC_OPCODE "int84mul" ["int8", "int4"] none,
   __FUNC_OPCODE "int8mul" ["int8", "int8"] none,
   __FUNC_OPCODE "float2mul" ["float2", "float2"] (some "pg_strom"),
   __FUNC_OPCODE "float24mul" ["float2", "float4"] (some "pg_strom"),
   __FUNC_OPCODE "float28mul" ["float2", "float8"] (some "pg_strom"),
   __FUNC_OPCODE "float42mul" ["float4", "float2"] (some "pg_strom"),
   __FUNC_OPCODE "float4mul" ["float4", "float4"] none,
   __FUNC_OPCODE "float48mul" ["float4", "float8"] none,
   __FUNC_OPCODE "float82mul" ["float8", "float2"] (some "pg_strom"),
   __FUNC_OPCODE "float84mul" ["float8", "float4"] none,
   __FUNC_OPCODE "float8mul" ["float8", "float8"] none]

/-- Entries of the section "divide operators" of the function table (xpu_opcodes.h:203-228). -/
def divide_operators : List func_opcode :=
  [__FUNC_OPCODE "int1div" ["int1", "int1"] (some "pg_strom"),
   __FUNC_OPCODE "int12div" ["int1", "int2"] (some "pg_strom"),
   __FUNC_OPCODE "int14div" ["int1", "int4"] (some "pg_strom"),
   __FUNC_OPCODE "int18div" ["int1", "int8"] (some "pg_strom"),
   __FUNC_OPCODE "int21div" ["int2", "int1"] (some "pg_strom"),
   __FUNC_OPCODE "int2div" ["int2", "int2"] none,
   __FUNC_OPCODE "int24div" ["int2", "int4"] none,
   __FUNC_OPCODE "int28div" ["int2", "int8"] none,
   __FUNC_OPCODE "int41div" ["int4", "int1"] (some "pg_strom"),
   __FUNC_OPCODE "int42div" ["int4", "int2"] none,
   __FUNC_OPCODE "int4div" ["int4", "int4"] none,
   __FUNC_OPCODE "int48div" ["int4", "int8"] none,
   __FUNC_OPCODE "int81div" ["int8", "int1"] (some "pg_strom"),
   __FUNC_OPCODE "int82div" ["int8", "int2"] none,
   __FUNC_OPCODE "int84div" ["int8", "int4"] none,
   __FUNC_OPCODE "int8div" ["int8", "int8"] none,
   __FUNC_OPCODE "float2div" ["float2", "float2"] (some "pg_strom"),
   __FUNC_OPCODE "float24div" ["float2", "float4"] (some "pg_strom"),
   __FUNC_OPCODE "float28div" ["float2", "float8"] (some "pg_strom"),
   __FUNC_OPCODE "float42div" ["float4", "float2"] (some "pg_strom"),
   __FUNC_OPCODE "float4div" ["float4", "float4"] none,
   __FUNC_OPCODE "float48div" ["float4", "float8"] none,
   __FUNC_OPCODE "float82div" ["float8", "float2"] (some "pg_strom"),
   __FUNC_OPCODE "float84div" ["float8", "float4"] none,
   __FUNC_OPCODE "float8div" ["float8", "float8"] none]

/-- Entries of the section "reminder operators" of the function table (xpu_opcodes.h:230-234). -/
def reminder_operators : List func_opcode :=
  [__FUNC_OPCODE "int1mod" ["int1", "int1"] (some "pg_strom"),
   __FUNC_OPCODE "int2mod" ["int2", "int2"] none,
   __FUNC_OPCODE "int4mod" ["int4", "int4"] none,
   __FUNC_OPCODE "int8mod" ["int8", "int8"] none]

/-- Entries of the section "unary plus operators" of the function table (xpu_opcodes.h:236-243). -/
def unary_plus_operators : List func_opcode :=
  [__FUNC_OPCODE "int1up" ["int1"] (some "pg_strom"),
   __FUNC_OPCODE "int2up" ["int2"] none,
   __FUNC_OPCODE "int4up" ["int2"] none,
   __FUNC_OPCODE "int8up" ["int2"] none,
   __FUNC_OPCODE "float2up" ["float2"] (some "pg_strom"),
   __FUNC_OPCODE "float4up" ["float4"] none,
   __FUNC_OPCODE "float8up" ["float8"] none]

/-- Entries of the section "unary minus operators" of the function table (xpu_opcodes.h:245-252). -/
def unary_minus_operators : List func_opcode :=
  [__FUNC_OPCODE "int1um" ["int1"] (some "pg_strom"),
   __FUNC_OPCODE "int2um" ["int2"] none,
   __FUNC_OPCODE "int4um" ["int2"] none,
   __FUNC_OPCODE "int8um" ["int2"] none,
   __FUNC_OPCODE "float2um" ["float2"] (some "pg_strom"),
   __FUNC_OPCODE "float4um" ["float4"] none,
   __FUNC_OPCODE "float8um" ["float8"] none]

/-- Entries of the section "absolute value operators" of the function table (xpu_opcodes.h:254-261). -/
def absolute_value_operators : List func_opcode :=
  [__FUNC_OPCODE "int1abs" ["int1"] (some "pg_strom"),
   __FUNC_OPCODE "int2abs" ["int2"] none,
   __FUNC_OPCODE "int4abs" ["int2"] none,
   __FUNC_OPCODE "int8abs" ["int2"] none,
   __FUNC_OPCODE "float2abs" ["float2"] (some "pg_strom"),
   __FUNC_OPCODE "float4abs" ["float4"] none,
   __FUNC_OPCODE "float8abs" ["float8"] none]

/-- Entries of the section "equal operators" of the function table (xpu_opcodes.h:263-289). -/
def equal_operators : List func_opcode :=
  [__FUNC_OPCODE "booleq" ["bool", "bool"] none,
   __FUNC_OPCODE "int1eq" ["int1", "int1"] (some "pg_strom"),
   __FUNC_OPCODE "int12eq" ["int1", "int2"] (some "pg_strom"),
   __FUNC_OPCODE "int14eq" ["int1", "int4"] (some "pg_strom"),
   __FUNC_OPCODE "int18eq" ["int1", "int8"] (some "pg_strom"),
   __FUNC_OPCODE "int21eq" ["int2", "int1"] (some "pg_strom"),
   __FUNC_OPCODE "int2eq" ["int2", "int2"] none,
   __FUNC_OPCODE "int24eq" ["int2", "int4"] none,
   __FUNC_OPCODE "int28eq" ["int2", "int8"] none,
   __FUNC_OPCODE "int41eq" ["int4", "int1"] (some "pg_strom"),
   __FUNC_OPCODE "int42eq" ["int4", "int2"] none,
   __FUNC_OPCODE "int4eq" ["int4", "int4"] none,
   __FUNC_OPCODE "int48eq" ["int4", "int8"] none,
   __FUNC_OPCODE "int81eq" ["int8", "int1"] (some "pg_strom"),
   __FUNC_OPCODE "int82eq" ["int8", "int2"] none,
   __FUNC_OPCODE "int84eq" ["int8", "int4"] none,
   __FUNC_OPCODE "int8eq" ["int8", "int8"] none,
   __FUNC_OPCODE "float2eq" ["float2", "float2"] (some "pg_strom"),
   __FUNC_OPCODE "float24eq" ["float2", "float4"] (some "pg_strom"),
   __FUNC_OPCODE "float28eq" ["float2", "float8"] (some "pg_strom"),
   __FUNC_OPCODE "float42eq" ["float4", "float2"] (some "pg_strom"),
   __FUNC_OPCODE "float4eq" ["float4", "float4"] none,
   __FUNC_OPCODE "float48eq" ["float4", "float8"] none,
   __FUNC_OPCODE "float82eq" ["float8", "float2"] (some "pg_strom"),
   __FUNC_OPCODE "float84eq" ["float8", "float4"] none,
   __FUNC_OPCODE "float8eq" ["float8", "float8"] none]

/-- Entries of the section "not equal operators" of the function table (xpu_opcodes.h:291-316). -/
def not_equal_operators : List func_opcode :=
  [__FUNC_OPCODE "int1ne" ["int1", "int1"] (some "pg_strom"),
   __FUNC_OPCODE "int12ne" ["int1", "int2"] (some "pg_strom"),
   __FUNC_OPCODE "int14ne" ["int1", "int4"] (some "pg_strom"),
   __FUNC_OPCODE "int18ne" ["int1", "int8"] (some "pg_strom"),
   __FUNC_OPCODE "int21ne" ["int2", "int1"] (some "pg_strom"),
   __FUNC_OPCODE "int2ne" ["int2", "int2"] none,
   __FUNC_OPCODE "int24ne" ["int2", "int4"] none,
   __FUNC_OPCODE "int28ne" ["int2", "int8"] none,
   __FUNC_OPCODE "int41ne" ["int4", "int1"] (some "pg_strom"),
   __FUNC_OPCODE "int42ne" ["int4", "int2"] none,
   __FUNC_OPCODE "int4ne" ["int4", "int4"] none,
   __FUNC_OPCODE "int48ne" ["int4", "int8"] none,
   __FUNC_OPCODE "int81ne" ["int8", "int1"] (some "pg_strom"),
   __FUNC_OPCODE "int82ne" ["int8", "int2"] none,
   __FUNC_OPCODE "int84ne" ["int8", "int4"] none,
   __FUNC_OPCODE "int8ne" ["int8", "int8"] none,
   __FUNC_OPCODE "float2ne" ["float2", "float2"] (some "pg_strom"),
   __FUNC_OPCODE "float24ne" ["float2", "float4"] (some "pg_strom"),
   __FUNC_OPCODE "float28ne" ["float2", "float8"] (some "pg_strom"),
   __FUNC_OPCODE "float42ne" ["float4", "float2"] (some "pg_strom"),
   __FUNC_OPCODE "float4ne" ["float4", "float4"] none,
   __FUNC_OPCODE "float48ne" ["float4", "float8"] none,
   __FUNC_OPCODE "float82ne" ["float8", "float2"] (some "pg_strom"),
   __FUNC_OPCODE "float84ne" ["float8", "float4"] none,
   __FUNC_OPCODE "float8ne" ["float8", "float8"] none]

/-- Entries of the section "greater than operators" of the function table (xpu_opcodes.h:318-343). -/
def greater_than_operators : List func_opcode :=
  [__FUNC_OPCODE "int1gt" ["int1", "int1"] (some "pg_strom"),
   __FUNC_OPCODE "int12gt" ["int1", "int2"] (some "pg_strom"),
   __FUNC_OPCODE "int14gt" ["int1", "int4"] (some "pg_strom"),
   __FUNC_OPCODE "int18gt" ["int1", "int8"] (some "pg_strom"),
   __FUNC_OPCODE "int21gt" ["int2", "int1"] (some "pg_strom"),
   __FUNC_OPCODE "int2gt" ["int2", "int2"] none,
   __FUNC_OPCODE "int24gt" ["int2", "int4"] none,
   __FUNC_OPCODE "int28gt" ["int2", "int8"] none,
   __FUNC_OPCODE "int41gt" ["int4", "int1"] (some "pg_strom"),
   __FUNC_OPCODE "int42gt" ["int4", "int2"] none,
   __FUNC_OPCODE "int4gt" ["int4", "int4"] none,
   __FUNC_OPCODE "int48gt" ["int4", "int8"] none,
   __FUNC_OPCODE "int81gt" ["int8", "int1"] (some "pg_strom"),
   __FUNC_OPCODE "int82gt" ["int8", "int2"] none,
   __FUNC_OPCODE "int84gt" ["int8", "int4"] none,
   __FUNC_OPCODE "int8gt" ["int8", "int8"] none,
   __FUNC_OPCODE "float2gt" ["float2", "float2"] (some "pg_strom"),
   __FUNC_OPCODE "float24gt" ["float2", "float4"] (some "pg_strom"),
   __FUNC_OPCODE "float28gt" ["float2", "float8"] (some "pg_strom"),
   __FUNC_OPCODE "float42gt" ["float4", "float2"] (some "pg_strom"),
   __FUNC_OPCODE "float4gt" ["float4", "float4"] none,
   __FUNC_OPCODE "float48gt" ["float4", "float8"] none,
   __FUNC_OPCODE "float82gt" ["float8", "float2"] (some "pg_strom"),
   __FUNC_OPCODE "float84gt" ["float8", "float4"] none,
   __FUNC_OPCODE "float8gt" ["float8", "float8"] none]

/-- Entries of the section "less than operators" of the function table (xpu_opcodes.h:345-370). -/
def less_than_operators : List func_opcode :=
  [__FUNC_OPCODE "int1lt" ["int1", "int1"] (some "pg_strom"),
   __FUNC_OPCODE "int12lt" ["int1", "int2"] (some "pg_strom"),
   __FUNC_OPCODE "int14lt" ["int1", "int4"] (some "pg_strom"),
   __FUNC_OPCODE "int18lt" ["int1", "int8"] (some "pg_strom"),
   __FUNC_OPCODE "int21lt" ["int2", "int1"] (some "pg_strom"),
   __FUNC_OPCODE "int2lt" ["int2", "int2"] none,
   __FUNC_OPCODE "int24lt" ["int2", "int4"] none,
   __FUNC_OPCODE "int28lt" ["int2", "int8"] none,
   __FUNC_OPCODE "int41lt" ["int4", "int1"] (some "pg_strom"),
   __FUNC_OPCODE "int42lt" ["int4", "int2"] none,
   __FUNC_OPCODE "int4lt" ["int4", "int4"] none,
   __FUNC_OPCODE "int48lt" ["int4", "int8"] none,
   __FUNC_OPCODE "int81lt" ["int8", "int1"] (some "pg_strom"),
   __FUNC_OPCODE "int82lt" ["int8", "int2"] none,
   __FUNC_OPCODE "int84lt" ["int8", "int4"] none,
   __FUNC_OPCODE "int8lt" ["int8", "int8"] none,
   __FUNC_OPCODE "float2lt" ["float2", "float2"] (some "pg_strom"),
   __FUNC_OPCODE "float24lt" ["float2", "float4"] (some "pg_strom"),
   __FUNC_OPCODE "float28lt" ["float2", "float8"] (some "pg_strom"),
   __FUNC_OPCODE "float42lt" ["float4", "float2"] (some "pg_strom"),
   __FUNC_OPCODE "float4lt" ["float4", "float4"] none,
   __FUNC_OPCODE "float48lt" ["float4", "float8"] none,
   __FUNC_OPCODE "float82lt" ["float8", "float2"] (some "pg_strom"),
   __FUNC_OPCODE "float84lt" ["float8", "float4"] none,
   __FUNC_OPCODE "float8lt" ["float8", "float8"] none]

/-- Entries of the section "relational greater-than or equal-to" of the function table (xpu_opcodes.h:372-397). -/
def greater_or_equal_operators : List func_opcode :=
  [__FUNC_OPCODE "int1ge" ["int1", "int1"] (some "pg_strom"),
   __FUNC_OPCODE "int12ge" ["int1", "int2"] (some "pg_strom"),
   __FUNC_OPCODE "int14ge" ["int1", "int4"] (some "pg_strom"),
   __FUNC_OPCODE "int18ge" ["int1", "int8"] (some "pg_strom"),
   __FUNC_OPCODE "int21ge" ["int2", "int1"] (some "pg_strom"),
   __FUNC_OPCODE "int2ge" ["int2", "int2"] none,
   __FUNC_OPCODE "int24ge" ["int2", "int4"] none,
   __FUNC_OPCODE "int28ge" ["int2", "int8"] none,
   __FUNC_OPCODE "int41ge" ["int4", "int1"] (some "pg_strom"),
   __FUNC_OPCODE "int42ge" ["int4", "int2"] none,
   __FUNC_OPCODE "int4ge" ["int4", "int4"] none,
   __FUNC_OPCODE "int48ge" ["int4", "int8"] none,
   __FUNC_OPCODE "int81ge" ["int8", "int1"] (some "pg_strom"),
   __FUNC_OPCODE "int82ge" ["int8", "int2"] none,
   __FUNC_OPCODE "int84ge" ["int8", "int4"] none,
   __FUNC_OPCODE "int8ge" ["int8", "int8"] none,
   __FUNC_OPCODE "float2ge" ["float2", "float2"] (some "pg_strom"),
   __FUNC_OPCODE "float24ge" ["float2", "float4"] (some "pg_strom"),
   __FUNC_OPCODE "float28ge" ["float2", "float8"] (some "pg_strom"),
   __FUNC_OPCODE "float42ge" ["float4", "float2"] (some "pg_strom"),
   __FUNC_OPCODE "float4ge" ["float4", "float4"] none,
   __FUNC_OPCODE "float48ge" ["float4", "float8"] none,
   __FUNC_OPCODE "float82ge" ["float8", "float2"] (some "pg_strom"),
   __FUNC_OPCODE "float84ge" ["float8", "float4"] none,
   __FUNC_OPCODE "float8ge" ["float8", "float8"] none]

/-- Entries of the section "relational less-than or equal-to" of the function table (xpu_opcodes.h:399-424). -/
def less_or_equal_operators : List func_opcode :=
  [__FUNC_OPCODE "int1le" ["int1", "int1"] (some "pg_strom"),
   __FUNC_OPCODE "int12le" ["int1", "int2"] (some "pg_strom"),
   __FUNC_OPCODE "int14le" ["int1", "int4"] (some "pg_strom"),
   __FUNC_OPCODE "int18le" ["int1", "int8"] (some "pg_strom"),
   __FUNC_OPCODE "int21le" ["int2", "int1"] (some "pg_strom"),
   __FUNC_OPCODE "int2le" ["int2", "int2"] none,
   __FUNC_OPCODE "int24le" ["int2", "int4"] none,
   __FUNC_OPCODE "int28le" ["int2", "int8"] none,
   __FUNC_OPCODE "int41le" ["int4", "int1"] (some "pg_strom"),
   __FUNC_OPCODE "int42le" ["int4", "int2"] none,
   __FUNC_OPCODE "int4le" ["int4", "int4"] none,
   __FUNC_OPCODE "int48le" ["int4", "int8"] none,
   __FUNC_OPCODE "int81le" ["int8", "int1"] (some "pg_strom"),
   __FUNC_OPCODE "int82le" ["int8", "int2"] none,
   __FUNC_OPCODE "int84le" ["int8", "int4"] none,
   __FUNC_OPCODE "int8le" ["int8", "int8"] none,
   __FUNC_OPCODE "float2le" ["float2", "float2"] (some "pg_strom"),
   __FUNC_OPCODE "float24le" ["float2", "float4"] (some "pg_strom"),
   __FUNC_OPCODE "float28le" ["float2", "float8"] (some "pg_strom"),
   __FUNC_OPCODE "float42le" ["float4", "float2"] (some "pg_strom"),
   __FUNC_OPCODE "float4le" ["float4", "float4"] none,
   __FUNC_OPCODE "float48le" ["float4", "float8"] none,
   __FUNC_OPCODE "float82le" ["float8", "float2"] (some "pg_strom"),
   __FUNC_OPCODE "float84le" ["float8", "float4"] none,
   __FUNC_OPCODE "float8le" ["float8", "float8"] none]

/-- Entries of the section "bitwise and" of the function table (xpu_opcodes.h:426-430). -/
def bitwise_and_operators : List func_opcode :=
  [__FUNC_OPCODE "int1and" ["int1", "int1"] (some "pg_strom"),
   __FUNC_OPCODE "int2and" ["int2", "int2"] none,
   __FUNC_OPCODE "int4and" ["int4", "int4"] none,
   __FUNC_OPCODE "int8and" ["int8", "int8"] none]

/-- Entries of the section "bitwise or" of the function table (xpu_opcodes.h:432-436). -/
def bitwise_or_operators : List func_opcode :=
  [__FUNC_OPCODE "int1or" ["int1", "int1"] (some "pg_strom"),
   __FUNC_OPCODE "int2or" ["int2", "int2"] none,
   __FUNC_OPCODE "int4or" ["int4", "int4"] none,
   __FUNC_OPCODE "int8or" ["int8", "int8"] none]

/-- Entries of the section "bitwise xor" of the function table (xpu_opcodes.h:438-442). -/
def bitwise_xor_operators : List func_opcode :=
  [__FUNC_OPCODE "int1xor" ["int1", "int1"] (some "pg_strom"),
   __FUNC_OPCODE "int2xor" ["int2", "int2"] none,
   __FUNC_OPCODE "int4xor" ["int4", "int4"] none,
   __FUNC_OPCODE "int8xor" ["int8", "int8"] none]

/-- Entries of the section "bitwise not" of the function table (xpu_opcodes.h:444-448). -/
def bitwise_not_operators : List func_opcode :=
  [__FUNC_OPCODE "int1not" ["int1"] (some "pg_strom"),
   __FUNC_OPCODE "int2not" ["int2"] none,
   __FUNC_OPCODE "int4not" ["int4"] none,
   __FUNC_OPCODE "int8not" ["int8"] none]

/-- Entries of the section "right shift" of the function table (xpu_opcodes.h:450-454). -/
def right_shift_operators : List func_opcode :=
  [__FUNC_OPCODE "int1shr" ["int1", "int4"] (some "pg_strom"),
   __FUNC_OPCODE "int2shr" ["int2", "int4"] none,
   __FUNC_OPCODE "int4shr" ["int4", "int4"] none,
   __FUNC_OPCODE "int8shr" ["int8", "int4"] none]

/-- Entries of the section "left shift" of the function table (xpu_opcodes.h:456-460). -/
def left_shift_operators : List func_opcode :=
  [__FUNC_OPCODE "int1shl" ["int1", "int4"] (some "pg_strom"),
   __FUNC_OPCODE "int2shl" ["int2", "int4"] none,
   __FUNC_OPCODE "int4shl" ["int4", "int4"] none,
   __FUNC_OPCODE "int8shl" ["int8", "int4"] none]

/-- Entries of the section "LIKE operators" of the function table (xpu_opcodes.h:462-472). -/
def like_operators : List func_opcode :=
  [__FUNC_OPCODE "like" ["text", "text"] none,
   __FUNC_OPCODE "textlike" ["text", "text"] none,
   __FUNC_OPCODE "bpcharlike" ["bpchar", "text"] none,
   __FUNC_OPCODE "notlike" ["text", "text"] none,
   __FUNC_OPCODE "textnlike" ["text", "text"] none,
   __FUNC_OPCODE "bpcharnlike" ["bpchar", "text"] none,
   __FUNC_LOCALE_OPCODE "texticlike" ["text", "text"] none,
   __FUNC_LOCALE_OPCODE "bpchariclike" ["bpchar", "text"] none,
   __FUNC_LOCALE_OPCODE "texticnlike" ["text", "text"] none,
   __FUNC_LOCALE_OPCODE "bpcharicnlike" ["bpchar", "text"] none]

/-- Entries of the section "String operations" of the function table (xpu_opcodes.h:474-476). -/
def string_operations : List func_opcode :=
  [__FUNC_OPCODE "textcat" ["text", "text"] none,
   __FUNC_OPCODE "concat" ["__text__"] none]

/-- The function table of xpu_opcodes.h (lines 71-476): all `FUNC_OPCODE` entries, in the
order of the file. -/
def func_opcode_table : List func_opcode :=
  type_cast_functions ++
  add_operators ++
  subtract_operators ++
  multiply_operators ++
  divide_operators ++
  reminder_operators ++
  unary_plus_operators ++
  unary_minus_operators ++
  absolute_value_operators ++
  equal_operators ++
  not_equal_operators ++
  greater_than_operators ++
  less_than_operators ++
  greater_or_equal_operators ++
  less_or_equal_operators ++
  bitwise_and_operators ++
  bitwise_or_operators ++
  bitwise_xor_operators ++
  bitwise_not_operators ++
  right_shift_operators ++
  left_shift_operators ++
  like_operators ++
  string_operations

/-- The key of an entry: its SQL function name and its argument type list. -/
def func_opcode_key (e : func_opcode) : String × List String :=
  (e.FUNC_SQL_NAME, e.FUNC_ARGS)

/-- A number below 65521 for a string.  Two strings with different numbers are
different strings. -/
def str_hash (s : String) : Nat :=
  s.data.foldl (fun acc c => (acc * 9 + c.toNat) % 65521) 0

/-- A number below 65521 for the key (SQL function name, argument type list) of an
entry. -/
def key_hash (key : String × List String) : Nat :=
  key.2.foldl (fun acc a => (acc * 8 + str_hash a) % 65521) (str_hash key.1)

/-- Marks the numbers of the list one by one in the bit set `mask`: `none` as soon as a
number is marked already, otherwise the final bit set. -/
def mark_distinct : List Nat → Nat → Option Nat
  | [], mask => some mask
  | h :: l, mask =>
    if (mask >>> h) % 2 = 1 then none else mark_distinct l (mask ||| 2 ^ h)

/-- The numeric types of the type-cast section. -/
def numeric_types : List String :=
  ["int1", "int2", "int4", "int8", "float2", "float4", "float8"]

/-- The entries of the type-cast section whose SQL name (result type) is `R` and whose
only argument type is `A`. -/
def cast_entries (A R : String) : List func_opcode :=
  type_cast_functions.filter (fun e => e.FUNC_SQL_NAME == R && e.FUNC_ARGS == [A])

/-- The unary operator entries of the function table: unary plus, unary minus,
absolute value and bitwise not. -/
def unary_operators : List func_opcode :=
  unary_plus_operators ++ unary_minus_operators ++ absolute_value_operators ++
    bitwise_not_operators

/-- The type `T` that the name of a unary operator `<T>up`, `<T>um`, `<T>abs` or
`<T>not` starts with, if it is one of the numeric types. -/
def unary_operand_type (name : String) : Option String :=
  numeric_types.find? (fun T =>
    name == T ++ "up" || name == T ++ "um" || name == T ++ "abs" || name == T ++ "not")

/-! ### Error reports of the host code (main.c) -/

/-- The error levels of PostgreSQL that matter here: `ereport` returns to its caller
below `ERROR` and does not return at `ERROR`. -/
inductive elevel where
  | INFO | LOG | ERROR
deriving DecidableEq, Repr

/-- What `ereport` hands to the error handler: the level, `errcode(...)` and
`errmsg(...)`. -/
structure ErrorData where
  elevel : elevel
  sqlerrcode : Nat
  message : String
deriving DecidableEq, Repr

/-- `ereport(elevel, ...)` of PostgreSQL: at `ERROR` control leaves the caller with the
error data, otherwise the call returns. -/
def ereport (edata : ErrorData) : Except ErrorData Unit :=
  if edata.elevel = elevel.ERROR then .error edata else .ok ()

/-- The conversion `%u` of a line number: the value is read as an unsigned 32-bit
integer and printed in decimal. -/
def fmt_u (n : Int) : String := toString (n % 2 ^ 32).toNat

/-- `pg_kern_ereport(kcxt)` (main.c:45-53): `.error` is the report raised, `.ok ()` would
be a return to the caller. -/
def pg_kern_ereport (kcxt : kern_context) : Except ErrorData Unit := do
  ereport ⟨elevel.ERROR, kcxt.errcode,
    kcxt.error_filename ++ ":" ++ fmt_u kcxt.error_lineno ++ "  " ++ kcxt.error_message⟩

/-! ### CPU fallback of a scan (gpu_scan.c) -/

/-- A heap tuple, identified by a handle. -/
abbrev HeapTuple := Nat

/-- The expression context `pts->css.ss.ps.ps_ExprContext`: the tuple in the slot
that `ecxt_scantuple` points to, if it has been set. -/
structure ExprContext where
  ecxt_scantuple : Option HeapTuple
deriving DecidableEq, Repr

/-- The fields of `pgstromTaskState` that `ExecFallbackCpuScan` touches.  `base_slot` is
the tuple stored in the slot `pts->base_slot`; `base_quals` and `fallback_proj` are
handles of the compiled WHERE clause and projection, `none` for NULL;
`fallback_tuples` lists the arguments of the calls of `pgstromStoreFallbackTuple`, in
order. -/
structure pgstromTaskState where
  base_slot : Option HeapTuple
  base_quals : Option Nat
  fallback_proj : Option Nat
  ps_ExprContext : ExprContext
  fallback_tuples : List HeapTuple
deriving DecidableEq, Repr

/-- The PostgreSQL executor functions that `ExecFallbackCpuScan` calls: `ExecQual` on a
compiled qualifier and an expression context, and `ExecProject` followed by
`ExecFetchSlotHeapTuple`, which reads the slots of the task state. -/
structure Executor where
  ExecQual : Nat → ExprContext → Bool
  ExecProject : Nat → pgstromTaskState → HeapTuple

/-- `ExecFallbackCpuScan(pts, kds, tuple)` (gpu_scan.c:847-883): the task state after
the call and the value of the static `count`, which only selects whether the message at
level INFO is printed.  `kds` is not used by the body. -/
def ExecFallbackCpuScan (X : Executor) (pts : pgstromTaskState) (count : Nat)
    (tuple : HeapTuple) : pgstromTaskState × Nat :=
  -- ExecForceStoreHeapTuple(tuple, scan_slot, false)
  let pts : pgstromTaskState := { pts with base_slot := some tuple }
  -- check WHERE-clause if any
  let checked : pgstromTaskState × Bool :=
    match pts.base_quals with
    | some base_quals =>
      let econtext : ExprContext := { pts.ps_ExprContext with ecxt_scantuple := pts.base_slot }
      ({ pts with ps_ExprContext := econtext }, X.ExecQual base_quals econtext)
    | none => (pts, true)
  let pts := checked.1
  if !checked.2 then (pts, count)
  else
    -- apply Projection if any
    let tuple :=
      match pts.fallback_proj with
      | some fallback_proj => X.ExecProject fallback_proj pts
      | none => tuple
    -- pgstromStoreFallbackTuple(pts, tuple)
    ({ pts with fallback_tuples := pts.fallback_tuples ++ [tuple] }, count + 1)

/-- A sample executor: a qualifier passes the tuples above its handle, a projection adds
its handle to the tuple of the scan slot. -/
def sample_executor : Executor where
  ExecQual := fun base_quals econtext => decide (base_quals < econtext.ecxt_scantuple.getD 0)
  ExecProject := fun fallback_proj pts => pts.base_slot.getD 0 + fallback_proj

/-! ### Removal of dummy plans (main.c) -/

/-- The node tags that `pgstrom_removal_dummy_plans` tells apart; every other tag is
`T_Other`. -/
inductive NodeTag where
  | T_Append | T_MergeAppend | T_BitmapAnd | T_BitmapOr | T_SubqueryScan | T_CustomScan
  | T_Other (tag : Nat)
deriving DecidableEq, Repr

/-- The `CustomScanMethods` tables a CustomScan node may point to. -/
inductive CustomScanMethods where
  | pgstrom_dummy_plan_methods
  | gpuscan_plan_methods
  | dpuscan_plan_methods
  | other (id : Nat)
deriving DecidableEq, Repr

/-- A target list entry: the type of its expression (`exprType`) and its `resname`. -/
structure TargetEntry where
  exprType : Nat
  resname : Option String
deriving DecidableEq, Repr

/-- A plan tree.  `null` is the NULL pointer.  A node carries the fields of `Plan`
(`targetlist`, `lefttree`, `righttree`) and those of the node types the function looks
into: `plans` is `appendplans`, `mergeplans`, `bitmapplans` or `custom_plans` according
to the tag, `subplan` is the subplan of a SubqueryScan, `methods` the method table of a
CustomScan. -/
inductive Plan where
  | null : Plan
  | node (tag : NodeTag) (targetlist : List TargetEntry) (lefttree righttree : Plan)
      (plans : List Plan) (subplan : Plan) (methods : CustomScanMethods) : Plan
deriving Repr

open NodeTag CustomScanMethods

/-- The sanity checks of a dummy node against its subplan and the assignment of the
resource names (main.c:258-274): the target list of the subplan afterwards. -/
def dummy_assign_resnames (cscan_tlist subplan_tlist : List TargetEntry) :
    Except String (List TargetEntry) :=
  if cscan_tlist.length ≠ subplan_tlist.length then
    .error "Bug? dummy plan's targelist length mismatch"
  else
    (cscan_tlist.zip subplan_tlist).mapM (fun (tle1, tle2) =>
      if tle1.exprType ≠ tle2.exprType then
        (.error "Bug? dummy TLE type mismatch" : Except String TargetEntry)
      else .ok ⟨tle2.exprType, tle1.resname⟩)

/-- The target list of the node that `*p_plan` points to on entry: unchanged, or after
the checks and assignments against the dummy node just removed. -/
def dummy_checked_tlist (upper : Option (List TargetEntry)) (targetlist : List TargetEntry) :
    Except String (List TargetEntry) :=
  match upper with
  | none => .ok targetlist
  | some cscan_tlist => dummy_assign_resnames cscan_tlist targetlist

mutual
/-- `pgstrom_removal_dummy_plans(pstmt, p_plan)` (main.c:193-292): the plan that `*p_plan`
points to afterwards, or the error raised.  `upper` is `some tlist` when the call is the
one at main.c:276, made after a dummy node with target list `tlist` has been replaced
by its subplan: the checks and assignments of main.c:258-274 on the subplan are done
on entry. -/
def pgstrom_removal_dummy_plans : Option (List TargetEntry) → Plan → Except String Plan
  | none, .null => .ok .null
  | some _, .null => .error "dummy plan without subplan (NULL dereference)"
  | upper, .node tag targetlist0 lefttree righttree plans subplan methods =>
    match dummy_checked_tlist upper targetlist0 with
    | .error e => .error e
    | .ok targetlist =>
      if tag = T_CustomScan ∧ methods = pgstrom_dummy_plan_methods then
        pgstrom_removal_dummy_plans (some targetlist) lefttree
      else
        match (if tag = T_Append ∨ tag = T_MergeAppend ∨ tag = T_BitmapAnd ∨ tag = T_BitmapOr
                  ∨ tag = T_CustomScan then
                 pgstrom_removal_dummy_plans_list plans
               else Except.ok plans : Except String (List Plan)) with
        | .error e => .error e
        | .ok plans =>
          match (if tag = T_SubqueryScan then pgstrom_removal_dummy_plans none subplan
                 else Except.ok subplan : Except String Plan) with
          | .error e => .error e
          | .ok subplan =>
            match pgstrom_removal_dummy_plans none lefttree with
            | .error e => .error e
            | .ok lefttree =>
              match pgstrom_removal_dummy_plans none righttree with
              | .error e => .error e
              | .ok righttree =>
                .ok (.node tag targetlist lefttree righttree plans subplan methods)
/-- The loops `foreach (lc, ...) pgstrom_removal_dummy_plans(pstmt, (Plan **)&lfirst(lc))`. -/
def pgstrom_removal_dummy_plans_list : List Plan → Except String (List Plan)
  | [] => .ok []
  | p :: ps =>
    match pgstrom_removal_dummy_plans none p with
    | .error e => .error e
    | .ok p =>
      match pgstrom_removal_dummy_plans_list ps with
      | .error e => .error e
      | .ok ps => .ok (p :: ps)
end

mutual
/-- Whether a CustomScan node with the dummy methods is reachable from the plan through
lefttree, righttree, the child lists of Append, MergeAppend, BitmapAnd, BitmapOr, the
subplan of SubqueryScan, or the custom_plans of a CustomScan. -/
def reaches_dummy : Plan → Bool
  | .null => false
  | .node tag _ lefttree righttree plans subplan methods =>
    (tag = T_CustomScan ∧ methods = pgstrom_dummy_plan_methods) ||
    reaches_dummy lefttree || reaches_dummy righttree ||
    ((tag = T_Append ∨ tag = T_MergeAppend ∨ tag = T_BitmapAnd ∨ tag = T_BitmapOr
        ∨ tag = T_CustomScan) && reaches_dummy_list plans) ||
    (tag = T_SubqueryScan && reaches_dummy subplan)
def reaches_dummy_list : List Plan → Bool
  | [] => false
  | p :: ps => reaches_dummy p || reaches_dummy_list ps
end

/-- The fields of `PlannedStmt` that `pgstrom_post_planner` works on. -/
structure PlannedStmt where
  planTree : Plan
  subplans : List Plan
deriving Repr

/-- `pgstrom_post_planner` (main.c:297-316): `planner_hook_next` is the planner called
first, `args` stands for its four arguments; the result is the statement returned, or
the error raised by the removal. -/
def pgstrom_post_planner {α : Type} (planner_hook_next : α → PlannedStmt) (args : α) :
    Except String PlannedStmt :=
  let pstmt := planner_hook_next args
  match pgstrom_removal_dummy_plans none pstmt.planTree with
  | .error e => .error e
  | .ok planTree =>
    match pgstrom_removal_dummy_plans_list pstmt.subplans with
    | .error e => .error e
    | .ok subplans => .ok { pstmt with planTree := planTree, subplans := subplans }

/-- A leaf of a sample plan: a node without children and with the given target list. -/
def sample_leaf (targetlist : List TargetEntry) : Plan :=
  .node (T_Other 0) targetlist .null .null [] .null (other 0)

/-- A dummy CustomScan over `subplan`, as built by `pgstrom_dummy_create_plan`. -/
def sample_dummy (targetlist : List TargetEntry) (subplan : Plan) : Plan :=
  .node T_CustomScan targetlist subplan .null [] .null pgstrom_dummy_plan_methods

/-- A sample statement: the plan tree is an Append whose first child is a leaf under two
dummy nodes, one on the other, and whose second child is a SubqueryScan over a dummy
node; its only entry of `subplans` is a node with a dummy node as `righttree`. -/
def sample_planned_stmt : PlannedStmt where
  planTree :=
    .node T_Append [] .null .null
      [sample_dummy [⟨23, some "a"⟩] (sample_dummy [⟨23, some "b"⟩] (sample_leaf [⟨23, none⟩])),
       .node T_SubqueryScan [] .null .null []
         (sample_dummy [⟨20, some "c"⟩] (sample_leaf [⟨20, none⟩])) (other 0)]
      .null (other 0)
  subplans :=
    [.node (T_Other 1) [] .null (sample_dummy [] (sample_leaf [])) [] .null (other 0)]

/-! ### Planner of the scan paths (gpu_scan.c) -/

/-- A `RestrictInfo`: the clause it wraps (a handle of the expression) and its
`pseudoconstant` flag. -/
structure RestrictInfo where
  clause : Nat
  pseudoconstant : Bool
deriving DecidableEq, Repr

/-- The fields of `ParamPathInfo` read here, without the row estimate `ppi_rows`. -/
structure ParamPathInfo where
  ppi_clauses : List RestrictInfo
deriving DecidableEq, Repr

/-- `rte->relkind`. -/
inductive relkind where
  | RELKIND_RELATION | RELKIND_MATVIEW | RELKIND_FOREIGN_TABLE
  | other (c : Nat)
deriving DecidableEq, Repr

/-- What the planner functions of gpu_scan.c read from PostgreSQL and from other
files of PG-Strom for one base relation: the constants of the device kinds, the
state of `baserel` and `rte`, and the results of the functions called. -/
structure ScanPlanner where
  DEVKIND__ANY : Nat
  DEVKIND__NVIDIA_GPU : Nat
  DEVKIND__NVIDIA_DPU : Nat
  is_dummy_rel : Bool
  rte_inh : Bool
  rte_relkind : relkind
  relation_am_is_heap : Bool
  baseRelIsArrowFdw : Bool
  consider_parallel : Bool
  baserestrictinfo : List RestrictInfo
  get_baserel_parampathinfo : Option ParamPathInfo
  pgstrom_gpu_expression : Nat → Option Int
  compute_parallel_worker : Int
  baseRelHasGpuCache : Int
  GetOptimalDpuForArrowFdw : Option Nat
  GetOptimalDpuForBaseRel : Option Nat

/-- The inner loop of `sort_device_qualifiers` (gpu_scan.c:53-61) entered with `j`, with
`n` rounds to go: the final `dcost`, `dqual` and `k`. -/
def sort_device_qualifiers_inner {α : Type} (dev_quals : List α) (dev_costs : List Int) :
    Nat → Nat → Int × Option α × Nat → Int × Option α × Nat
  | 0, _, acc => acc
  | n + 1, j, (dcost, dqual, k) =>
    if dcost > dev_costs.getD j 0 then
      sort_device_qualifiers_inner dev_quals dev_costs n (j + 1)
        (dev_costs.getD j 0, dev_quals[j]?, j)
    else
      sort_device_qualifiers_inner dev_quals dev_costs n (j + 1) (dcost, dqual, k)

/-- The outer loop of `sort_device_qualifiers` (gpu_scan.c:47-70) entered with `i`, with
`n` rounds to go, on the values of the cells of `dev_quals_list` and the array
`dev_costs`. -/
def sort_device_qualifiers_outer {α : Type} (nitems : Nat) :
    Nat → Nat → List α × List Int → List α × List Int
  | 0, _, acc => acc
  | n + 1, i, (dev_quals, dev_costs) =>
    let r := sort_device_qualifiers_inner dev_quals dev_costs (nitems - (i + 1)) (i + 1)
      (dev_costs.getD i 0, dev_quals[i]?, i)
    let dcost := r.1
    let dqual := r.2.1
    let k := r.2.2
    if i ≠ k then
      let dev_costs := (dev_costs.set k (dev_costs.getD i 0)).set i dcost
      let dev_quals :=
        match dev_quals[i]?, dqual with
        | some qi, some dq => (dev_quals.set k qi).set i dq
        | _, _ => dev_quals
      sort_device_qualifiers_outer nitems n (i + 1) (dev_quals, dev_costs)
    else
      sort_device_qualifiers_outer nitems n (i + 1) (dev_quals, dev_costs)

/-- `sort_device_qualifiers(dev_quals_list, dev_costs_list)` (gpu_scan.c:28-71): the
values held by the cells of `dev_quals_list` afterwards.  The costs are copied into a
local array, so `dev_costs_list` itself is left as it was.  The callers pass two lists
of the same length; an element of the array that a shorter `dev_costs_list` would
leave unset reads as 0 here. -/
def sort_device_qualifiers {α : Type} (dev_quals_list : List α) (dev_costs_list : List Int) :
    List α :=
  let nitems := dev_quals_list.length
  (sort_device_qualifiers_outer nitems nitems 0 (dev_quals_list, dev_costs_list)).1

/-- The local array `dev_costs` of `sort_device_qualifiers` when the function returns. -/
def sort_device_qualifiers_dev_costs {α : Type} (dev_quals_list : List α)
    (dev_costs_list : List Int) : List Int :=
  let nitems := dev_quals_list.length
  (sort_device_qualifiers_outer nitems nitems 0 (dev_quals_list, dev_costs_list)).2

/-- The invariant of the outer loop of `sort_device_qualifiers` before round `i`. -/
def sort_inv {α : Type} (N : Nat) (quals0 : List α) (costs0 : List Int) (i : Nat)
    (s : List α × List Int) : Prop :=
  s.1.length = N ∧ s.2.length = N ∧ (s.1.zip s.2).Perm (quals0.zip costs0) ∧
  ∀ a b, a < i → a ≤ b → b < N → s.2.getD a 0 ≤ s.2.getD b 0

/-- The fields of `pgstromPlanInfo` that `__buildOuterScanPlanInfo` fills from its
arguments and from the device lookups.  The row counts and costs, which are floating
point, the BRIN-index fields and `outer_refs` are left out. -/
structure pgstromPlanInfo where
  xpu_task_flags : Nat
  gpu_cache_dindex : Int
  ds_entry : Option Nat
  host_quals : List Nat
  scan_quals : List Nat
  parallel_nworkers : Int
deriving DecidableEq, Repr

/-- `extract_actual_clauses(restrictinfo_list, pseudoconstant)` of PostgreSQL: the
clauses of the entries whose `pseudoconstant` flag has the given value. -/
def extract_actual_clauses (restrictinfo_list : List RestrictInfo) (pseudoconstant : Bool) :
    List Nat :=
  (restrictinfo_list.filter (fun rinfo => rinfo.pseudoconstant = pseudoconstant)).map
    (fun rinfo => rinfo.clause)

/-- `__buildOuterScanPlanInfo` (gpu_scan.c:76-282) without the cost arithmetic: `.ok none`
is `return NULL`, `.error` is `elog(ERROR, ...)`. -/
def __buildOuterScanPlanInfo (P : ScanPlanner) (xpu_task_flags : Nat) (parallel_path : Bool)
    (dev_quals host_quals : List RestrictInfo) : Except String (Option pgstromPlanInfo) :=
  let parallel_nworkers : Int := if parallel_path then P.compute_parallel_worker else 0
  if parallel_path ∧ parallel_nworkers ≤ 0 then
    .ok none
  else if xpu_task_flags &&& P.DEVKIND__ANY = P.DEVKIND__NVIDIA_GPU then
    .ok (some
      { xpu_task_flags := xpu_task_flags
        gpu_cache_dindex := P.baseRelHasGpuCache
        ds_entry := none
        host_quals := extract_actual_clauses host_quals false
        scan_quals := extract_actual_clauses dev_quals false
        parallel_nworkers := parallel_nworkers })
  else if xpu_task_flags &&& P.DEVKIND__ANY = P.DEVKIND__NVIDIA_DPU then
    let ds_entry :=
      if P.rte_relkind = relkind.RELKIND_FOREIGN_TABLE then P.GetOptimalDpuForArrowFdw
      else P.GetOptimalDpuForBaseRel
    match ds_entry with
    | none => .ok none
    | some ds =>
      .ok (some
        { xpu_task_flags := xpu_task_flags
          gpu_cache_dindex := -1
          ds_entry := some ds
          host_quals := extract_actual_clauses host_quals false
          scan_quals := extract_actual_clauses dev_quals false
          parallel_nworkers := parallel_nworkers })
  else
    .error "Bug? unsupported xpu_task_flags"

/-- The `foreach` loops of `buildOuterScanPlanInfo` (gpu_scan.c:325-345 and 351-371) over
the remaining clauses, from the lists `dev_quals`, `dev_costs` and `host_quals` built so
far; `none` is the `return NULL` of the loop body. -/
def fetch_device_host_quals (P : ScanPlanner) (allow_host_quals : Bool) :
    List RestrictInfo → List RestrictInfo × List Int × List RestrictInfo →
    Option (List RestrictInfo × List Int × List RestrictInfo)
  | [], acc => some acc
  | rinfo :: rest, (dev_quals, dev_costs, host_quals) =>
    match P.pgstrom_gpu_expression rinfo.clause with
    | some devcost =>
      fetch_device_host_quals P allow_host_quals rest
        (dev_quals ++ [rinfo], dev_costs ++ [devcost], host_quals)
    | none =>
      if allow_host_quals then
        fetch_device_host_quals P allow_host_quals rest
          (dev_quals, dev_costs, host_quals ++ [rinfo])
      else
        none

/-- `buildOuterScanPlanInfo` (gpu_scan.c:284-385).  The result holds the plan info with
the `param_info` stored through `p_param_info`; `.ok none` is `return NULL`. -/
def buildOuterScanPlanInfo (P : ScanPlanner) (xpu_task_flags : Nat)
    (parallel_path allow_host_quals allow_no_device_quals : Bool) :
    Except String (Option (pgstromPlanInfo × Option ParamPathInfo)) :=
  let relkind_ok :=
    match P.rte_relkind with
    | relkind.RELKIND_RELATION => P.relation_am_is_heap
    | relkind.RELKIND_MATVIEW => P.relation_am_is_heap
    | relkind.RELKIND_FOREIGN_TABLE => P.baseRelIsArrowFdw
    | relkind.other _ => false
  if !relkind_ok then
    .ok none
  else if parallel_path ∧ !P.consider_parallel then
    .ok none
  else
    match fetch_device_host_quals P allow_host_quals P.baserestrictinfo ([], [], []) with
    | none => .ok none
    | some acc =>
      let param_info := P.get_baserel_parampathinfo
      match (match param_info with
             | some ppi => fetch_device_host_quals P allow_host_quals ppi.ppi_clauses acc
             | none => some acc) with
      | none => .ok none
      | some (dev_quals, dev_costs, host_quals) =>
        if !allow_no_device_quals ∧ dev_quals = [] then
          .ok none
        else
          let dev_quals := sort_device_qualifiers dev_quals dev_costs
          match __buildOuterScanPlanInfo P xpu_task_flags parallel_path dev_quals host_quals with
          | .error e => .error e
          | .ok none => .ok none
          | .ok (some pp_info) => .ok (some (pp_info, param_info))

/-- The path methods registered by gpu_scan.c. -/
inductive CustomPathMethods where
  | gpuscan_path_methods | dpuscan_path_methods
deriving DecidableEq, Repr

/-- The fields of `CustomPath` set by `buildXpuScanPath` apart from the constants, the
relation and the costs. -/
structure CustomPath where
  param_info : Option ParamPathInfo
  parallel_aware : Bool
  parallel_safe : Bool
  parallel_workers : Int
  custom_private : List pgstromPlanInfo
  methods : CustomPathMethods
deriving DecidableEq, Repr

/-- `buildXpuScanPath` (gpu_scan.c:390-432). -/
def buildXpuScanPath (P : ScanPlanner) (xpu_task_flags : Nat)
    (parallel_path allow_host_quals allow_no_device_quals : Bool)
    (xpuscan_path_methods : CustomPathMethods) : Except String (Option CustomPath) :=
  match buildOuterScanPlanInfo P xpu_task_flags parallel_path allow_host_quals
      allow_no_device_quals with
  | .error e => .error e
  | .ok none => .ok none
  | .ok (some (pp_info, param_info)) =>
    .ok (some
      { param_info := param_info
        parallel_aware := decide (pp_info.parallel_nworkers > 0)
        parallel_safe := P.consider_parallel
        parallel_workers := pp_info.parallel_nworkers
        custom_private := [pp_info]
        methods := xpuscan_path_methods })

/-- A call made on `baserel` by `__xpuScanAddScanPathCommon`. -/
inductive PathCall where
  | add_path (cpath : CustomPath)
  | add_partial_path (cpath : CustomPath)
deriving DecidableEq, Repr

/-- One round of the loop of `__xpuScanAddScanPathCommon` (gpu_scan.c:452-470) for the
given `try_parallel`, from the calls made so far; the second component is the error
raised, after which nothing more runs. -/
def xpuScanAddScanPath_round (P : ScanPlanner) (xpu_task_flags : Nat)
    (xpuscan_path_methods : CustomPathMethods) (acc : List PathCall × Option String)
    (try_parallel : Nat) : List PathCall × Option String :=
  match acc.2 with
  | some _ => acc
  | none =>
    match buildXpuScanPath P xpu_task_flags (decide (try_parallel > 0)) true false
        xpuscan_path_methods with
    | .error e => (acc.1, some e)
    | .ok none => acc
    | .ok (some cpath) =>
      if try_parallel = 0 then (acc.1 ++ [PathCall.add_path cpath], none)
      else (acc.1 ++ [PathCall.add_partial_path cpath], none)

/-- `__xpuScanAddScanPathCommon` (gpu_scan.c:437-471): the calls of `add_path` and
`add_partial_path` made, in order, and the error raised if any. -/
def __xpuScanAddScanPathCommon (P : ScanPlanner) (xpu_task_flags : Nat)
    (xpuscan_path_methods : CustomPathMethods) : List PathCall × Option String :=
  if P.is_dummy_rel then ([], none)
  else if P.rte_inh then ([], none)
  else
    (List.range 2).foldl (xpuScanAddScanPath_round P xpu_task_flags xpuscan_path_methods)
      ([], none)

/-- The clauses `buildOuterScanPlanInfo` examines: `baserestrictinfo`, then the
`ppi_clauses` of the parameterised path information when there is one. -/
def scan_clauses (P : ScanPlanner) : List RestrictInfo :=
  P.baserestrictinfo ++
    (match P.get_baserel_parampathinfo with
     | some ppi => ppi.ppi_clauses
     | none => [])

/-- A sample relation: a heap table with three restriction clauses, of which the clauses
`1` and `3` run on the device at the costs 20 and 10. -/
def sample_scan_planner : ScanPlanner where
  DEVKIND__ANY := 0xff
  DEVKIND__NVIDIA_GPU := 0x01
  DEVKIND__NVIDIA_DPU := 0x02
  is_dummy_rel := false
  rte_inh := false
  rte_relkind := relkind.RELKIND_RELATION
  relation_am_is_heap := true
  baseRelIsArrowFdw := false
  consider_parallel := true
  baserestrictinfo := [⟨1, false⟩, ⟨2, false⟩, ⟨3, false⟩]
  get_baserel_parampathinfo := none
  pgstrom_gpu_expression := fun clause =>
    if clause = 1 then some 20 else if clause = 3 then some 10 else none
  compute_parallel_worker := 2
  baseRelHasGpuCache := -1
  GetOptimalDpuForArrowFdw := none
  GetOptimalDpuForBaseRel := none

/-- A sample relation with a pseudoconstant clause: the clause `1` runs on the device,
the clause `2` does not and is pseudoconstant, and a parameterised clause `4` does
not run on the device. -/
def sample_scan_planner_pseudoconstant : ScanPlanner :=
  { sample_scan_planner with
    baserestrictinfo := [⟨1, false⟩, ⟨2, true⟩]
    get_baserel_parampathinfo := some ⟨[⟨4, false⟩]⟩ }

/-! ### Boolean expressions (opcode `BoolExpr` of xpu_opcodes.h) -/

/-- Modelled from the spec: the three kinds of a `BoolExpr` node, named as in
PostgreSQL.  The source has only the line `EXPR_OPCODE(BoolExpr)` (xpu_opcodes.h:26);
the evaluator is not part of it. -/
inductive BoolExprType where
  | AND_EXPR | OR_EXPR | NOT_EXPR
deriving DecidableEq, Repr

/-- Modelled from the spec: the loop of an AND node over the values of its operands,
`none` being NULL.  A false operand decides the result at once; `anynull` records
that a NULL operand has been seen. -/
def BoolExpr_and_loop : List (Option Bool) → Bool → Option Bool
  | [], anynull => if anynull then none else some true
  | some false :: _, _ => some false
  | none :: rest, _ => BoolExpr_and_loop rest true
  | some true :: rest, anynull => BoolExpr_and_loop rest anynull

/-- Modelled from the spec: the loop of an OR node over the values of its operands.  A
true operand decides the result at once; `anynull` records that a NULL operand has
been seen. -/
def BoolExpr_or_loop : List (Option Bool) → Bool → Option Bool
  | [], anynull => if anynull then none else some false
  | some true :: _, _ => some true
  | none :: rest, _ => BoolExpr_or_loop rest true
  | some false :: rest, anynull => BoolExpr_or_loop rest anynull

/-- Modelled from the spec: evaluation of a `BoolExpr` node on the values of its
operands, which have been evaluated before it.  A NOT node has one operand. -/
def eval_BoolExpr (boolop : BoolExprType) (args : List (Option Bool)) :
    Except String (Option Bool) :=
  match boolop, args with
  | .AND_EXPR, args => .ok (BoolExpr_and_loop args false)
  | .OR_EXPR, args => .ok (BoolExpr_or_loop args false)
  | .NOT_EXPR, [none] => .ok none
  | .NOT_EXPR, [some b] => .ok (some (!b))
  | .NOT_EXPR, _ => .error "NOT takes one operand"

/-- The truth table of AND in SQL, `none` being NULL. -/
def sql_and : Option Bool → Option Bool → Option Bool
  | some true, some true => some true
  | some true, some false => some false
  | some true, none => none
  | some false, some true => some false
  | some false, some false => some false
  | some false, none => some false
  | none, some true => none
  | none, some false => some false
  | none, none => none

/-- The truth table of OR in SQL, `none` being NULL. -/
def sql_or : Option Bool → Option Bool → Option Bool
  | some true, some true => some true
  | some true, some false => some true
  | some true, none => some true
  | some false, some true => some true
  | some false, some false => some false
  | some false, none => none
  | none, some true => some true
  | none, some false => none
  | none, none => none

/-- The truth table of NOT in SQL, `none` being NULL. -/
def sql_not : Option Bool → Option Bool
  | some true => some false
  | some false => some true
  | none => none

/-! ### Replay of the cache transaction log (cuda_common.h) -/

/-- `GCACHE_TX_LOG__MAGIC` (cuda_common.h:283). -/
def GCACHE_TX_LOG__MAGIC : Nat := 0xEBAD7C00
/-- `GCACHE_TX_LOG__INSERT`: the magic number with the character I. -/
def GCACHE_TX_LOG__INSERT : Nat := GCACHE_TX_LOG__MAGIC ||| 'I'.toNat
/-- `GCACHE_TX_LOG__DELETE`: the magic number with the character D. -/
def GCACHE_TX_LOG__DELETE : Nat := GCACHE_TX_LOG__MAGIC ||| 'D'.toNat
/-- `GCACHE_TX_LOG__COMMIT_INS`: the magic number with the character C. -/
def GCACHE_TX_LOG__COMMIT_INS : Nat := GCACHE_TX_LOG__MAGIC ||| 'C'.toNat
/-- `GCACHE_TX_LOG__COMMIT_DEL`: the magic number with the character c. -/
def GCACHE_TX_LOG__COMMIT_DEL : Nat := GCACHE_TX_LOG__MAGIC ||| 'c'.toNat
/-- `GCACHE_TX_LOG__ABORT_INS`: the magic number with the character A. -/
def GCACHE_TX_LOG__ABORT_INS : Nat := GCACHE_TX_LOG__MAGIC ||| 'A'.toNat
/-- `GCACHE_TX_LOG__ABORT_DEL`: the magic number with the character a. -/
def GCACHE_TX_LOG__ABORT_DEL : Nat := GCACHE_TX_LOG__MAGIC ||| 'a'.toNat

/-- An entry of the log, after `GCacheTxLogInsert`, `GCacheTxLogDelete` and
`GCacheTxLogXact` (cuda_common.h:298-323) without `length` and the padding; the
tuple and the item pointer are handles. -/
inductive GCacheTxLog where
  | GCacheTxLogInsert (type rowid htup : Nat)
  | GCacheTxLogDelete (type xid rowid ctid : Nat)
  | GCacheTxLogXact (type rowid : Nat)
deriving DecidableEq, Repr

/-- Modelled from the spec: the state of a cached row.  A row inserted provisionally is
`INS_PENDING` until COMMIT makes it `COMMITTED`; a committed row deleted provisionally
is `DEL_PENDING`. -/
inductive gcache_row_state where
  | INS_PENDING | COMMITTED | DEL_PENDING
deriving DecidableEq, Repr

/-- Modelled from the spec: a row of the cached chunk. -/
structure gcache_row where
  rowid : Nat
  htup : Nat
  state : gcache_row_state
deriving DecidableEq, Repr

/-- Modelled from the spec: the two readings of "upsert-or-skip by row id" for an INSERT
whose row id is in the cache already: the row is written again as a provisional
insert, or the entry is skipped. -/
inductive gcache_insert_mode where
  | upsert | skip
deriving DecidableEq, Repr

/-- Modelled from the spec: a scan sees the committed state, that is every row but
those inserted provisionally. -/
def gcache_row_visible (row : gcache_row) : Bool :=
  decide (row.state ≠ gcache_row_state.INS_PENDING)

/-- Modelled from the spec: replay of an INSERT entry, keyed by row id. -/
def gcache_apply_insert (mode : gcache_insert_mode) (rowid htup : Nat)
    (cache : List gcache_row) : List gcache_row :=
  if cache.any (fun row => decide (row.rowid = rowid)) then
    match mode with
    | .upsert =>
      cache.map (fun row =>
        if row.rowid = rowid then ⟨rowid, htup, gcache_row_state.INS_PENDING⟩ else row)
    | .skip => cache
  else
    cache ++ [⟨rowid, htup, gcache_row_state.INS_PENDING⟩]

/-- Modelled from the spec: the rows with the given row id and state move to the state
`next`. -/
def gcache_set_state (rowid : Nat) (current next : gcache_row_state)
    (cache : List gcache_row) : List gcache_row :=
  cache.map (fun row =>
    if row.rowid = rowid ∧ row.state = current then { row with state := next } else row)

/-- Modelled from the spec: the rows with the given row id and state are discarded. -/
def gcache_discard (rowid : Nat) (current : gcache_row_state)
    (cache : List gcache_row) : List gcache_row :=
  cache.filter (fun row => !decide (row.rowid = rowid ∧ row.state = current))

/-- Modelled from the spec: replay of one log entry on the cached rows, told apart by
the tag of the entry; an entry with an unknown tag changes nothing. -/
def gcache_apply_redo (mode : gcache_insert_mode) (cache : List gcache_row) :
    GCacheTxLog → List gcache_row
  | .GCacheTxLogInsert type rowid htup =>
    if type = GCACHE_TX_LOG__INSERT then gcache_apply_insert mode rowid htup cache
    else cache
  | .GCacheTxLogDelete type _ rowid _ =>
    if type = GCACHE_TX_LOG__DELETE then
      gcache_set_state rowid gcache_row_state.COMMITTED gcache_row_state.DEL_PENDING cache
    else cache
  | .GCacheTxLogXact type rowid =>
    if type = GCACHE_TX_LOG__COMMIT_INS then
      gcache_set_state rowid gcache_row_state.INS_PENDING gcache_row_state.COMMITTED cache
    else if type = GCACHE_TX_LOG__ABORT_INS then
      gcache_discard rowid gcache_row_state.INS_PENDING cache
    else if type = GCACHE_TX_LOG__COMMIT_DEL then
      gcache_discard rowid gcache_row_state.DEL_PENDING cache
    else if type = GCACHE_TX_LOG__ABORT_DEL then
      gcache_set_state rowid gcache_row_state.DEL_PENDING gcache_row_state.COMMITTED cache
    else cache

/-- Modelled from the spec: replay of a log, entry by entry, from the given cached
rows. -/
def gcache_replay (mode : gcache_insert_mode) (log : List GCacheTxLog)
    (cache : List gcache_row) : List gcache_row :=
  log.foldl (gcache_apply_redo mode) cache

/-! ### Atomic maximum of doubles (cuda_common.h) -/

/-- Whether the 64-bit pattern `x` of a `float8_t` is a NaN: all exponent bits set and
a fraction that is not zero. -/
def fp64_isnan (x : Nat) : Bool :=
  decide ((x / 2 ^ 52) % 2 ^ 11 = 2047 ∧ x % 2 ^ 52 ≠ 0)

/-- The place of the double with the 64-bit pattern `x` in the order of the doubles
that are not NaN: the magnitude bits as an integer, negated when the sign bit is set.
Both zeros have the place 0, the infinities are the ends. -/
def fp64_order (x : Nat) : Int :=
  if (x / 2 ^ 63) % 2 = 1 then -((x % 2 ^ 63 : Nat) : Int) else ((x % 2 ^ 63 : Nat) : Int)

/-- The comparison `a > b` of two `float8_t` given by their 64-bit patterns; it is false
when one of them is a NaN. -/
def fp64_gt (a b : Nat) : Bool :=
  !fp64_isnan a && !fp64_isnan b && decide (fp64_order a > fp64_order b)

/-- The loop of the CUDA branch of `__atomic_max_fp64` (cuda_common.h:569-577) on a cell
holding the pattern `mem`: the final `curval` and the cell content, or `none` when
`fuel` rounds were not enough. -/
def __atomic_max_fp64_cuda_loop : Nat → Nat → Nat → Nat → Option (Nat × Nat)
  | 0, mem, curval, newval => if fp64_gt newval curval then none else some (curval, mem)
  | fuel + 1, mem, curval, newval =>
    if fp64_gt newval curval then
      let oldval := curval
      let cas := atomicCAS mem oldval newval
      let curval := cas.1
      if curval = oldval then some (curval, cas.2)
      else __atomic_max_fp64_cuda_loop fuel cas.2 curval newval
    else some (curval, mem)

/-- CUDA branch of `__atomic_max_fp64(ptr, fval)` (cuda_common.h:561-578) on a cell
holding `mem`, with no other writer of the cell: the returned value and the new content
of the cell, as 64-bit patterns. -/
def __atomic_max_fp64_cuda (fuel mem fval : Nat) : Option (Nat × Nat) :=
  let newval := fval
  let curval := mem
  __atomic_max_fp64_cuda_loop fuel mem curval newval

/-- The loop of the host branch of `__atomic_max_fp64` (cuda_common.h:587-596) on a cell
holding the pattern `mem`: the final `oldval` and the cell content, or `none` when
`fuel` rounds were not enough. -/
def __atomic_max_fp64_host_loop : Nat → Nat → Nat → Nat → Option (Nat × Nat)
  | 0, mem, oldval, newval => if fp64_gt oldval newval then none else some (oldval, mem)
  | fuel + 1, mem, oldval, newval =>
    if fp64_gt oldval newval then
      let r := __atomic_compare_exchange_n mem oldval newval
      if r.1 then some (r.2.2, r.2.1)
      else __atomic_max_fp64_host_loop fuel r.2.1 r.2.2 newval
    else some (oldval, mem)

/-- Host (non-CUDA) branch of `__atomic_max_fp64(ptr, fval)` (cuda_common.h:579-598) on a
cell holding `mem`, with no other writer of the cell: the returned value and the new
content of the cell, as 64-bit patterns. -/
def __atomic_max_fp64_host (fuel mem fval : Nat) : Option (Nat × Nat) :=
  let newval := fval
  let oldval := mem
  __atomic_max_fp64_host_loop fuel mem oldval newval

/-! ### Registration of the path hook (gpu_scan.c, main.c) -/

/-- The values of a pointer of type `set_rel_pathlist_hook_type` told apart here: NULL,
the function `XpuScanAddScanPath`, or the hook of another extension. -/
inductive set_rel_pathlist_hook_type where
  | NULL
  | XpuScanAddScanPath
  | other (id : Nat)
deriving DecidableEq, Repr

/-- The global `set_rel_pathlist_hook` of PostgreSQL and the static variable
`set_rel_pathlist_next` of gpu_scan.c. -/
structure PathlistHooks where
  set_rel_pathlist_hook : set_rel_pathlist_hook_type
  set_rel_pathlist_next : set_rel_pathlist_hook_type
deriving DecidableEq, Repr

/-- The hook registration of `pgstrom_init_gpu_scan` (gpu_scan.c:924-929); the rest of
the function fills the method tables and defines a GUC variable. -/
def pgstrom_init_gpu_scan (s : PathlistHooks) : PathlistHooks :=
  if s.set_rel_pathlist_next = set_rel_pathlist_hook_type.NULL then
    { set_rel_pathlist_next := s.set_rel_pathlist_hook
      set_rel_pathlist_hook := set_rel_pathlist_hook_type.XpuScanAddScanPath }
  else s

/-- The hook registration of `pgstrom_init_dpu_scan` (gpu_scan.c:971-976); the rest of
the function fills the method tables and defines a GUC variable. -/
def pgstrom_init_dpu_scan (s : PathlistHooks) : PathlistHooks :=
  if s.set_rel_pathlist_next = set_rel_pathlist_hook_type.NULL then
    { set_rel_pathlist_next := s.set_rel_pathlist_hook
      set_rel_pathlist_hook := set_rel_pathlist_hook_type.XpuScanAddScanPath }
  else s

/-- The two hook variables after `_PG_init` (main.c:326-388), from the value of
`set_rel_pathlist_hook` found at load time and the results of
`pgstrom_init_gpu_device()` and `pgstrom_init_dpu_device()`.  `set_rel_pathlist_next`
starts as NULL (gpu_scan.c:15); the other functions that `_PG_init` calls are taken
not to write `set_rel_pathlist_hook`. -/
def _PG_init (pgstrom_init_gpu_device pgstrom_init_dpu_device : Bool)
    (set_rel_pathlist_hook : set_rel_pathlist_hook_type) : PathlistHooks :=
  let s : PathlistHooks := ⟨set_rel_pathlist_hook, set_rel_pathlist_hook_type.NULL⟩
  let s := if pgstrom_init_gpu_device then pgstrom_init_gpu_scan s else s
  let s := if pgstrom_init_dpu_device then pgstrom_init_dpu_scan s else s
  s

/-- The GUC variables read by `XpuScanAddScanPath` and the two task kinds, which
xpu_common.h defines. -/
structure XpuScanSettings where
  pgstrom_enabled : Bool
  enable_gpuscan : Bool
  enable_dpuscan : Bool
  TASK_KIND__GPUSCAN : Nat
  TASK_KIND__DPUSCAN : Nat

/-- The body of `XpuScanAddScanPath` after the call of the secondary hook
(gpu_scan.c:483-493): the calls of `add_path` and `add_partial_path` made and the error
raised, if any. -/
def XpuScanAddScanPath_body (G : XpuScanSettings) (P : ScanPlanner) :
    List PathCall × Option String :=
  if G.pgstrom_enabled then
    let r1 : List PathCall × Option String :=
      if G.enable_gpuscan then
        __xpuScanAddScanPathCommon P G.TASK_KIND__GPUSCAN CustomPathMethods.gpuscan_path_methods
      else ([], none)
    match r1.2 with
    | some e => (r1.1, some e)
    | none =>
      let r2 : List PathCall × Option String :=
        if G.enable_dpuscan then
          __xpuScanAddScanPathCommon P G.TASK_KIND__DPUSCAN CustomPathMethods.dpuscan_path_methods
        else ([], none)
      (r1.1 ++ r2.1, r2.2)
  else ([], none)

/-- `XpuScanAddScanPath` (gpu_scan.c:473-494) with the hook variables `hooks`.  The
argument counts the nested calls of the function that are allowed: `none` means that
this depth was not enough for the call to return.  `other_hook id` lists the calls
made by the hook of another extension, which returns. -/
def XpuScanAddScanPath (hooks : PathlistHooks) (G : XpuScanSettings)
    (other_hook : Nat → List PathCall) (P : ScanPlanner) :
    Nat → Option (List PathCall × Option String)
  | 0 => none
  | depth + 1 =>
    match (match hooks.set_rel_pathlist_next with
           | .NULL => some ([], none)
           | .XpuScanAddScanPath => XpuScanAddScanPath hooks G other_hook P depth
           | .other id => some (other_hook id, none) :
           Option (List PathCall × Option String)) with
    | none => none
    | some (calls, some e) => some (calls, some e)
    | some (calls, none) =>
      let r := XpuScanAddScanPath_body G P
      some (calls ++ r.1, r.2)

/-! ## Theorems -/

/-! ### Error write-back, one call after another -/

theorem writeback_unchanged (X : XpuCommon) (ebuf : kern_errorbuf) (kcxt : kern_context)
    (h : ebuf.errcode ≠ X.ERRCODE_STROM_SUCCESS ∨ kcxt.errcode = X.ERRCODE_STROM_SUCCESS) :
    STROM_WRITEBACK_ERROR_STATUS X ebuf kcxt = ebuf := by
  unfold STROM_WRITEBACK_ERROR_STATUS atomicCAS
  rcases h with h | h
  · by_cases hk : kcxt.errcode = X.ERRCODE_STROM_SUCCESS <;> simp [hk, h]
  · simp [h]

theorem writeback_wins (X : XpuCommon) (ebuf : kern_errorbuf) (kcxt : kern_context)
    (h0 : ebuf.errcode = X.ERRCODE_STROM_SUCCESS)
    (hk : kcxt.errcode ≠ X.ERRCODE_STROM_SUCCESS) :
    STROM_WRITEBACK_ERROR_STATUS X ebuf kcxt = error_record_of X ebuf kcxt := by
  simp [STROM_WRITEBACK_ERROR_STATUS, atomicCAS, error_record_of, h0, hk]

theorem writeback_foldl_unchanged (X : XpuCommon) (ks : List kern_context)
    (ebuf : kern_errorbuf) (h : ebuf.errcode ≠ X.ERRCODE_STROM_SUCCESS) :
    ks.foldl (STROM_WRITEBACK_ERROR_STATUS X) ebuf = ebuf := by
  induction ks with
  | nil => rfl
  | cons k ks ih => rw [List.foldl_cons, writeback_unchanged X ebuf k (Or.inl h), ih]

/-- C1: starting from a buffer whose errcode is ERRCODE_STROM_SUCCESS, after
STROM_WRITEBACK_ERROR_STATUS has been applied for the contexts of a list one after
another, the buffer holds the errcode and line number of the first context whose
errcode is not ERRCODE_STROM_SUCCESS and its file name, function name and message
as `__strncpy` copies them with the fixed field lengths; when no context of the
list has failed the buffer is untouched and still holds ERRCODE_STROM_SUCCESS. -/
theorem writeback_first_failure_wins (X : XpuCommon) (ebuf : kern_errorbuf)
    (ks : List kern_context) (h0 : ebuf.errcode = X.ERRCODE_STROM_SUCCESS) :
    (∀ k, first_failure X ks = some k →
      (ks.foldl (STROM_WRITEBACK_ERROR_STATUS X) ebuf).errcode = k.errcode ∧
      (ks.foldl (STROM_WRITEBACK_ERROR_STATUS X) ebuf).lineno = k.error_lineno ∧
      (ks.foldl (STROM_WRITEBACK_ERROR_STATUS X) ebuf).filename
        = X.__strncpy ebuf.filename k.error_filename X.KERN_ERRORBUF_FILENAME_LEN ∧
      (ks.foldl (STROM_WRITEBACK_ERROR_STATUS X) ebuf).funcname
        = X.__strncpy ebuf.funcname k.error_funcname X.KERN_ERRORBUF_FUNCNAME_LEN ∧
      (ks.foldl (STROM_WRITEBACK_ERROR_STATUS X) ebuf).message
        = X.__strncpy ebuf.message k.error_message X.KERN_ERRORBUF_MESSAGE_LEN) ∧
    (first_failure X ks = none →
      ks.foldl (STROM_WRITEBACK_ERROR_STATUS X) ebuf = ebuf ∧
      (ks.foldl (STROM_WRITEBACK_ERROR_STATUS X) ebuf).errcode = X.ERRCODE_STROM_SUCCESS) := by
  induction ks with
  | nil => simp [first_failure, h0]
  | cons k ks ih =>
    by_cases hk : k.errcode = X.ERRCODE_STROM_SUCCESS
    · have hff : first_failure X (k :: ks) = first_failure X ks := by
        simp [first_failure, hk]
      rw [hff, List.foldl_cons, writeback_unchanged X ebuf k (Or.inr hk)]
      exact ih
    · have hff : first_failure X (k :: ks) = some k := by
        simp [first_failure, hk]
      have hne : (error_record_of X ebuf k).errcode ≠ X.ERRCODE_STROM_SUCCESS := hk
      rw [hff, List.foldl_cons, writeback_wins X ebuf k h0 hk,
        writeback_foldl_unchanged X ks _ hne]
      constructor
      · intro k' hk'
        cases hk'
        simp [error_record_of]
      · intro hnone
        cases hnone

/-- Witness of C1: a clean buffer, then a context without error, then two failing
contexts; the first failing one is recorded. -/
theorem writeback_first_failure_wins_witness :
    (⟨0, 0, "", "", ""⟩ : kern_errorbuf).errcode = xpu_common_h.ERRCODE_STROM_SUCCESS ∧
    (([⟨0, 0, "", "", ""⟩, ⟨6, 120, "cuda_gpuscan.cu", "kern_gpuscan_main", "no space"⟩,
        ⟨9, 77, "xpu_basetype.cu", "pgfn_int4pl", "overflow"⟩] : List kern_context).foldl
      (STROM_WRITEBACK_ERROR_STATUS xpu_common_h) ⟨0, 0, "", "", ""⟩).errcode = 6 := by
  refine ⟨rfl, ?_⟩
  exact ((writeback_first_failure_wins xpu_common_h ⟨0, 0, "", "", ""⟩
    [⟨0, 0, "", "", ""⟩, ⟨6, 120, "cuda_gpuscan.cu", "kern_gpuscan_main", "no space"⟩,
      ⟨9, 77, "xpu_basetype.cu", "pgfn_int4pl", "overflow"⟩] rfl).1
    ⟨6, 120, "cuda_gpuscan.cu", "kern_gpuscan_main", "no space"⟩ (by decide)).1

/-- C6: STROM_WRITEBACK_ERROR_STATUS leaves every field of the error buffer unchanged
whenever the buffer's errcode already differs from ERRCODE_STROM_SUCCESS or the
calling context's errcode is ERRCODE_STROM_SUCCESS; hence a buffer that holds an
error is left as it is by every later sequence of write-backs. -/
theorem writeback_frame (X : XpuCommon) (ebuf : kern_errorbuf) (kcxt : kern_context)
    (later : List kern_context)
    (h : ebuf.errcode ≠ X.ERRCODE_STROM_SUCCESS ∨ kcxt.errcode = X.ERRCODE_STROM_SUCCESS) :
    STROM_WRITEBACK_ERROR_STATUS X ebuf kcxt = ebuf ∧
    (ebuf.errcode ≠ X.ERRCODE_STROM_SUCCESS →
      later.foldl (STROM_WRITEBACK_ERROR_STATUS X) ebuf = ebuf) :=
  ⟨writeback_unchanged X ebuf kcxt h, writeback_foldl_unchanged X later ebuf⟩

/-- Witness of C6: a buffer that already holds error 6 is not touched by a context
that raises error 9. -/
theorem writeback_frame_witness :
    ((⟨6, 120, "a.cu", "f", "no space"⟩ : kern_errorbuf).errcode
        ≠ xpu_common_h.ERRCODE_STROM_SUCCESS ∨
      (⟨9, 77, "b.cu", "g", "overflow"⟩ : kern_context).errcode
        = xpu_common_h.ERRCODE_STROM_SUCCESS) ∧
    STROM_WRITEBACK_ERROR_STATUS xpu_common_h ⟨6, 120, "a.cu", "f", "no space"⟩
      ⟨9, 77, "b.cu", "g", "overflow"⟩ = ⟨6, 120, "a.cu", "f", "no space"⟩ :=
  ⟨Or.inl (by decide),
   (writeback_frame xpu_common_h ⟨6, 120, "a.cu", "f", "no space"⟩
      ⟨9, 77, "b.cu", "g", "overflow"⟩ [] (Or.inl (by decide))).1⟩

/-! ### Error write-back under interleaving -/

theorem wb_inv_init (X : XpuCommon) (ctxs : List kern_context) (ebuf0 : kern_errorbuf) :
    wb_inv X ctxs ebuf0 (wb_init ebuf0 ctxs) := by
  refine ⟨by simp [wb_init], Or.inl ⟨rfl, ?_⟩⟩
  intro pc hpc
  simp [wb_init] at hpc
  exact hpc.2

theorem wb_progress_errcode (X : XpuCommon) (ebuf0 : kern_errorbuf) (kcxt : kern_context)
    (pc : wb_pc) (h : pc ≠ wb_pc.at_cas) :
    (wb_progress X ebuf0 kcxt pc).errcode = kcxt.errcode := by
  cases pc <;> first | rfl | exact absurd rfl h

theorem wb_inv_step (X : XpuCommon) (ctxs : List kern_context) (ebuf0 : kern_errorbuf)
    (h0 : ebuf0.errcode = X.ERRCODE_STROM_SUCCESS)
    (hfail : ∀ k ∈ ctxs, k.errcode ≠ X.ERRCODE_STROM_SUCCESS)
    (s : wb_state) (tid : Nat) (h : wb_inv X ctxs ebuf0 s) :
    wb_inv X ctxs ebuf0 (wb_step X ctxs s tid) := by
  unfold wb_step
  split
  · next kcxt pc hk hpc =>
    have hkf : kcxt.errcode ≠ X.ERRCODE_STROM_SUCCESS :=
      hfail kcxt (List.getElem?_mem hk)
    have htid : tid < s.pcs.length := by
      rcases Nat.lt_or_ge tid s.pcs.length with h' | h'
      · exact h'
      · rw [List.getElem?_eq_none h'] at hpc; cases hpc
    obtain ⟨hlen, hcase⟩ := h
    refine ⟨by simp [hlen], ?_⟩
    rcases hcase with ⟨hbuf, hall⟩ | ⟨w, kw, pcw, hw, hpw, hne, hbuf, hoth⟩
    · -- nobody has won yet: `tid` wins
      have hpc0 : pc = wb_pc.at_cas := hall pc (List.getElem?_mem hpc)
      subst hpc0
      right
      refine ⟨tid, kcxt, wb_pc.at_errcode, hk, ?_, by decide, ?_, ?_⟩
      · simp [wb_thread_step, atomicCAS, hkf, hbuf, h0, htid]
      · simp [wb_thread_step, atomicCAS, hkf, hbuf, h0, wb_progress]
      · intro t ht pc' hpc'
        rw [List.getElem?_set_ne (Ne.symm ht)] at hpc'
        exact Or.inl (hall pc' (List.getElem?_mem hpc'))
    · right
      by_cases htw : tid = w
      · -- the winner does its next write
        subst htw
        rw [hk] at hw; cases hw
        rw [hpc] at hpw; cases hpw
        refine ⟨tid, kcxt, (wb_thread_step X s.ebuf kcxt pc).2, hk, by simp [htid], ?_, ?_, ?_⟩
        · cases pc <;> simp [wb_thread_step] at hne ⊢
        · cases pc <;> simp [wb_thread_step, hbuf, wb_progress, error_record_of] at hne ⊢
        · intro t ht pc' hpc'
          rw [List.getElem?_set_ne (Ne.symm ht)] at hpc'
          exact hoth t ht pc' hpc'
      · -- a loser fails its compare-and-swap, or has left already
        have hpc' := hoth tid htw pc hpc
        have herr : s.ebuf.errcode ≠ X.ERRCODE_STROM_SUCCESS := by
          rw [hbuf, wb_progress_errcode X ebuf0 kw pcw hne]
          exact hfail kw (List.getElem?_mem hw)
        have hstep : wb_thread_step X s.ebuf kcxt pc = (s.ebuf, wb_pc.finished) := by
          rcases hpc' with rfl | rfl
          · simp [wb_thread_step, atomicCAS, hkf, herr]
          · simp [wb_thread_step]
        rw [hstep]
        refine ⟨w, kw, pcw, hw, ?_, hne, hbuf, ?_⟩
        · simp only; rw [List.getElem?_set_ne htw]; exact hpw
        · intro t ht pc'' hpc''
          simp only at hpc''
          by_cases htt : t = tid
          · subst htt
            rw [List.getElem?_set_self htid] at hpc''
            cases hpc''; exact Or.inr rfl
          · rw [List.getElem?_set_ne (Ne.symm htt)] at hpc''
            exact hoth t ht pc'' hpc''
  · exact h

theorem wb_inv_run (X : XpuCommon) (ctxs : List kern_context) (ebuf0 : kern_errorbuf)
    (h0 : ebuf0.errcode = X.ERRCODE_STROM_SUCCESS)
    (hfail : ∀ k ∈ ctxs, k.errcode ≠ X.ERRCODE_STROM_SUCCESS)
    (sched : List Nat) (s : wb_state) (h : wb_inv X ctxs ebuf0 s) :
    wb_inv X ctxs ebuf0 (sched.foldl (wb_step X ctxs) s) := by
  induction sched generalizing s with
  | nil => exact h
  | cons t sched ih => exact ih _ (wb_inv_step X ctxs ebuf0 h0 hfail s t h)

/-- A thread that runs alone goes through its six program points and leaves what the
sequential reading of STROM_WRITEBACK_ERROR_STATUS leaves. -/
theorem wb_run_alone (X : XpuCommon) (ebuf : kern_errorbuf) (kcxt : kern_context) :
    wb_run X [kcxt] ebuf [0, 0, 0, 0, 0, 0]
      = ⟨STROM_WRITEBACK_ERROR_STATUS X ebuf kcxt, [wb_pc.finished]⟩ := by
  by_cases hk : kcxt.errcode = X.ERRCODE_STROM_SUCCESS
  · simp [wb_run, wb_init, wb_step, wb_thread_step, STROM_WRITEBACK_ERROR_STATUS, hk]
  · by_cases he : ebuf.errcode = X.ERRCODE_STROM_SUCCESS
    · simp [wb_run, wb_init, wb_step, wb_thread_step, STROM_WRITEBACK_ERROR_STATUS,
        atomicCAS, hk, he]
    · simp [wb_run, wb_init, wb_step, wb_thread_step, STROM_WRITEBACK_ERROR_STATUS,
        atomicCAS, hk, he]

/-- C5: N >= 1 threads hold pairwise distinct error codes other than
ERRCODE_STROM_SUCCESS and call STROM_WRITEBACK_ERROR_STATUS on a shared record that
starts with ERRCODE_STROM_SUCCESS.  Whatever the interleaving of their accesses (the
compare-and-swap, then for its winner one write per field), once all N calls have
finished the record is the record of one thread `kcxt` of the N: its errcode and
line number and its three strings as `__strncpy` copies them; and `kcxt` is the only
thread of the N that raised the reported code. -/
theorem writeback_concurrent_sound (X : XpuCommon) (ctxs : List kern_context)
    (ebuf0 : kern_errorbuf) (sched : List Nat)
    (hN : ctxs ≠ [])
    (h0 : ebuf0.errcode = X.ERRCODE_STROM_SUCCESS)
    (hfail : ∀ k ∈ ctxs, k.errcode ≠ X.ERRCODE_STROM_SUCCESS)
    (hdistinct : ctxs.Pairwise (fun a b => a.errcode ≠ b.errcode))
    (hdone : ∀ pc ∈ (wb_run X ctxs ebuf0 sched).pcs, pc = wb_pc.finished) :
    ∃ kcxt ∈ ctxs,
      (wb_run X ctxs ebuf0 sched).ebuf.errcode = kcxt.errcode ∧
      (wb_run X ctxs ebuf0 sched).ebuf.lineno = kcxt.error_lineno ∧
      (wb_run X ctxs ebuf0 sched).ebuf.filename
        = X.__strncpy ebuf0.filename kcxt.error_filename X.KERN_ERRORBUF_FILENAME_LEN ∧
      (wb_run X ctxs ebuf0 sched).ebuf.funcname
        = X.__strncpy ebuf0.funcname kcxt.error_funcname X.KERN_ERRORBUF_FUNCNAME_LEN ∧
      (wb_run X ctxs ebuf0 sched).ebuf.message
        = X.__strncpy ebuf0.message kcxt.error_message X.KERN_ERRORBUF_MESSAGE_LEN ∧
      ∀ k ∈ ctxs, k.errcode = (wb_run X ctxs ebuf0 sched).ebuf.errcode → k = kcxt := by
  obtain ⟨hlen, hcase⟩ := wb_inv_run X ctxs ebuf0 h0 hfail sched _ (wb_inv_init X ctxs ebuf0)
  change (wb_run X ctxs ebuf0 sched).pcs.length = ctxs.length at hlen
  rcases hcase with ⟨_, hall⟩ | ⟨w, kw, pcw, hw, hpw, _, hbuf, _⟩
  · exfalso
    obtain ⟨pc, hpc⟩ : ∃ pc, pc ∈ (wb_run X ctxs ebuf0 sched).pcs := by
      apply List.exists_mem_of_length_pos
      rw [hlen]; exact List.length_pos.mpr hN
    have h1 := hall pc hpc
    have h2 := hdone pc hpc
    rw [h1] at h2
    cases h2
  · have hfin : pcw = wb_pc.finished := hdone pcw (List.getElem?_mem hpw)
    subst hfin
    have hkw : kw ∈ ctxs := List.getElem?_mem hw
    change (wb_run X ctxs ebuf0 sched).ebuf = error_record_of X ebuf0 kw at hbuf
    refine ⟨kw, hkw, ?_⟩
    rw [hbuf]
    refine ⟨rfl, rfl, rfl, rfl, rfl, ?_⟩
    intro k hk hcode
    by_contra hne
    exact (List.Pairwise.forall (fun _ _ h => Ne.symm h) hdistinct hk hkw hne) hcode

/-- Witness of C5: two failing threads; thread 1 wins the compare-and-swap, thread 0
loses it, then thread 1 writes its five fields. -/
theorem writeback_concurrent_sound_witness :
    ([⟨6, 120, "a.cu", "f", "no space"⟩, ⟨9, 77, "b.cu", "g", "overflow"⟩]
        : List kern_context) ≠ [] ∧
    (∀ pc ∈ (wb_run xpu_common_h
        [⟨6, 120, "a.cu", "f", "no space"⟩, ⟨9, 77, "b.cu", "g", "overflow"⟩]
        ⟨0, 0, "", "", ""⟩ [1, 0, 1, 1, 1, 1, 1]).pcs, pc = wb_pc.finished) ∧
    ∃ kcxt ∈ ([⟨6, 120, "a.cu", "f", "no space"⟩, ⟨9, 77, "b.cu", "g", "overflow"⟩]
        : List kern_context),
      (wb_run xpu_common_h
        [⟨6, 120, "a.cu", "f", "no space"⟩, ⟨9, 77, "b.cu", "g", "overflow"⟩]
        ⟨0, 0, "", "", ""⟩ [1, 0, 1, 1, 1, 1, 1]).ebuf.errcode = kcxt.errcode :=
  ⟨by decide, by decide,
   (writeback_concurrent_sound xpu_common_h
      [⟨6, 120, "a.cu", "f", "no space"⟩, ⟨9, 77, "b.cu", "g", "overflow"⟩]
      ⟨0, 0, "", "", ""⟩ [1, 0, 1, 1, 1, 1, 1]
      (by decide) rfl (by decide) (by decide) (by decide)).imp
     (fun _ h => ⟨h.1, h.2.1⟩)⟩

/-! ### Warp prefix sum -/

theorem stair_step_mod (M mask : Nat) (f : Fin 32 → Nat) :
    stair_step M mask (fun i => f i % M) = fun i => stair_step 0 mask f i % M := by
  funext i
  simp only [stair_step, __shfl_sync]
  split <;> simp [Nat.add_mod]

theorem stair_loop_mod (M : Nat) (fuel mask : Nat) (f : Fin 32 → Nat) :
    stair_loop M fuel mask (fun i => f i % M)
      = (stair_loop 0 fuel mask f).map (fun g i => g i % M) := by
  induction fuel generalizing mask f with
  | zero => simp only [stair_loop]; split <;> simp
  | succ n ih =>
    simp only [stair_loop]
    split
    · rw [stair_step_mod, ih]
    · simp

theorem stair_loop_five (fuel : Nat) (v : Fin 32 → Nat) :
    stair_loop 0 (fuel + 5) 1 v
      = some (stair_step 0 (2 ^ 4) (stair_step 0 (2 ^ 3) (stair_step 0 (2 ^ 2)
          (stair_step 0 (2 ^ 1) (stair_step 0 (2 ^ 0) v))))) := by
  cases fuel <;> simp [stair_loop, warpSize]

/-- The lane arithmetic of one round, for the five masks and the 32 lanes: where the
source lane of the shuffle lies, and which block it closes. -/
theorem stair_bits : ∀ k < 5, ∀ i < 32,
    ((i &&& 2 ^ k ≠ 0) →
      ((i &&& (0xffffffff ^^^ 2 ^ k)) ||| ((2 ^ k + 2 ^ 32 - 1) % 2 ^ 32)) < 32 ∧
      ((i &&& (0xffffffff ^^^ 2 ^ k)) ||| ((2 ^ k + 2 ^ 32 - 1) % 2 ^ 32))
        - ((i &&& (0xffffffff ^^^ 2 ^ k)) ||| ((2 ^ k + 2 ^ 32 - 1) % 2 ^ 32)) % 2 ^ k
          = i - i % 2 ^ (k + 1) ∧
      ((i &&& (0xffffffff ^^^ 2 ^ k)) ||| ((2 ^ k + 2 ^ 32 - 1) % 2 ^ 32)) + 1
          = i - i % 2 ^ k) ∧
    (¬ (i &&& 2 ^ k ≠ 0) → i - i % 2 ^ (k + 1) = i - i % 2 ^ k) := by
  decide

theorem stair_inv_zero (v : Fin 32 → Nat) : stair_inv v 0 v := by
  intro i
  rw [pow_zero, Nat.mod_one, Nat.sub_zero, Nat.Ico_succ_singleton, Finset.sum_singleton]
  congr 1
  exact Fin.ext (Nat.mod_eq_of_lt i.isLt).symm

theorem stair_inv_step (v g : Fin 32 → Nat) (k : Nat) (hk : k < 5) (h : stair_inv v k g) :
    stair_inv v (k + 1) (stair_step 0 (2 ^ k) g) := by
  intro i
  have hb := stair_bits k hk i.val i.isLt
  simp only [stair_step, __shfl_sync]
  split
  · next hbit =>
    obtain ⟨h1, h2, h3⟩ := hb.1 hbit
    rw [Nat.mod_zero, h i, h (Fin.ofNat _)]
    have hv : (Fin.ofNat ((i.val &&& (0xffffffff ^^^ 2 ^ k)) |||
        ((2 ^ k + 2 ^ 32 - 1) % 2 ^ 32)) : Fin 32).val
        = ((i.val &&& (0xffffffff ^^^ 2 ^ k)) ||| ((2 ^ k + 2 ^ 32 - 1) % 2 ^ 32)) := by
      simp only [Fin.ofNat]; exact Nat.mod_eq_of_lt h1
    rw [hv, h2, h3, add_comm]
    apply Finset.sum_Ico_consecutive
    · have := Nat.mod_le i.val (2 ^ (k+1)); omega
    · have := Nat.mod_le i.val (2 ^ k); omega
  · next hbit =>
    rw [h i, hb.2 hbit]

theorem stair_five_sum (v : Fin 32 → Nat) (i : Fin 32) :
    stair_step 0 (2 ^ 4) (stair_step 0 (2 ^ 3) (stair_step 0 (2 ^ 2)
      (stair_step 0 (2 ^ 1) (stair_step 0 (2 ^ 0) v)))) i
      = ∑ j in Finset.range (i.val + 1), v (Fin.ofNat j) := by
  have h1 := stair_inv_step v _ 0 (by decide) (stair_inv_zero v)
  have h2 := stair_inv_step v _ 1 (by decide) h1
  have h3 := stair_inv_step v _ 2 (by decide) h2
  have h4 := stair_inv_step v _ 3 (by decide) h3
  have h5 := stair_inv_step v _ 4 (by decide) h4
  have h := h5 i
  have e : i.val % 2 ^ (4 + 1) = i.val := Nat.mod_eq_of_lt i.isLt
  rw [e, Nat.sub_self, ← Finset.range_eq_Ico] at h
  exact h

/-- C2: with all 32 lanes active, lane i supplying v i below `2 ^ w`, and at least five
rounds allowed, `__reduce_stair_add_sync` returns at every lane the inclusive prefix
sum v 0 + ... + v i modulo `2 ^ w`, and when `p_total_sum` is given every lane stores
the sum of all 32 values modulo `2 ^ w` through it (nothing is stored for NULL). -/
theorem reduce_stair_add_sync_prefix_sum (w fuel : Nat) (v : Fin 32 → Nat)
    (hfuel : 5 ≤ fuel) (hv : ∀ i, v i < 2 ^ w) (lane_id : Fin 32) (p_total_sum : Bool) :
    __reduce_stair_add_sync (2 ^ w) fuel v p_total_sum lane_id
      = some ((∑ j in Finset.range (lane_id.val + 1), v (Fin.ofNat j)) % 2 ^ w,
              if p_total_sum then some ((∑ j in Finset.range 32, v (Fin.ofNat j)) % 2 ^ w)
              else none) := by
  obtain ⟨n, rfl⟩ : ∃ n, fuel = n + 5 := ⟨fuel - 5, by omega⟩
  have hvm : v = fun i => v i % 2 ^ w := by
    funext i; exact (Nat.mod_eq_of_lt (hv i)).symm
  unfold __reduce_stair_add_sync
  rw [hvm, stair_loop_mod, stair_loop_five, ← hvm]
  simp only [Option.map_some', __shfl_sync, stair_five_sum, warpSize]
  rfl

/-- Witness of C2: 8-bit lanes that all supply 200; lane 2 gets 600 mod 256 = 88 and
the total stored is 6400 mod 256 = 0. -/
theorem reduce_stair_add_sync_prefix_sum_witness :
    5 ≤ 5 ∧ (∀ i : Fin 32, (fun _ : Fin 32 => 200) i < 2 ^ 8) ∧
    __reduce_stair_add_sync (2 ^ 8) 5 (fun _ : Fin 32 => 200) true 2
      = some ((∑ j in Finset.range ((2 : Fin 32).val + 1),
                (fun _ : Fin 32 => 200) (Fin.ofNat j)) % 2 ^ 8,
              if true then
                some ((∑ j in Finset.range 32, (fun _ : Fin 32 => 200) (Fin.ofNat j)) % 2 ^ 8)
              else none) :=
  ⟨le_refl 5, fun _ => by norm_num,
   reduce_stair_add_sync_prefix_sum 8 5 (fun _ : Fin 32 => 200) (le_refl 5)
     (fun _ => by norm_num) 2 true⟩

/-! ### Atomic wrappers -/

theorem atomic_add_calls_cons (c k : Nat) (ks : List Nat) (h : c + k < 2 ^ 32) :
    atomic_add_calls c (k :: ks)
      = (c :: (atomic_add_calls (c + k) ks).1, (atomic_add_calls (c + k) ks).2) := by
  have e : (c + k) % 2 ^ 32 = c + k := Nat.mod_eq_of_lt h
  simp only [atomic_add_calls, __atomic_add_uint32, e]

theorem atomic_add_calls_spec (ks : List Nat) : ∀ c : Nat, c + ks.sum < 2 ^ 32 →
    (atomic_add_calls c ks).1.length = ks.length ∧
    (∀ i, i < ks.length → (atomic_add_calls c ks).1[i]? = some (c + (ks.take i).sum)) ∧
    (atomic_add_calls c ks).2 = c + ks.sum ∧
    ((atomic_add_calls c ks).1.zip ks).Pairwise
      (fun a b => ∀ x, ¬ (slot_range a x ∧ slot_range b x)) ∧
    (∀ s ∈ (atomic_add_calls c ks).1.zip ks, c ≤ s.1 ∧ s.1 + s.2 ≤ c + ks.sum) ∧
    (∀ x, (c ≤ x ∧ x < c + ks.sum) ↔
      ∃ s ∈ (atomic_add_calls c ks).1.zip ks, slot_range s x) := by
  induction ks with
  | nil => intro c _; simp [atomic_add_calls]
  | cons k ks ih =>
    intro c h
    rw [List.sum_cons] at h
    obtain ⟨h1, h2, h3, h4, h5, h6⟩ := ih (c + k) (by omega)
    rw [atomic_add_calls_cons c k ks (by omega)]
    refine ⟨by simp [h1], ?_, by simp [h3]; omega, ?_, ?_, ?_⟩
    · intro i hi
      cases i with
      | zero => simp
      | succ i =>
        simp only [List.length_cons, Nat.add_lt_add_iff_right] at hi
        simp [h2 i hi]; omega
    · simp only [List.zip_cons_cons, List.pairwise_cons]
      refine ⟨?_, h4⟩
      intro s hs x hx
      have := (h5 s hs).1
      simp only [slot_range] at hx
      omega
    · intro s hs
      simp only [List.zip_cons_cons, List.mem_cons] at hs
      rcases hs with rfl | hs
      · simp
      · have := h5 s hs
        simp only [List.sum_cons]; omega
    · intro x
      simp only [List.zip_cons_cons, List.mem_cons, exists_eq_or_imp, List.sum_cons]
      rw [← h6 x]
      simp only [slot_range]
      omega

/-- C3: let the requests k_1 .. k_n on a counter holding c, with c + k_1 + ... + k_n
below `2 ^ 32`, take effect in any order `calls` (a permutation of the requests).
Then the i-th call to take effect returns c plus the requests before it, the counter
ends at c + k_1 + ... + k_n, the reserved ranges `[r, r + k)` are pairwise disjoint,
and an index lies in `[c, c + k_1 + ... + k_n)` exactly when it lies in one of the
reserved ranges. -/
theorem atomic_add_uint32_reserves_slots (c : Nat) (ks calls : List Nat)
    (h : c + ks.sum < 2 ^ 32) (horder : calls.Perm ks) :
    (∀ i, i < calls.length →
      (atomic_add_calls c calls).1[i]? = some (c + (calls.take i).sum)) ∧
    (atomic_add_calls c calls).2 = c + ks.sum ∧
    ((atomic_add_calls c calls).1.zip calls).Pairwise
      (fun a b => ∀ x, ¬ (slot_range a x ∧ slot_range b x)) ∧
    (∀ x, (c ≤ x ∧ x < c + ks.sum) ↔
      ∃ s ∈ (atomic_add_calls c calls).1.zip calls, slot_range s x) := by
  have hs : calls.sum = ks.sum := horder.sum_eq
  obtain ⟨_, h2, h3, h4, _, h6⟩ := atomic_add_calls_spec calls c (by omega)
  rw [hs] at h3 h6
  exact ⟨h2, h3, h4, h6⟩

/-- Witness of C3: requests 3, 1, 2 on a counter at 10, taking effect in the order
2, 3, 1. -/
theorem atomic_add_uint32_reserves_slots_witness :
    10 + [3, 1, 2].sum < 2 ^ 32 ∧ [2, 3, 1].Perm [3, 1, 2] ∧
    (atomic_add_calls 10 [2, 3, 1]).2 = 10 + [3, 1, 2].sum :=
  ⟨by decide, by decide,
   (atomic_add_uint32_reserves_slots 10 [3, 1, 2] [2, 3, 1] (by decide) (by decide)).2.1⟩

theorem atomic_max_uint32_loop_host (fuel mem ival : Nat) :
    __atomic_max_uint32_loop (fuel + 1) mem mem ival = some (mem, min mem ival) := by
  unfold __atomic_max_uint32_loop __atomic_compare_exchange_n
  by_cases h : mem > ival
  · simp [h, Nat.min_eq_right (Nat.le_of_lt h)]
  · simp [h, Nat.min_eq_left (Nat.le_of_not_lt h)]

/-- The host branch of `__atomic_max_uint32` returns after one round and leaves the
minimum of the old content and `ival` in the cell. -/
theorem atomic_max_uint32_host_is_min (fuel mem ival : Nat) :
    __atomic_max_uint32 (fuel + 1) mem ival = some (mem, min mem ival) :=
  atomic_max_uint32_loop_host fuel mem ival

/-- C7 (the code departs from the claim): in the host build, with `*ptr` = 5 before the
call, `__atomic_max_uint32(ptr, 3)` returns 5 and leaves 3 in `*ptr`, not max 5 3 = 5;
with `*ptr` = 3, `__atomic_max_uint32(ptr, 5)` returns 3 and leaves 3, not
max 3 5 = 5. -/
theorem atomic_max_uint32_host_stores_min :
    __atomic_max_uint32 1 5 3 = some (5, 3) ∧ max 5 3 ≠ 3 ∧
    __atomic_max_uint32 1 3 5 = some (3, 3) ∧ max 3 5 ≠ 3 := by
  decide

/-! ### Layout of the task descriptor -/

theorem warp_offset_mono (X : XpuCommon) (n_rels n_dims nbytes gid1 gid2 : Nat)
    (h : gid1 / WARPSIZE < gid2 / WARPSIZE) :
    __KERN_GPUTASK_WARP_OFFSET X n_rels n_dims nbytes gid1
        + KERN_WARP_CONTEXT_UNITSZ X n_dims nbytes
      ≤ __KERN_GPUTASK_WARP_OFFSET X n_rels n_dims nbytes gid2 := by
  unfold __KERN_GPUTASK_WARP_OFFSET
  have : KERN_WARP_CONTEXT_UNITSZ X n_dims nbytes * (gid1 / WARPSIZE + 1)
      ≤ KERN_WARP_CONTEXT_UNITSZ X n_dims nbytes * (gid2 / WARPSIZE) :=
    Nat.mul_le_mul_left _ h
  rw [Nat.mul_add, Nat.mul_one] at this
  omega

theorem unitsz_pos (X : XpuCommon) (halign : ∀ len, len ≤ X.MAXALIGN len)
    (n_dims nbytes : Nat) : 0 < KERN_WARP_CONTEXT_UNITSZ X n_dims nbytes := by
  have := halign (offsetof_kern_warp_context_pos n_dims)
  unfold KERN_WARP_CONTEXT_UNITSZ __KERN_WARP_CONTEXT_BASESZ
  unfold offsetof_kern_warp_context_pos at this ⊢
  omega

/-- C9: provided MAXALIGN does not shrink its argument, two threads get the same
warp-context offset from `__KERN_GPUTASK_WARP_OFFSET` exactly when gid1 / 32 = gid2 / 32,
and when their warp indices differ the two regions of KERN_WARP_CONTEXT_UNITSZ bytes
that start at their offsets are disjoint. -/
theorem warp_context_per_warp (X : XpuCommon) (halign : ∀ len, len ≤ X.MAXALIGN len)
    (n_rels n_dims nbytes gid1 gid2 : Nat) :
    (__KERN_GPUTASK_WARP_OFFSET X n_rels n_dims nbytes gid1
        = __KERN_GPUTASK_WARP_OFFSET X n_rels n_dims nbytes gid2
      ↔ gid1 / 32 = gid2 / 32) ∧
    (gid1 / 32 ≠ gid2 / 32 →
      __KERN_GPUTASK_WARP_OFFSET X n_rels n_dims nbytes gid1
          + KERN_WARP_CONTEXT_UNITSZ X n_dims nbytes
        ≤ __KERN_GPUTASK_WARP_OFFSET X n_rels n_dims nbytes gid2 ∨
      __KERN_GPUTASK_WARP_OFFSET X n_rels n_dims nbytes gid2
          + KERN_WARP_CONTEXT_UNITSZ X n_dims nbytes
        ≤ __KERN_GPUTASK_WARP_OFFSET X n_rels n_dims nbytes gid1) := by
  have hpos := unitsz_pos X halign n_dims nbytes
  have hlt : ∀ a b : Nat, a / WARPSIZE < b / WARPSIZE →
      __KERN_GPUTASK_WARP_OFFSET X n_rels n_dims nbytes a
        + KERN_WARP_CONTEXT_UNITSZ X n_dims nbytes
      ≤ __KERN_GPUTASK_WARP_OFFSET X n_rels n_dims nbytes b :=
    fun a b h => warp_offset_mono X n_rels n_dims nbytes a b h
  have hdisj : gid1 / 32 ≠ gid2 / 32 →
      __KERN_GPUTASK_WARP_OFFSET X n_rels n_dims nbytes gid1
          + KERN_WARP_CONTEXT_UNITSZ X n_dims nbytes
        ≤ __KERN_GPUTASK_WARP_OFFSET X n_rels n_dims nbytes gid2 ∨
      __KERN_GPUTASK_WARP_OFFSET X n_rels n_dims nbytes gid2
          + KERN_WARP_CONTEXT_UNITSZ X n_dims nbytes
        ≤ __KERN_GPUTASK_WARP_OFFSET X n_rels n_dims nbytes gid1 := by
    intro hne
    rcases Nat.lt_or_gt_of_ne hne with h | h
    · exact Or.inl (hlt gid1 gid2 h)
    · exact Or.inr (hlt gid2 gid1 h)
  refine ⟨⟨?_, ?_⟩, hdisj⟩
  · intro heq
    by_contra hne
    rcases hdisj hne with h | h <;> omega
  · intro heq
    unfold __KERN_GPUTASK_WARP_OFFSET WARPSIZE
    rw [heq]

/-- Witness of C9 with MAXALIGN rounding up to a multiple of 8: threads 31 and 32 lie
in different warps and get disjoint regions. -/
theorem warp_context_per_warp_witness :
    (∀ len, len ≤ xpu_common_h.MAXALIGN len) ∧
    (31 / 32 ≠ 32 / 32 →
      __KERN_GPUTASK_WARP_OFFSET xpu_common_h 1 2 16 31
          + KERN_WARP_CONTEXT_UNITSZ xpu_common_h 2 16
        ≤ __KERN_GPUTASK_WARP_OFFSET xpu_common_h 1 2 16 32 ∨
      __KERN_GPUTASK_WARP_OFFSET xpu_common_h 1 2 16 32
          + KERN_WARP_CONTEXT_UNITSZ xpu_common_h 2 16
        ≤ __KERN_GPUTASK_WARP_OFFSET xpu_common_h 1 2 16 31) :=
  ⟨fun len => by simp only [xpu_common_h]; omega,
   (warp_context_per_warp xpu_common_h (fun len => by simp only [xpu_common_h]; omega)
      1 2 16 31 32).2⟩

/-- C10 for full warps: for every thread count n_threads that is a positive multiple
of 32, the warp context of the last warp (index (n_threads - 1) / 32, used by thread
n_threads - 1) ends exactly at, hence at or before, the offset
`__KERN_GPUTASK_WARP_OFFSET` of n_threads, at which the l_state array begins when
there is one.  Provided MAXALIGN does not shrink its argument, the context of the last
warp ends at or before that offset only if n_threads is a multiple of 32. -/
theorem last_warp_context_ends_at_lstate_array (X : XpuCommon)
    (n_rels n_dims nbytes n_threads : Nat) (hpos : 0 < n_threads) :
    (n_threads % WARPSIZE = 0 →
      (n_threads - 1) / WARPSIZE + 1 = n_threads / WARPSIZE ∧
      KERN_GPUTASK_WARP_CONTEXT X n_rels n_dims nbytes (n_threads - 1)
          + KERN_WARP_CONTEXT_UNITSZ X n_dims nbytes
        = __KERN_GPUTASK_WARP_OFFSET X n_rels n_dims nbytes n_threads ∧
      KERN_GPUTASK_WARP_CONTEXT X n_rels n_dims nbytes (n_threads - 1)
          + KERN_WARP_CONTEXT_UNITSZ X n_dims nbytes
        ≤ __KERN_GPUTASK_WARP_OFFSET X n_rels n_dims nbytes n_threads) ∧
    (n_rels ≠ 0 →
      KERN_GPUTASK_LSTATE_ARRAY X n_rels n_dims nbytes n_threads 0
        = some (__KERN_GPUTASK_WARP_OFFSET X n_rels n_dims nbytes n_threads)) ∧
    ((∀ len, len ≤ X.MAXALIGN len) →
      KERN_GPUTASK_WARP_CONTEXT X n_rels n_dims nbytes (n_threads - 1)
          + KERN_WARP_CONTEXT_UNITSZ X n_dims nbytes
        ≤ __KERN_GPUTASK_WARP_OFFSET X n_rels n_dims nbytes n_threads →
      n_threads % WARPSIZE = 0) := by
  refine ⟨?_, ?_, ?_⟩
  · intro hmul
    have hidx : (n_threads - 1) / WARPSIZE + 1 = n_threads / WARPSIZE := by
      unfold WARPSIZE at hmul ⊢; omega
    have heq : KERN_GPUTASK_WARP_CONTEXT X n_rels n_dims nbytes (n_threads - 1)
          + KERN_WARP_CONTEXT_UNITSZ X n_dims nbytes
        = __KERN_GPUTASK_WARP_OFFSET X n_rels n_dims nbytes n_threads := by
      unfold KERN_GPUTASK_WARP_CONTEXT __KERN_GPUTASK_WARP_OFFSET
      rw [← hidx, Nat.mul_add, Nat.mul_one]
      omega
    exact ⟨hidx, heq, Nat.le_of_eq heq⟩
  · intro hrels
    simp [KERN_GPUTASK_LSTATE_ARRAY, hrels]
  · intro halign hle
    by_contra hmul
    have hidx : (n_threads - 1) / WARPSIZE = n_threads / WARPSIZE := by
      unfold WARPSIZE at hmul ⊢; omega
    have hunit := unitsz_pos X halign n_dims nbytes
    unfold KERN_GPUTASK_WARP_CONTEXT __KERN_GPUTASK_WARP_OFFSET at hle
    rw [hidx] at hle
    omega

/-- Witness of the amended C10: 64 threads; the context of warp 1 occupies the bytes
2720 .. 5071 and the l_state array starts at byte 5072. -/
theorem last_warp_context_ends_at_lstate_array_witness :
    (0 < 64 ∧ 64 % WARPSIZE = 0 ∧ 1 ≠ 0) ∧
    KERN_GPUTASK_WARP_CONTEXT xpu_common_h 1 2 16 (64 - 1) = 2720 ∧
    KERN_GPUTASK_WARP_CONTEXT xpu_common_h 1 2 16 (64 - 1)
        + KERN_WARP_CONTEXT_UNITSZ xpu_common_h 2 16
      ≤ __KERN_GPUTASK_WARP_OFFSET xpu_common_h 1 2 16 64 ∧
    KERN_GPUTASK_LSTATE_ARRAY xpu_common_h 1 2 16 64 0 = some 5072 ∧
    (∀ len, len ≤ xpu_common_h.MAXALIGN len) ∧ 64 % WARPSIZE = 0 :=
  ⟨by decide, by decide,
   ((last_warp_context_ends_at_lstate_array xpu_common_h 1 2 16 64 (by decide)).1
      (by decide)).2.2,
   ((last_warp_context_ends_at_lstate_array xpu_common_h 1 2 16 64 (by decide)).2.1
      (by decide)).trans (by decide),
   fun len => by simp only [xpu_common_h]; omega,
   (last_warp_context_ends_at_lstate_array xpu_common_h 1 2 16 64 (by decide)).2.2
      (fun len => by simp only [xpu_common_h]; omega) (by decide)⟩

/-- Counterexample to C10 as stated: with 33 threads, not a multiple of 32, the last
warp has index 1 and is used by thread 32.  For every value of the `xpu_common.h`
parameters, `__KERN_GPUTASK_WARP_OFFSET` computed from n_threads = 33 puts the start of
the l_state array at the very offset where the context of that warp starts; with the
sample parameters the context occupies bytes 2720 .. 5071 and the l_state slice of
thread 0 starts at byte 2720, so the context does not end at or before the l_state
array. -/
theorem lstate_array_starts_inside_last_warp_context :
    (33 - 1) / WARPSIZE = 1 ∧
    (∀ X : XpuCommon,
      __KERN_GPUTASK_WARP_OFFSET X 1 2 16 33 = KERN_GPUTASK_WARP_CONTEXT X 1 2 16 (33 - 1)) ∧
    KERN_GPUTASK_WARP_CONTEXT xpu_common_h 1 2 16 (33 - 1) = 2720 ∧
    KERN_WARP_CONTEXT_UNITSZ xpu_common_h 2 16 = 2352 ∧
    KERN_GPUTASK_LSTATE_ARRAY xpu_common_h 1 2 16 33 0 = some 2720 ∧
    ¬ (KERN_GPUTASK_WARP_CONTEXT xpu_common_h 1 2 16 (33 - 1)
          + KERN_WARP_CONTEXT_UNITSZ xpu_common_h 2 16
        ≤ __KERN_GPUTASK_WARP_OFFSET xpu_common_h 1 2 16 33) := by
  refine ⟨by decide, ?_, by decide, by decide, by decide, by decide⟩
  intro X
  simp [KERN_GPUTASK_WARP_CONTEXT, __KERN_GPUTASK_WARP_OFFSET, WARPSIZE]

/-! ### The scan kernel across suspend and resume -/

theorem scan_pending_set (l : List scan_warp) (w : Nat) (wp wp' : scan_warp)
    (h : l[w]? = some wp) (a : Nat) :
    (scan_pending (l.set w wp')).count a + wp.kvars.count a
      = (scan_pending l).count a + wp'.kvars.count a := by
  induction l generalizing w with
  | nil => simp at h
  | cons x l ih =>
    cases w with
    | zero =>
      simp only [List.getElem?_cons_zero, Option.some.injEq] at h
      subst h
      simp only [scan_pending, List.set_cons_zero, List.map_cons, List.flatten_cons,
        List.count_append]
      omega
    | succ w =>
      simp only [List.getElem?_cons_succ] at h
      have := ih w h
      simp only [scan_pending, List.set_cons_succ, List.map_cons, List.flatten_cons,
        List.count_append] at this ⊢
      omega

theorem scan_inv_control (R W : Nat) (quals : Nat → Bool) (s s' : scan_task) (w : Nat)
    (wp wp' : scan_warp) (hinv : scan_inv R W quals s) (hw : s.warps[w]? = some wp)
    (hwarps : s'.warps = s.warps.set w wp') (hc : s'.consumed = s.consumed)
    (hd : s'.dst = s.dst) (ho : s'.output = s.output)
    (hsmx : wp'.smx_row_count = wp.smx_row_count) (hkv : wp'.kvars = wp.kvars)
    (hok : scan_warp_ok R W w wp') :
    scan_inv R W quals s' := by
  obtain ⟨h1, h2, h3, h4, h5⟩ := hinv
  have hwlt : w < s.warps.length := by
    rcases Nat.lt_or_ge w s.warps.length with h | h
    · exact h
    · rw [List.getElem?_eq_none h] at hw; cases hw
  refine ⟨by rw [hwarps, List.length_set, h1], ?_, ?_, by rw [hc]; exact h4, ?_⟩
  · intro w' wp'' hw'
    rw [hwarps] at hw'
    by_cases e : w' = w
    · subst e
      rw [List.getElem?_set_self hwlt] at hw'
      cases hw'; exact hok
    · rw [List.getElem?_set_ne (Ne.symm e)] at hw'
      exact h2 w' wp'' hw'
  · intro i
    rw [hc, h3 i, hwarps]
    by_cases e : i / WARPSIZE % W = w
    · rw [e, List.getElem?_set_self hwlt, hw]
      simp [hsmx]
    · rw [List.getElem?_set_ne (Ne.symm e)]
  · intro a
    have := scan_pending_set s.warps w wp wp' hw a
    have h5a := h5 a
    rw [hc, hd, ho, hwarps]
    simp only [List.count_append] at h5a ⊢
    rw [hkv] at this
    omega

theorem scan_unit_owner (W w c k : Nat) (hw : w < W) :
    (k % W = w ∧ k / W = c) ↔ k = c * W + w := by
  constructor
  · rintro ⟨rfl, rfl⟩
    exact (Nat.div_add_mod' k W).symm
  · rintro rfl
    have hW : 0 < W := by omega
    constructor
    · rw [Nat.add_comm, Nat.add_mul_mod_self_right, Nat.mod_eq_of_lt hw]
    · rw [Nat.add_comm, Nat.add_mul_div_right _ _ hW, Nat.div_eq_of_lt hw, Nat.zero_add]

theorem scan_inv_load (R W : Nat) (quals : Nat → Bool) (s s' : scan_task) (w : Nat)
    (wp wp' : scan_warp) (hinv : scan_inv R W quals s) (hw : s.warps[w]? = some wp)
    (hidx : (wp.smx_row_count * W + w) * WARPSIZE < R)
    (hwarps : s'.warps = s.warps.set w wp')
    (hc : s'.consumed = s.consumed ++
      List.range' ((wp.smx_row_count * W + w) * WARPSIZE)
        (min WARPSIZE (R - (wp.smx_row_count * W + w) * WARPSIZE)))
    (hd : s'.dst = s.dst) (ho : s'.output = s.output)
    (hsmx : wp'.smx_row_count = wp.smx_row_count + 1)
    (hkv : wp'.kvars = wp.kvars ++
      (List.range' ((wp.smx_row_count * W + w) * WARPSIZE)
        (min WARPSIZE (R - (wp.smx_row_count * W + w) * WARPSIZE))).filter quals)
    (hok : scan_warp_ok R W w wp') :
    scan_inv R W quals s' := by
  obtain ⟨h1, h2, h3, h4, h5⟩ := hinv
  have hwlt : w < s.warps.length := by
    rcases Nat.lt_or_ge w s.warps.length with h | h
    · exact h
    · rw [List.getElem?_eq_none h] at hw; cases hw
  have hwW : w < W := h1 ▸ hwlt
  have hrows : ∀ i : Nat, i ∈ List.range' ((wp.smx_row_count * W + w) * WARPSIZE)
        (min WARPSIZE (R - (wp.smx_row_count * W + w) * WARPSIZE))
      ↔ i < R ∧ i / WARPSIZE % W = w ∧ i / WARPSIZE / W = wp.smx_row_count := by
    intro i
    rw [List.mem_range'_1, scan_unit_owner W w wp.smx_row_count (i / WARPSIZE) hwW]
    generalize wp.smx_row_count * W + w = u at hidx ⊢
    unfold WARPSIZE at hidx ⊢
    omega
  refine ⟨by rw [hwarps, List.length_set, h1], ?_, ?_, ?_, ?_⟩
  · intro w' wp'' hw'
    rw [hwarps] at hw'
    by_cases e : w' = w
    · subst e
      rw [List.getElem?_set_self hwlt] at hw'
      cases hw'; exact hok
    · rw [List.getElem?_set_ne (Ne.symm e)] at hw'
      exact h2 w' wp'' hw'
  · intro i
    rw [hc, List.mem_append, h3 i, hrows i, hwarps]
    by_cases e : i / WARPSIZE % W = w
    · rw [e, List.getElem?_set_self hwlt, hw]
      simp only [Option.some.injEq, exists_eq_left', hsmx, e, true_and]
      omega
    · rw [List.getElem?_set_ne (Ne.symm e)]
      simp [e]
  · rw [hc, List.nodup_append]
    refine ⟨h4, List.nodup_range' _ _, ?_⟩
    intro i hi hi'
    rw [hrows i] at hi'
    obtain ⟨_, wp0, hwp0, hlt⟩ := (h3 i).1 hi
    rw [hi'.2.1, hw] at hwp0
    cases hwp0
    omega
  · intro a
    have := scan_pending_set s.warps w wp wp' hw a
    have h5a := h5 a
    rw [hc, hd, ho, hwarps]
    rw [hkv] at this
    simp only [List.count_append, List.filter_append] at h5a this ⊢
    omega

theorem scan_inv_write (R W : Nat) (quals : Nat → Bool) (s s' : scan_task) (w n : Nat)
    (wp wp' : scan_warp) (hinv : scan_inv R W quals s) (hw : s.warps[w]? = some wp)
    (hwarps : s'.warps = s.warps.set w wp') (hc : s'.consumed = s.consumed)
    (hd : s'.dst = s.dst ++ wp.kvars.take n) (ho : s'.output = s.output)
    (hsmx : wp'.smx_row_count = wp.smx_row_count) (hkv : wp'.kvars = wp.kvars.drop n)
    (hok : scan_warp_ok R W w wp') :
    scan_inv R W quals s' := by
  obtain ⟨h1, h2, h3, h4, h5⟩ := hinv
  have hwlt : w < s.warps.length := by
    rcases Nat.lt_or_ge w s.warps.length with h | h
    · exact h
    · rw [List.getElem?_eq_none h] at hw; cases hw
  refine ⟨by rw [hwarps, List.length_set, h1], ?_, ?_, by rw [hc]; exact h4, ?_⟩
  · intro w' wp'' hw'
    rw [hwarps] at hw'
    by_cases e : w' = w
    · subst e
      rw [List.getElem?_set_self hwlt] at hw'
      cases hw'; exact hok
    · rw [List.getElem?_set_ne (Ne.symm e)] at hw'
      exact h2 w' wp'' hw'
  · intro i
    rw [hc, h3 i, hwarps]
    by_cases e : i / WARPSIZE % W = w
    · rw [e, List.getElem?_set_self hwlt, hw]
      simp [hsmx]
    · rw [List.getElem?_set_ne (Ne.symm e)]
  · intro a
    have := scan_pending_set s.warps w wp wp' hw a
    have h5a := h5 a
    have htd : (wp.kvars.take n).count a + (wp.kvars.drop n).count a = wp.kvars.count a := by
      rw [← List.count_append, List.take_append_drop]
    rw [hc, hd, ho, hwarps]
    rw [hkv] at this
    simp only [List.count_append] at h5a ⊢
    omega

theorem scan_inv_step (R W nrooms : Nat) (quals : Nat → Bool) (s : scan_task) (w : Nat)
    (hinv : scan_inv R W quals s) :
    scan_inv R W quals (scan_warp_step R W nrooms quals s w) := by
  unfold scan_warp_step
  split
  · exact hinv
  · next wp hw =>
    obtain ⟨hpos, hdone, hsd⟩ := hinv.2.1 w wp hw
    split
    · exact hinv
    · next hrun =>
      have hdepth : ¬ wp.depth < 0 := fun h => hrun (Or.inr h)
      split
      · -- LOAD_SOURCE and EVAL_QUALS
        unfold scan_load_source
        split
        on_goal 1 => simp only []
        · split
          · next hidx =>
            refine scan_inv_load R W quals s _ w wp _ hinv hw hidx rfl rfl rfl rfl rfl rfl ?_
            refine ⟨?_, ?_, ?_⟩
            · simp only [List.length_append]; omega
            · intro h; simp at h
            · intro h
              have := hsd h
              simp only [Nat.add_mul] at this ⊢
              omega
          · next hidx =>
            refine scan_inv_control R W quals s _ w wp _ hinv hw rfl rfl rfl rfl rfl rfl ?_
            refine ⟨hpos, ?_, ?_⟩
            · intro h; simp at h
            · intro _; exact Nat.le_of_not_lt hidx
        · refine scan_inv_control R W quals s _ w wp _ hinv hw rfl rfl rfl rfl rfl rfl ?_
          refine ⟨hpos, ?_, hsd⟩
          intro h; simp at h
      · -- PROJECT
        unfold scan_projection
        split
        · refine scan_inv_control R W quals s _ w wp _ hinv hw rfl rfl rfl rfl rfl rfl ?_
          refine ⟨hpos, ?_, hsd⟩
          intro h; simp at h
        · next hgo =>
          simp only []
          split
          · next hn =>
            refine scan_inv_control R W quals s _ w wp _ hinv hw rfl rfl rfl rfl rfl rfl ?_
            have hlen : wp.kvars.length = 0 := by
              unfold WARPSIZE at hn; omega
            refine ⟨hpos, ?_, hsd⟩
            intro _
            show 1 ≤ wp.scan_done ∧ wp.kvars = []
            refine ⟨?_, List.eq_nil_of_length_eq_zero hlen⟩
            by_contra hlt
            apply hgo
            unfold WARPSIZE
            exact ⟨by omega, by omega⟩
          · split
            · refine scan_inv_write R W quals s _ w _ wp _ hinv hw rfl rfl rfl rfl rfl rfl ?_
              refine ⟨?_, fun h => absurd h hdepth, hsd⟩
              simp only [List.length_drop]
              omega
            · refine scan_inv_control R W quals s _ w wp _ hinv hw rfl rfl rfl rfl rfl rfl ?_
              exact ⟨hpos, hdone, hsd⟩

theorem scan_inv_foldl (R W nrooms : Nat) (quals : Nat → Bool) (sched : List Nat)
    (s : scan_task) (h : scan_inv R W quals s) :
    scan_inv R W quals (sched.foldl (scan_warp_step R W nrooms quals) s) := by
  induction sched generalizing s with
  | nil => exact h
  | cons w sched ih => exact ih _ (scan_inv_step R W nrooms quals s w h)

theorem scan_inv_main (R W nrooms : Nat) (quals : Nat → Bool) (sched : List Nat)
    (t : scan_task) (h : scan_host_inv R W quals t) :
    scan_inv R W quals (kern_gpuscan_main R W quals nrooms sched t) := by
  unfold kern_gpuscan_main
  apply scan_inv_foldl
  rcases h with rfl | ⟨hres, hdst, h1, h2, h3, h4, h5⟩
  · refine ⟨by simp [scan_task_init], ?_, ?_, by simp [scan_task_init], ?_⟩
    · intro w wp hw
      have hmem := List.getElem?_mem hw
      simp only [scan_task_init, Bool.false_eq_true, if_false] at hmem
      rw [List.eq_of_mem_replicate hmem]
      refine ⟨rfl, ?_, ?_⟩
      · intro h; simp [scan_warp_zero] at h
      · intro h; simp [scan_warp_zero] at h
    · intro i
      simp only [scan_task_init, Bool.false_eq_true, if_false, List.not_mem_nil, false_iff,
        not_and, not_exists]
      intro _ wp hw
      have hmem := List.getElem?_mem hw
      rw [List.eq_of_mem_replicate hmem]
      simp [scan_warp_zero]
    · intro a
      have : scan_pending (List.replicate W scan_warp_zero) = [] := by
        induction W with
        | zero => rfl
        | succ n ih =>
          simp only [scan_pending, List.replicate_succ, List.map_cons, List.flatten_cons] at ih ⊢
          rw [ih]; rfl
      simp [scan_task_init, this]
  · simp only [hres, if_true]
    refine ⟨by simp [h1], ?_, ?_, h4, ?_⟩
    · intro w wp hw
      simp only [List.getElem?_map, Option.map_eq_some'] at hw
      obtain ⟨wp0, hw0, rfl⟩ := hw
      exact h2 w wp0 hw0
    · intro i
      rw [h3 i]
      simp only [List.getElem?_map, Option.map_eq_some']
      constructor
      · rintro ⟨hi, wp, hw, hlt⟩
        exact ⟨hi, _, ⟨wp, hw, rfl⟩, hlt⟩
      · rintro ⟨hi, _, ⟨wp, hw, rfl⟩, hlt⟩
        exact ⟨hi, wp, hw, hlt⟩
    · intro a
      have : scan_pending (t.warps.map fun wp => { wp with suspended := false })
          = scan_pending t.warps := by
        simp only [scan_pending, List.map_map]
        rfl
      have h5a := h5 a
      rw [hdst] at h5a
      simp only [this]
      exact h5a

theorem scan_host_inv_relaunch (R W : Nat) (quals : Nat → Bool) (t : scan_task)
    (launch : Nat × List Nat) (h : scan_host_inv R W quals t) :
    scan_host_inv R W quals (scan_relaunch R W quals t launch) := by
  obtain ⟨h1, h2, h3, h4, h5⟩ := scan_inv_main R W launch.1 quals launch.2 t h
  right
  refine ⟨rfl, rfl, h1, h2, h3, h4, ?_⟩
  intro a
  have := h5 a
  simp only [scan_relaunch, List.count_append, List.count_nil] at this ⊢
  omega

theorem scan_host_inv_run (R W : Nat) (quals : Nat → Bool)
    (launches : List (Nat × List Nat)) (t : scan_task) (h : scan_host_inv R W quals t) :
    scan_host_inv R W quals (launches.foldl (scan_relaunch R W quals) t) := by
  induction launches generalizing t with
  | nil => exact h
  | cons l launches ih => exact ih _ (scan_host_inv_relaunch R W quals t l h)

theorem scan_run_resumed (R W : Nat) (quals : Nat → Bool)
    (launches : List (Nat × List Nat)) (hl : launches ≠ []) :
    (scan_run R W quals launches).resume_context = true := by
  obtain ⟨init, last, rfl⟩ : ∃ init last, launches = init ++ [last] :=
    ⟨launches.dropLast, launches.getLast hl, (List.dropLast_append_getLast hl).symm⟩
  simp [scan_run, scan_relaunch]

/-- Soundness of every sequence of launches: nothing is consumed twice, and a scan
that has ended holds every row that passes the quals exactly once. -/
theorem scan_run_sound (R W : Nat) (quals : Nat → Bool)
    (launches : List (Nat × List Nat)) (hW : 0 < W) (hl : launches ≠ []) :
    (scan_run R W quals launches).consumed.Nodup ∧
    (∀ i ∈ (scan_run R W quals launches).consumed, i < R) ∧
    ((∀ wp ∈ (scan_run R W quals launches).warps, wp.depth < 0) →
      (scan_run R W quals launches).output.Perm (scan_reference R quals) ∧
      (scan_run R W quals launches).consumed.Perm (List.range R)) := by
  have hinv := scan_host_inv_run R W quals launches scan_task_init (Or.inl rfl)
  change scan_host_inv R W quals (scan_run R W quals launches) at hinv
  have hres := scan_run_resumed R W quals launches hl
  rcases hinv with h | ⟨_, hdst, h1, h2, h3, h4, h5⟩
  · rw [h] at hres; cases hres
  refine ⟨h4, fun i hi => ((h3 i).1 hi).1, ?_⟩
  intro hdone
  have hcons : (scan_run R W quals launches).consumed.Perm (List.range R) := by
    rw [List.perm_ext_iff_of_nodup h4 (List.nodup_range R)]
    intro i
    rw [List.mem_range]
    refine ⟨fun hi => ((h3 i).1 hi).1, fun hi => (h3 i).2 ⟨hi, ?_⟩⟩
    have hlt : i / WARPSIZE % W < (scan_run R W quals launches).warps.length := by
      rw [h1]; exact Nat.mod_lt _ hW
    refine ⟨_, List.getElem?_eq_getElem hlt, ?_⟩
    have hmem := List.getElem_mem hlt
    obtain ⟨_, hd, hsd⟩ := h2 _ _ (List.getElem?_eq_getElem hlt)
    have hR := hsd (hd (hdone _ hmem)).1
    have hk := Nat.div_add_mod' (i / WARPSIZE) W
    have hi32 := Nat.div_add_mod' i WARPSIZE
    have hm := Nat.mod_lt i (show 0 < WARPSIZE by decide)
    by_contra hge
    have hle : ((scan_run R W quals launches).warps[i / WARPSIZE % W]).smx_row_count * W
        ≤ i / WARPSIZE / W * W := Nat.mul_le_mul_right _ (Nat.le_of_not_lt hge)
    unfold WARPSIZE at *
    omega
  refine ⟨?_, hcons⟩
  have hpend : scan_pending (scan_run R W quals launches).warps = [] := by
    unfold scan_pending
    rw [List.flatten_eq_nil_iff]
    intro l hlm
    rw [List.mem_map] at hlm
    obtain ⟨wp, hwp, rfl⟩ := hlm
    obtain ⟨w, hw⟩ := List.getElem?_of_mem hwp
    exact ((h2 w wp hw).2.1 (hdone wp hwp)).2
  rw [List.perm_iff_count]
  intro a
  have := h5 a
  rw [hdst, hpend, List.append_nil, List.append_nil] at this
  rw [this]
  exact List.Perm.count_eq (List.Perm.filter _ hcons) a

theorem scan_pending_length (l : List scan_warp) (w : Nat) (wp : scan_warp)
    (h : l[w]? = some wp) : wp.kvars.length ≤ (scan_pending l).length := by
  induction l generalizing w with
  | nil => simp at h
  | cons x l ih =>
    cases w with
    | zero =>
      simp only [List.getElem?_cons_zero, Option.some.injEq] at h
      subst h
      simp [scan_pending]
    | succ w =>
      simp only [List.getElem?_cons_succ] at h
      have := ih w h
      simp only [scan_pending, List.map_cons, List.flatten_cons, List.length_append] at this ⊢
      omega

theorem scan_inv_room (R W : Nat) (quals : Nat → Bool) (s : scan_task) (w : Nat)
    (wp : scan_warp) (hinv : scan_inv R W quals s) (hw : s.warps[w]? = some wp) :
    s.dst.length + wp.kvars.length ≤ R := by
  obtain ⟨_, _, h3, h4, h5⟩ := hinv
  have hperm : (s.output ++ s.dst ++ scan_pending s.warps).Perm (s.consumed.filter quals) :=
    List.perm_iff_count.mpr h5
  have hlen := hperm.length_eq
  have h1 : (s.consumed.filter quals).length ≤ s.consumed.length := List.length_filter_le _ _
  have h2 : s.consumed.length ≤ R := by
    have hsub : s.consumed.toFinset ⊆ Finset.range R := by
      intro i hi
      rw [List.mem_toFinset] at hi
      exact Finset.mem_range.mpr ((h3 i).1 hi).1
    have := Finset.card_le_card hsub
    rwa [List.toFinset_card_of_nodup h4, Finset.card_range] at this
  have h6 := scan_pending_length s.warps w wp hw
  simp only [List.length_append] at hlen
  omega

theorem scan_step_progress (R W nrooms : Nat) (quals : Nat → Bool) (s : scan_task) (w : Nat)
    (wp : scan_warp) (hW : 0 < W) (hroom : R ≤ nrooms) (hinv : scan_inv R W quals s)
    (hw : s.warps[w]? = some wp) (hns : wp.suspended = false) (hnd : ¬ wp.depth < 0) :
    ∃ wp', (scan_warp_step R W nrooms quals s w).warps = s.warps.set w wp' ∧
      wp'.suspended = false ∧
      scan_measure R W w wp' < scan_measure R W w wp ∧
      (scan_warp_step R W nrooms quals s w).suspend_count = s.suspend_count := by
  obtain ⟨hpos, -, -⟩ := hinv.2.1 w wp hw
  have hfit := scan_inv_room R W quals s w wp hinv hw
  have hrun : ¬ (wp.suspended = true ∨ wp.depth < 0) := by
    rw [hns]; simp [hnd]
  unfold scan_warp_step
  rw [hw]
  simp only [hrun, if_false]
  split
  · next hd0 =>
    unfold scan_load_source
    split
    · next hroomq =>
      simp only []
      split
      · next hidx =>
        refine ⟨_, rfl, hns, ?_, rfl⟩
        have hm : ((List.range' ((wp.smx_row_count * W + w) * WARPSIZE)
            (min WARPSIZE (R - (wp.smx_row_count * W + w) * WARPSIZE))).filter quals).length
            ≤ min WARPSIZE (R - (wp.smx_row_count * W + w) * WARPSIZE) := by
          have := List.length_filter_le quals (List.range' ((wp.smx_row_count * W + w) * WARPSIZE)
            (min WARPSIZE (R - (wp.smx_row_count * W + w) * WARPSIZE)))
          rwa [List.length_range'] at this
        generalize ((List.range' ((wp.smx_row_count * W + w) * WARPSIZE)
            (min WARPSIZE (R - (wp.smx_row_count * W + w) * WARPSIZE))).filter quals).length
            = m at hm
        simp only [scan_measure, hnd, hd0, if_false, if_true, Nat.add_mul, Nat.one_mul]
        unfold WARPSIZE at *
        norm_num
        split_ifs <;> omega
      · next hidx =>
        refine ⟨_, rfl, hns, ?_, rfl⟩
        simp only [scan_measure, hnd, hd0, if_false, if_true]
        norm_num
        split_ifs <;> omega
    · next hroomq =>
      refine ⟨_, rfl, hns, ?_, rfl⟩
      simp only [scan_measure, hnd, hd0, if_false, if_true]
      unfold UNIT_TUPLES_PER_DEPTH WARPSIZE at *
      norm_num
      intro _
      omega
  · next hd0 =>
    unfold scan_projection
    split
    · next hb =>
      refine ⟨_, rfl, hns, ?_, rfl⟩
      simp only [scan_measure, hnd, hd0, hb, if_false, if_true]
      norm_num
    · next hb =>
      simp only []
      split
      · next hn =>
        refine ⟨_, rfl, hns, ?_, rfl⟩
        simp only [scan_measure, hnd, hd0, if_false, if_true]
        norm_num
      · next hn =>
        have hle : min WARPSIZE (wp.pos_write - wp.pos_read) ≤ wp.kvars.length := by
          unfold WARPSIZE; omega
        have hcan : s.dst.length + min WARPSIZE (wp.pos_write - wp.pos_read) ≤ nrooms := by
          omega
        rw [if_pos hcan]
        refine ⟨_, rfl, hns, ?_, rfl⟩
        simp only [scan_measure, hnd, hd0, hb, if_false, if_true]
        unfold WARPSIZE at *
        split_ifs <;> omega

theorem scan_set_same (l : List scan_warp) (w : Nat) (wp : scan_warp)
    (h : l[w]? = some wp) : l.set w wp = l := by
  induction l generalizing w with
  | nil => rfl
  | cons x l ih =>
    cases w with
    | zero =>
      simp only [List.getElem?_cons_zero, Option.some.injEq] at h
      rw [List.set_cons_zero, h]
    | succ w =>
      simp only [List.getElem?_cons_succ] at h
      rw [List.set_cons_succ, ih w h]

theorem scan_measure_zero (R W w : Nat) (wp : scan_warp)
    (h : scan_measure R W w wp = 0) : wp.depth < 0 := by
  by_contra hnd
  simp only [scan_measure, hnd, if_false] at h
  omega

theorem scan_step_done (R W nrooms : Nat) (quals : Nat → Bool) (s : scan_task) (w : Nat)
    (wp : scan_warp) (hw : s.warps[w]? = some wp) (hd : wp.depth < 0) :
    scan_warp_step R W nrooms quals s w = s := by
  unfold scan_warp_step
  rw [hw]
  simp [hd]

theorem scan_steps_done (R W nrooms : Nat) (quals : Nat → Bool) (s : scan_task) (w : Nat)
    (wp : scan_warp) (hw : s.warps[w]? = some wp) (hd : wp.depth < 0) (K : Nat) :
    (List.replicate K w).foldl (scan_warp_step R W nrooms quals) s = s := by
  induction K with
  | zero => rfl
  | succ K ih =>
    rw [List.replicate_succ, List.foldl_cons, scan_step_done R W nrooms quals s w wp hw hd, ih]

theorem scan_warp_runs_to_done (R W nrooms : Nat) (quals : Nat → Bool) (w : Nat)
    (hW : 0 < W) (hroom : R ≤ nrooms) (K : Nat) :
    ∀ (s : scan_task) (wp : scan_warp), scan_inv R W quals s → s.warps[w]? = some wp →
      wp.suspended = false → scan_measure R W w wp ≤ K →
      scan_inv R W quals ((List.replicate K w).foldl (scan_warp_step R W nrooms quals) s) ∧
      ((List.replicate K w).foldl (scan_warp_step R W nrooms quals) s).suspend_count
        = s.suspend_count ∧
      ∃ wp', ((List.replicate K w).foldl (scan_warp_step R W nrooms quals) s).warps
          = s.warps.set w wp' ∧ wp'.depth < 0 ∧ wp'.suspended = false := by
  induction K with
  | zero =>
    intro s wp hinv hw hns hm
    have hd := scan_measure_zero R W w wp (Nat.le_zero.mp hm)
    refine ⟨hinv, rfl, wp, ?_, hd, hns⟩
    exact (scan_set_same _ w wp hw).symm
  | succ K ih =>
    intro s wp hinv hw hns hm
    by_cases hd : wp.depth < 0
    · rw [scan_steps_done R W nrooms quals s w wp hw hd]
      exact ⟨hinv, rfl, wp, (scan_set_same _ w wp hw).symm, hd, hns⟩
    · obtain ⟨wp1, hwarps, hns1, hlt, hsc⟩ :=
        scan_step_progress R W nrooms quals s w wp hW hroom hinv hw hns hd
      have hinv1 := scan_inv_step R W nrooms quals s w hinv
      have hwlt : w < s.warps.length := by
        rcases Nat.lt_or_ge w s.warps.length with h | h
        · exact h
        · rw [List.getElem?_eq_none h] at hw; cases hw
      have hw1 : (scan_warp_step R W nrooms quals s w).warps[w]? = some wp1 := by
        rw [hwarps, List.getElem?_set_self hwlt]
      obtain ⟨h1, h2, wp', h3, h4, h5⟩ := ih _ wp1 hinv1 hw1 hns1 (by omega)
      rw [List.replicate_succ, List.foldl_cons]
      refine ⟨h1, by rw [h2, hsc], wp', ?_, h4, h5⟩
      rw [h3, hwarps, List.set_set]

theorem scan_sched_all_done (R W nrooms K : Nat) (quals : Nat → Bool)
    (hW : 0 < W) (hroom : R ≤ nrooms) (ws : List Nat) :
    ∀ s : scan_task, scan_inv R W quals s → (∀ w ∈ ws, w < W) →
      (∀ wp ∈ s.warps, wp.suspended = false) →
      (∀ (w : Nat) (wp : scan_warp), s.warps[w]? = some wp → scan_measure R W w wp ≤ K) →
      scan_inv R W quals
        ((ws.flatMap (fun w => List.replicate K w)).foldl (scan_warp_step R W nrooms quals) s) ∧
      ((ws.flatMap (fun w => List.replicate K w)).foldl
        (scan_warp_step R W nrooms quals) s).suspend_count = s.suspend_count ∧
      ∀ (w : Nat) (wp : scan_warp),
        ((ws.flatMap (fun w => List.replicate K w)).foldl
          (scan_warp_step R W nrooms quals) s).warps[w]? = some wp →
        wp.depth < 0 ∨ (w ∉ ws ∧ s.warps[w]? = some wp) := by
  induction ws with
  | nil =>
    intro s hinv _ _ _
    exact ⟨hinv, rfl, fun w wp h => Or.inr ⟨List.not_mem_nil w, h⟩⟩
  | cons w ws ih =>
    intro s hinv hws hns hm
    have hwW : w < W := hws w (List.mem_cons_self w ws)
    have hwlt : w < s.warps.length := by rw [hinv.1]; exact hwW
    have hw : s.warps[w]? = some s.warps[w] := List.getElem?_eq_getElem hwlt
    obtain ⟨hinv1, hsc1, wp1, hwarps1, hd1, hns1⟩ :=
      scan_warp_runs_to_done R W nrooms quals w hW hroom K s _ hinv hw
        (hns _ (List.getElem_mem hwlt)) (hm w _ hw)
    rw [List.flatMap_cons, List.foldl_append]
    obtain ⟨hinv2, hsc2, hall⟩ := ih _ hinv1
      (fun w' hw' => hws w' (List.mem_cons_of_mem w hw'))
      (by
        intro wp hwp
        rw [hwarps1] at hwp
        rcases List.mem_or_eq_of_mem_set hwp with h | h
        · exact hns wp h
        · rw [h]; exact hns1)
      (by
        intro w' wp hw'
        rw [hwarps1] at hw'
        by_cases e : w' = w
        · subst e
          rw [List.getElem?_set_self hwlt] at hw'
          cases hw'
          simp [scan_measure, hd1]
        · rw [List.getElem?_set_ne (Ne.symm e)] at hw'
          exact hm w' wp hw')
    refine ⟨hinv2, by rw [hsc2, hsc1], ?_⟩
    intro w' wp hw'
    rcases hall w' wp hw' with h | ⟨hnot, hsame⟩
    · exact Or.inl h
    · rw [hwarps1] at hsame
      by_cases e : w' = w
      · subst e
        rw [List.getElem?_set_self hwlt] at hsame
        cases hsame
        exact Or.inl hd1
      · rw [List.getElem?_set_ne (Ne.symm e)] at hsame
        refine Or.inr ⟨?_, hsame⟩
        simp only [List.mem_cons, not_or]
        exact ⟨e, hnot⟩

theorem scan_single_pass_done (R W : Nat) (quals : Nat → Bool) (hW : 0 < W) :
    (∀ wp ∈ (scan_single_pass R W quals).warps, wp.depth < 0) ∧
    (scan_single_pass R W quals).suspend_count = 0 := by
  have hinv0 := scan_inv_main R W R quals [] scan_task_init (Or.inl rfl)
  obtain ⟨hinv, hsc, hall⟩ := scan_sched_all_done R W R (8 * R + 6) quals hW (Nat.le_refl R)
    (List.range W) _ hinv0 (fun w hw => List.mem_range.mp hw)
    (by
      intro wp hwp
      simp only [kern_gpuscan_main, scan_task_init, List.foldl_nil, Bool.false_eq_true,
        if_false] at hwp
      rw [List.eq_of_mem_replicate hwp]; rfl)
    (by
      intro w wp hw
      have hwp := List.getElem?_mem hw
      simp only [kern_gpuscan_main, scan_task_init, List.foldl_nil, Bool.false_eq_true,
        if_false] at hwp
      rw [List.eq_of_mem_replicate hwp]
      simp [scan_measure, scan_warp_zero]
      omega)
  have hrun : (scan_single_pass R W quals).warps
      = ((scan_single_sched R W).foldl (scan_warp_step R W R quals)
          (kern_gpuscan_main R W quals R [] scan_task_init)).warps := rfl
  have hcnt : (scan_single_pass R W quals).suspend_count
      = ((scan_single_sched R W).foldl (scan_warp_step R W R quals)
          (kern_gpuscan_main R W quals R [] scan_task_init)).suspend_count := rfl
  constructor
  · intro wp hwp
    rw [hrun] at hwp
    obtain ⟨w, hw⟩ := List.getElem?_of_mem hwp
    rcases hall w wp hw with h | ⟨hnot, hsame⟩
    · exact h
    · exfalso
      apply hnot
      rw [List.mem_range, ← hinv0.1]
      rcases Nat.lt_or_ge w (kern_gpuscan_main R W quals R [] scan_task_init).warps.length
        with h | h
      · exact h
      · rw [List.getElem?_eq_none h] at hsame; cases hsame
  · rw [hcnt]
    exact hsc

theorem scan_step_cases (R W nrooms : Nat) (quals : Nat → Bool) (s : scan_task) (w : Nat)
    (wp : scan_warp) (hW : 0 < W) (hinv : scan_inv R W quals s)
    (hw : s.warps[w]? = some wp) (hns : wp.suspended = false) (hnd : ¬ wp.depth < 0) :
    (∃ wp', (scan_warp_step R W nrooms quals s w).warps = s.warps.set w wp' ∧
      scan_measure R W w wp' < scan_measure R W w wp) ∨
    ((scan_warp_step R W nrooms quals s w).warps
        = s.warps.set w { wp with suspended := true } ∧
      nrooms < s.dst.length + WARPSIZE) := by
  by_cases hfit : s.dst.length + min WARPSIZE (wp.pos_write - wp.pos_read) ≤ nrooms
  · left
    obtain ⟨hpos, -, -⟩ := hinv.2.1 w wp hw
    have hrun : ¬ (wp.suspended = true ∨ wp.depth < 0) := by
      rw [hns]; simp [hnd]
    unfold scan_warp_step
    rw [hw]
    simp only [hrun, if_false]
    split
    · next hd0 =>
      unfold scan_load_source
      split
      · next hroomq =>
        simp only []
        split
        · next hidx =>
          refine ⟨_, rfl, ?_⟩
          have hm : ((List.range' ((wp.smx_row_count * W + w) * WARPSIZE)
              (min WARPSIZE (R - (wp.smx_row_count * W + w) * WARPSIZE))).filter quals).length
              ≤ min WARPSIZE (R - (wp.smx_row_count * W + w) * WARPSIZE) := by
            have := List.length_filter_le quals
              (List.range' ((wp.smx_row_count * W + w) * WARPSIZE)
                (min WARPSIZE (R - (wp.smx_row_count * W + w) * WARPSIZE)))
            rwa [List.length_range'] at this
          generalize ((List.range' ((wp.smx_row_count * W + w) * WARPSIZE)
              (min WARPSIZE (R - (wp.smx_row_count * W + w) * WARPSIZE))).filter quals).length
              = m at hm
          simp only [scan_measure, hnd, hd0, if_false, if_true, Nat.add_mul, Nat.one_mul]
          unfold WARPSIZE at *
          norm_num
          split_ifs <;> omega
        · next hidx =>
          refine ⟨_, rfl, ?_⟩
          simp only [scan_measure, hnd, hd0, if_false, if_true]
          norm_num
          split_ifs <;> omega
      · next hroomq =>
        refine ⟨_, rfl, ?_⟩
        simp only [scan_measure, hnd, hd0, if_false, if_true]
        unfold UNIT_TUPLES_PER_DEPTH WARPSIZE at *
        norm_num
        intro _
        omega
    · next hd0 =>
      unfold scan_projection
      split
      · next hb =>
        refine ⟨_, rfl, ?_⟩
        simp only [scan_measure, hnd, hd0, hb, if_false, if_true]
        norm_num
      · next hb =>
        simp only []
        split
        · next hn =>
          refine ⟨_, rfl, ?_⟩
          simp only [scan_measure, hnd, hd0, if_false, if_true]
          norm_num
        · next hn =>
          try rw [if_pos hfit]
          refine ⟨_, rfl, ?_⟩
          simp only [scan_measure, hnd, hd0, hb, if_false, if_true]
          unfold WARPSIZE at *
          split_ifs <;> omega
  · by_cases hsusp : ¬ wp.depth = 0 ∧
        ¬ (wp.scan_done < 1 ∧ wp.pos_write - wp.pos_read < WARPSIZE) ∧
        min WARPSIZE (wp.pos_write - wp.pos_read) ≠ 0
    · right
      obtain ⟨hd0, hb, hn⟩ := hsusp
      have hrun : ¬ (wp.suspended = true ∨ wp.depth < 0) := by
        rw [hns]; simp [hnd]
      refine ⟨?_, ?_⟩
      · unfold scan_warp_step
        rw [hw]
        simp only [hrun, if_false, hd0]
        unfold scan_projection
        simp only [hb, if_false, hn, hfit]
      · have : min WARPSIZE (wp.pos_write - wp.pos_read) ≤ WARPSIZE := Nat.min_le_left _ _
        omega
    · left
      obtain ⟨wp', h1, _, h3, _⟩ := scan_step_progress R W (max nrooms R) quals s w wp hW
        (Nat.le_max_right _ _) hinv hw hns hnd
      refine ⟨wp', ?_, h3⟩
      rw [← h1]
      have hrun : ¬ (wp.suspended = true ∨ wp.depth < 0) := by
        rw [hns]; simp [hnd]
      unfold scan_warp_step
      rw [hw]
      simp only [hrun, if_false]
      split
      · rfl
      · next hd0 =>
        unfold scan_projection
        split
        · rfl
        · next hb =>
          simp only []
          split
          · rfl
          · next hn =>
            exact absurd ⟨hd0, hb, hn⟩ hsusp

theorem scan_measure_from_set (R W : Nat) :
    ∀ (l : List scan_warp) (k i : Nat) (wp wp' : scan_warp), l[i]? = some wp →
      scan_measure_from R W k (l.set i wp') + scan_measure R W (k + i) wp
        = scan_measure_from R W k l + scan_measure R W (k + i) wp'
  | [], _, _, _, _, h => by simp at h
  | x :: l, k, 0, wp, wp', h => by
    simp only [List.getElem?_cons_zero, Option.some.injEq] at h
    subst h
    simp only [List.set_cons_zero, scan_measure_from, Nat.add_zero]
    omega
  | x :: l, k, i + 1, wp, wp', h => by
    simp only [List.getElem?_cons_succ] at h
    have := scan_measure_from_set R W l (k + 1) i wp wp' h
    have e : k + 1 + i = k + (i + 1) := by omega
    rw [e] at this
    simp only [List.set_cons_succ, scan_measure_from]
    omega

theorem scan_measure_from_unsuspend (R W : Nat) :
    ∀ (l : List scan_warp) (k : Nat),
      scan_measure_from R W k (l.map (fun wp => { wp with suspended := false }))
        = scan_measure_from R W k l
  | [], _ => rfl
  | x :: l, k => by
    simp only [List.map_cons, scan_measure_from, scan_measure_from_unsuspend R W l (k + 1)]
    rfl

theorem scan_measure_from_pos (R W : Nat) :
    ∀ (l : List scan_warp) (k : Nat), 0 < scan_measure_from R W k l →
      ∃ (i : Nat) (wp : scan_warp), l[i]? = some wp ∧ ¬ wp.depth < 0
  | [], _, h => by simp [scan_measure_from] at h
  | x :: l, k, h => by
    by_cases hx : x.depth < 0
    · have h0 : scan_measure R W k x = 0 := by simp [scan_measure, hx]
      simp only [scan_measure_from, h0, Nat.zero_add] at h
      obtain ⟨i, wp, hi, hd⟩ := scan_measure_from_pos R W l (k + 1) h
      exact ⟨i + 1, wp, by rw [List.getElem?_cons_succ]; exact hi, hd⟩
    · exact ⟨0, x, by simp, hx⟩

theorem scan_measure_from_zero (R W : Nat) :
    ∀ (l : List scan_warp) (k : Nat), scan_measure_from R W k l = 0 →
      ∀ wp ∈ l, wp.depth < 0
  | [], _, _ => fun wp hwp => absurd hwp (List.not_mem_nil wp)
  | x :: l, k, h => by
    simp only [scan_measure_from] at h
    intro wp hwp
    rcases List.mem_cons.mp hwp with e | hm
    · rw [e]
      exact scan_measure_zero R W k x (by omega)
    · exact scan_measure_from_zero R W l (k + 1) (by omega) wp hm

theorem scan_measure_from_le (R W B : Nat) :
    ∀ (l : List scan_warp) (k : Nat),
      (∀ i wp, l[i]? = some wp → scan_measure R W (k + i) wp ≤ B) →
      scan_measure_from R W k l ≤ l.length * B
  | [], _, _ => by simp [scan_measure_from]
  | x :: l, k, h => by
    have h0 := h 0 x (by simp)
    have := scan_measure_from_le R W B l (k + 1) (by
      intro i wp hi
      have := h (i + 1) wp (by rw [List.getElem?_cons_succ]; exact hi)
      have e : k + 1 + i = k + (i + 1) := by omega
      rw [e]
      exact this)
    simp only [scan_measure_from, List.length_cons, Nat.add_mul, Nat.one_mul,
      Nat.add_zero] at h0 this ⊢
    omega

theorem scan_step_measure_le (R W nrooms : Nat) (quals : Nat → Bool) (s : scan_task)
    (w : Nat) (hW : 0 < W) (hinv : scan_inv R W quals s) :
    scan_measure_from R W 0 (scan_warp_step R W nrooms quals s w).warps
      ≤ scan_measure_from R W 0 s.warps := by
  cases hw : s.warps[w]? with
  | none =>
    unfold scan_warp_step
    rw [hw]
  | some wp =>
    by_cases hrun : wp.suspended = true ∨ wp.depth < 0
    · unfold scan_warp_step
      rw [hw]
      simp only [hrun, if_true]
      exact Nat.le_refl _
    · have hns : wp.suspended = false := by
        cases h : wp.suspended
        · rfl
        · exact absurd (Or.inl h) hrun
      have hnd : ¬ wp.depth < 0 := fun h => hrun (Or.inr h)
      rcases scan_step_cases R W nrooms quals s w wp hW hinv hw hns hnd with
        ⟨wp', h1, h2⟩ | ⟨h1, _⟩
      · have := scan_measure_from_set R W s.warps 0 w wp wp' hw
        rw [Nat.zero_add] at this
        rw [h1]
        omega
      · have := scan_measure_from_set R W s.warps 0 w wp { wp with suspended := true } hw
        rw [Nat.zero_add] at this
        have e : scan_measure R W w { wp with suspended := true } = scan_measure R W w wp := rfl
        rw [h1]
        omega

theorem scan_sched_measure_le (R W nrooms : Nat) (quals : Nat → Bool) (hW : 0 < W)
    (sched : List Nat) :
    ∀ s : scan_task, scan_inv R W quals s →
      scan_measure_from R W 0 (sched.foldl (scan_warp_step R W nrooms quals) s).warps
        ≤ scan_measure_from R W 0 s.warps := by
  induction sched with
  | nil => intro s _; exact Nat.le_refl _
  | cons v sched ih =>
    intro s hinv
    rw [List.foldl_cons]
    exact Nat.le_trans (ih _ (scan_inv_step R W nrooms quals s v hinv))
      (scan_step_measure_le R W nrooms quals s v hW hinv)

theorem scan_sched_measure_lt (R W nrooms : Nat) (quals : Nat → Bool) (hW : 0 < W)
    (hroom : WARPSIZE ≤ nrooms) (sched : List Nat) :
    ∀ s : scan_task, scan_inv R W quals s → s.dst = [] →
      (∀ wp ∈ s.warps, wp.suspended = false) →
      (∃ w ∈ sched, ∃ wp, s.warps[w]? = some wp ∧ ¬ wp.depth < 0) →
      scan_measure_from R W 0 (sched.foldl (scan_warp_step R W nrooms quals) s).warps
        < scan_measure_from R W 0 s.warps := by
  induction sched with
  | nil =>
    rintro s _ _ _ ⟨w, hw, _⟩
    exact absurd hw (List.not_mem_nil w)
  | cons v sched ih =>
    rintro s hinv hdst hns ⟨w, hw, wp, hwp, hnd⟩
    rw [List.foldl_cons]
    have hskip : scan_warp_step R W nrooms quals s v = s → w ≠ v →
        scan_measure_from R W 0
          (sched.foldl (scan_warp_step R W nrooms quals)
            (scan_warp_step R W nrooms quals s v)).warps
          < scan_measure_from R W 0 s.warps := by
      intro hsame hne
      rw [hsame]
      rcases List.mem_cons.mp hw with e | hm
      · exact absurd e hne
      · exact ih s hinv hdst hns ⟨w, hm, wp, hwp, hnd⟩
    cases hv : s.warps[v]? with
    | none =>
      apply hskip
      · unfold scan_warp_step
        rw [hv]
      · intro e
        rw [e, hv] at hwp
        cases hwp
    | some vp =>
      by_cases hvd : vp.depth < 0
      · apply hskip
        · exact scan_step_done R W nrooms quals s v vp hv hvd
        · intro e
          rw [e, hv] at hwp
          cases hwp
          exact hnd hvd
      · have hvs : vp.suspended = false := hns vp (List.getElem?_mem hv)
        rcases scan_step_cases R W nrooms quals s v vp hW hinv hv hvs hvd with
          ⟨vp', h1, h2⟩ | ⟨_, h2⟩
        · have hle := scan_sched_measure_le R W nrooms quals hW sched _
            (scan_inv_step R W nrooms quals s v hinv)
          have := scan_measure_from_set R W s.warps 0 v vp vp' hv
          rw [Nat.zero_add] at this
          rw [h1] at hle
          omega
        · rw [hdst] at h2
          simp only [List.length_nil, Nat.zero_add] at h2
          omega

theorem scan_inv_entered (R W : Nat) (quals : Nat → Bool) (t : scan_task)
    (hdst : t.dst = []) (hinv : scan_inv R W quals t) :
    scan_inv R W quals
      { t with
        warps := t.warps.map (fun wp => { wp with suspended := false })
        dst := [] } := by
  obtain ⟨h1, h2, h3, h4, h5⟩ := hinv
  refine ⟨by simp [h1], ?_, ?_, h4, ?_⟩
  · intro w wp hw
    simp only [List.getElem?_map, Option.map_eq_some'] at hw
    obtain ⟨wp0, hw0, rfl⟩ := hw
    exact h2 w wp0 hw0
  · intro i
    rw [h3 i]
    simp only [List.getElem?_map, Option.map_eq_some']
    constructor
    · rintro ⟨hi, wp, hw, hlt⟩
      exact ⟨hi, _, ⟨wp, hw, rfl⟩, hlt⟩
    · rintro ⟨hi, _, ⟨wp, hw, rfl⟩, hlt⟩
      exact ⟨hi, wp, hw, hlt⟩
  · intro a
    have : scan_pending (t.warps.map fun wp => { wp with suspended := false })
        = scan_pending t.warps := by
      simp only [scan_pending, List.map_map]
      rfl
    have h5a := h5 a
    rw [hdst] at h5a
    simp only [this]
    exact h5a

/-- A relaunch whose destination chunk has room for a batch of one warp and in which
every warp takes a step brings the scan closer to its end. -/
theorem scan_relaunch_measure (R W : Nat) (quals : Nat → Bool) (t : scan_task)
    (launch : Nat × List Nat) (hW : 0 < W) (hres : t.resume_context = true)
    (hdst : t.dst = []) (hinv : scan_inv R W quals t) (hcap : WARPSIZE ≤ launch.1)
    (hfair : ∀ w < W, w ∈ launch.2) :
    scan_total_measure R W (scan_relaunch R W quals t launch)
      ≤ scan_total_measure R W t - 1 := by
  have hent := scan_inv_entered R W quals t hdst hinv
  have hwarps : (scan_relaunch R W quals t launch).warps
      = (launch.2.foldl (scan_warp_step R W launch.1 quals)
          { t with
            warps := t.warps.map (fun wp => { wp with suspended := false })
            dst := [] }).warps := by
    simp [scan_relaunch, kern_gpuscan_main, hres]
  have hm0 := scan_measure_from_unsuspend R W t.warps 0
  unfold scan_total_measure
  rw [hwarps]
  by_cases hz : scan_measure_from R W 0 t.warps = 0
  · have := scan_sched_measure_le R W launch.1 quals hW launch.2 _ hent
    simp only [] at this
    omega
  · have hpos : 0 < scan_measure_from R W 0
        (t.warps.map (fun wp => { wp with suspended := false })) := by omega
    obtain ⟨i, wp, hi, hd⟩ := scan_measure_from_pos R W _ 0 hpos
    have hiW : i < W := by
      rcases Nat.lt_or_ge i W with h | h
      · exact h
      · rw [List.getElem?_eq_none (by simp [hinv.1]; exact h)] at hi
        cases hi
    have := scan_sched_measure_lt R W launch.1 quals hW hcap launch.2 _ hent rfl
      (by
        intro wp hwp
        simp only [List.mem_map] at hwp
        obtain ⟨wp0, _, rfl⟩ := hwp
        rfl)
      ⟨i, hfair i hiW, wp, hi, hd⟩
    simp only [] at this
    omega

theorem scan_resumes_measure (R W : Nat) (quals : Nat → Bool) (hW : 0 < W)
    (resumes : List (Nat × List Nat)) :
    ∀ t : scan_task, t.resume_context = true → t.dst = [] → scan_inv R W quals t →
      (∀ launch ∈ resumes, WARPSIZE ≤ launch.1 ∧ ∀ w < W, w ∈ launch.2) →
      scan_total_measure R W (resumes.foldl (scan_relaunch R W quals) t)
        ≤ scan_total_measure R W t - resumes.length := by
  induction resumes with
  | nil => intro t _ _ _ _; exact Nat.le_refl _
  | cons launch resumes ih =>
    intro t hres hdst hinv hall
    obtain ⟨hcap, hfair⟩ := hall launch (List.mem_cons_self _ _)
    have h1 := scan_relaunch_measure R W quals t launch hW hres hdst hinv hcap hfair
    have hhost := scan_host_inv_relaunch R W quals t launch (Or.inr ⟨hres, hdst, hinv⟩)
    rcases hhost with h | ⟨hres', hdst', hinv'⟩
    · have : (scan_relaunch R W quals t launch).resume_context = true := rfl
      rw [h] at this
      cases this
    · have h2 := ih _ hres' hdst' hinv'
        (fun l hl => hall l (List.mem_cons_of_mem _ hl))
      rw [List.foldl_cons, List.length_cons]
      omega

theorem scan_total_measure_bound (R W : Nat) (quals : Nat → Bool) (s : scan_task)
    (hinv : scan_inv R W quals s) : scan_total_measure R W s ≤ W * (11 * R + 7) := by
  unfold scan_total_measure
  have := scan_measure_from_le R W (11 * R + 7) s.warps 0 (by
    intro i wp hi
    have hroom := scan_inv_room R W quals s i wp hinv hi
    obtain ⟨hpos, -, -⟩ := hinv.2.1 i wp hi
    simp only [scan_measure, Nat.zero_add]
    split_ifs <;> omega)
  rw [hinv.1] at this
  exact this

/-- C4 on the model of the scan kernel, for a chunk of R rows and W >= 1 warps.
The single pass (one launch with room for R rows) brings every warp to DONE without
a suspension, and its output is, up to order, the rows of the chunk that pass the
quals.  In any sequence of launches (the first fresh, every later one a relaunch
with the saved task descriptor; each with its own destination capacity and
interleaving of the warps) no source row index is consumed twice and only indices
below R are consumed; and once every warp has reached DONE the output rows are, up
to order, those of the single pass, every source row having been consumed exactly
once.  The end is reached from every such sequence, whatever suspensions it holds:
after as many further relaunches as the measure of the saved task descriptor, at most
W * (11 * R + 7), each with room for one batch of a warp and a step of every warp,
every warp is DONE, the output rows are those of the single pass and every source row
has been consumed exactly once. -/
theorem scan_suspend_resume_exactly_once (R W : Nat) (quals : Nat → Bool)
    (launches : List (Nat × List Nat)) (hW : 0 < W) (hl : launches ≠ []) :
    ((∀ wp ∈ (scan_single_pass R W quals).warps, wp.depth < 0) ∧
      (scan_single_pass R W quals).suspend_count = 0 ∧
      (scan_single_pass R W quals).output.Perm (scan_reference R quals)) ∧
    (scan_run R W quals launches).consumed.Nodup ∧
    (∀ i ∈ (scan_run R W quals launches).consumed, i < R) ∧
    ((∀ wp ∈ (scan_run R W quals launches).warps, wp.depth < 0) →
      (scan_run R W quals launches).output.Perm (scan_single_pass R W quals).output ∧
      (scan_run R W quals launches).consumed.Perm (List.range R)) ∧
    scan_total_measure R W (scan_run R W quals launches) ≤ W * (11 * R + 7) ∧
    (∀ resumes : List (Nat × List Nat),
      (∀ launch ∈ resumes, WARPSIZE ≤ launch.1 ∧ ∀ w < W, w ∈ launch.2) →
      scan_total_measure R W (scan_run R W quals launches) ≤ resumes.length →
      (∀ wp ∈ (scan_run R W quals (launches ++ resumes)).warps, wp.depth < 0) ∧
      (scan_run R W quals (launches ++ resumes)).output.Perm
        (scan_single_pass R W quals).output ∧
      (scan_run R W quals (launches ++ resumes)).consumed.Perm (List.range R)) := by
  obtain ⟨hdone1, hcount1⟩ := scan_single_pass_done R W quals hW
  have hone := (scan_run_sound R W quals [(R, scan_single_sched R W)] hW
    (List.cons_ne_nil _ _)).2.2 hdone1
  obtain ⟨h1, h2, h3⟩ := scan_run_sound R W quals launches hW hl
  have hhost := scan_host_inv_run R W quals launches scan_task_init (Or.inl rfl)
  change scan_host_inv R W quals (scan_run R W quals launches) at hhost
  have hres := scan_run_resumed R W quals launches hl
  have hstate : (scan_run R W quals launches).dst = [] ∧
      scan_inv R W quals (scan_run R W quals launches) := by
    rcases hhost with h | ⟨_, hdst, hinv⟩
    · rw [h] at hres; cases hres
    · exact ⟨hdst, hinv⟩
  refine ⟨⟨hdone1, hcount1, hone.1⟩, h1, h2, ?_,
    scan_total_measure_bound R W quals _ hstate.2, ?_⟩
  · intro hdone
    exact ⟨(h3 hdone).1.trans hone.1.symm, (h3 hdone).2⟩
  · intro resumes hall hlen
    have hm := scan_resumes_measure R W quals hW resumes _ hres hstate.1 hstate.2 hall
    have hrun : scan_run R W quals (launches ++ resumes)
        = resumes.foldl (scan_relaunch R W quals) (scan_run R W quals launches) := by
      simp only [scan_run, List.foldl_append]
    have hzero : scan_total_measure R W (scan_run R W quals (launches ++ resumes)) = 0 := by
      rw [hrun]
      omega
    have hdone : ∀ wp ∈ (scan_run R W quals (launches ++ resumes)).warps, wp.depth < 0 :=
      scan_measure_from_zero R W _ 0 hzero
    obtain ⟨_, _, h3'⟩ := scan_run_sound R W quals (launches ++ resumes) hW
      (by simp [hl])
    exact ⟨hdone, (h3' hdone).1.trans hone.1.symm, (h3' hdone).2⟩

/-- Witness of C4: 70 rows, two warps, rows with index % 3 = 1 filtered out.  With
destination capacity 40, in the first launch warp 1 writes its 22 rows and warp 0
suspends with 25 rows buffered; a relaunch in which warp 1 takes one step and warp 0
two writes them and both warps reach DONE.  When the first launch is followed by a
relaunch with room for 10 rows only, warp 0 suspends a second time; 76 further
relaunches with room for 32 rows, in each of which both warps take one step, end the
scan with the output of the single pass. -/
theorem scan_suspend_resume_exactly_once_witness :
    ((0 < 2 ∧
      ([(40, [0, 1, 0, 1, 0, 1, 1, 0, 1, 0, 0, 0]), (40, [1, 0, 0])] : List (Nat × List Nat))
        ≠ [] ∧
      ∀ wp ∈ (scan_run 70 2 (fun i => i % 3 != 1)
          [(40, [0, 1, 0, 1, 0, 1, 1, 0, 1, 0, 0, 0]), (40, [1, 0, 0])]).warps,
        wp.depth < 0) ∧
    (scan_run 70 2 (fun i => i % 3 != 1)
        [(40, [0, 1, 0, 1, 0, 1, 1, 0, 1, 0, 0, 0]), (40, [1, 0, 0])]).output.Perm
      (scan_single_pass 70 2 (fun i => i % 3 != 1)).output) ∧
    ((([(40, [0, 1, 0, 1, 0, 1, 1, 0, 1, 0, 0, 0]), (10, [0, 1])] : List (Nat × List Nat)) ≠ [] ∧
      (scan_run 70 2 (fun i => i % 3 != 1)
        [(40, [0, 1, 0, 1, 0, 1, 1, 0, 1, 0, 0, 0]), (10, [0, 1])]).suspend_count = 2 ∧
      (∀ launch ∈ List.replicate 76 (32, [0, 1]),
        WARPSIZE ≤ launch.1 ∧ ∀ w < 2, w ∈ launch.2) ∧
      scan_total_measure 70 2 (scan_run 70 2 (fun i => i % 3 != 1)
          [(40, [0, 1, 0, 1, 0, 1, 1, 0, 1, 0, 0, 0]), (10, [0, 1])])
        ≤ (List.replicate 76 (32, [0, 1])).length) ∧
    (∀ wp ∈ (scan_run 70 2 (fun i => i % 3 != 1)
        ([(40, [0, 1, 0, 1, 0, 1, 1, 0, 1, 0, 0, 0]), (10, [0, 1])]
          ++ List.replicate 76 (32, [0, 1]))).warps, wp.depth < 0) ∧
    (scan_run 70 2 (fun i => i % 3 != 1)
        ([(40, [0, 1, 0, 1, 0, 1, 1, 0, 1, 0, 0, 0]), (10, [0, 1])]
          ++ List.replicate 76 (32, [0, 1]))).output.Perm
      (scan_single_pass 70 2 (fun i => i % 3 != 1)).output) :=
  ⟨⟨⟨by decide, by decide, by decide⟩,
    ((scan_suspend_resume_exactly_once 70 2 (fun i => i % 3 != 1)
      [(40, [0, 1, 0, 1, 0, 1, 1, 0, 1, 0, 0, 0]), (40, [1, 0, 0])]
      (by decide) (by decide)).2.2.2.1 (by decide)).1⟩,
   ⟨by decide, by decide, by decide, by decide⟩,
   ((scan_suspend_resume_exactly_once 70 2 (fun i => i % 3 != 1)
      [(40, [0, 1, 0, 1, 0, 1, 1, 0, 1, 0, 0, 0]), (10, [0, 1])]
      (by decide) (by decide)).2.2.2.2.2 (List.replicate 76 (32, [0, 1]))
      (by decide) (by decide)).1,
   ((scan_suspend_resume_exactly_once 70 2 (fun i => i % 3 != 1)
      [(40, [0, 1, 0, 1, 0, 1, 1, 0, 1, 0, 0, 0]), (10, [0, 1])]
      (by decide) (by decide)).2.2.2.2.2 (List.replicate 76 (32, [0, 1]))
      (by decide) (by decide)).2.1⟩

/-! ### GpuCache identifiers -/

/-- C13: `GpuCacheIdentEqual(a, b)` is true exactly when a and b have the same
database_oid, the same table_oid and the same signature; two identifiers that agree
on database and table but differ in signature are reported as not equal. -/
theorem GpuCacheIdentEqual_iff (a b : GpuCacheIdent) :
    (GpuCacheIdentEqual a b = true ↔
      a.database_oid = b.database_oid ∧ a.table_oid = b.table_oid ∧
        a.signature = b.signature) ∧
    (a.database_oid = b.database_oid → a.table_oid = b.table_oid →
      a.signature ≠ b.signature → GpuCacheIdentEqual a b = false) := by
  constructor
  · simp [GpuCacheIdentEqual, and_assoc]
  · intro h1 h2 h3
    simp [GpuCacheIdentEqual, h1, h2, h3]

/-- Witness of C13: same database and table, different signature. -/
theorem GpuCacheIdentEqual_iff_witness :
    ((⟨5, 16384, 1⟩ : GpuCacheIdent).database_oid = (⟨5, 16384, 2⟩ : GpuCacheIdent).database_oid ∧
      (⟨5, 16384, 1⟩ : GpuCacheIdent).table_oid = (⟨5, 16384, 2⟩ : GpuCacheIdent).table_oid ∧
      (⟨5, 16384, 1⟩ : GpuCacheIdent).signature ≠ (⟨5, 16384, 2⟩ : GpuCacheIdent).signature) ∧
    GpuCacheIdentEqual ⟨5, 16384, 1⟩ ⟨5, 16384, 2⟩ = false :=
  ⟨⟨rfl, rfl, by decide⟩,
   (GpuCacheIdentEqual_iff ⟨5, 16384, 1⟩ ⟨5, 16384, 2⟩).2 rfl rfl (by decide)⟩

/-! ### The function table -/

theorem mark_distinct_sound : ∀ (l : List Nat) (mask : Nat),
    (mark_distinct l mask).isSome = true → l.Nodup ∧ ∀ x ∈ l, mask.testBit x = false := by
  intro l
  induction l with
  | nil => intro mask _; exact ⟨List.nodup_nil, fun x hx => absurd hx (List.not_mem_nil x)⟩
  | cons h l ih =>
    intro mask hm
    rw [mark_distinct] at hm
    split at hm
    · simp at hm
    · rename_i hbit
      have hh : mask.testBit h = false := by
        rw [Nat.testBit_to_div_mod, ← Nat.shiftRight_eq_div_pow]
        exact decide_eq_false hbit
      obtain ⟨hnd, hall⟩ := ih _ hm
      have hnot : h ∉ l := by
        intro hmem
        have := hall h hmem
        rw [Nat.testBit_or, Nat.testBit_two_pow_self] at this
        simp at this
      refine ⟨List.nodup_cons.mpr ⟨hnot, hnd⟩, ?_⟩
      intro x hx
      rcases List.mem_cons.mp hx with e | hx
      · rw [e]; exact hh
      · have := hall x hx
        rw [Nat.testBit_or] at this
        simp only [Bool.or_eq_false_iff] at this
        exact this.1

theorem func_opcode_key_hashes_distinct :
    (mark_distinct (func_opcode_table.map (fun e => key_hash (func_opcode_key e))) 0).isSome
      = true := by
  decide!

theorem func_opcode_dev_hashes_distinct :
    (mark_distinct (func_opcode_table.map (fun e => str_hash e.FUNC_DEV_NAME)) 0).isSome
      = true := by
  decide!

/-- C14: in the function table no two entries share the key (SQL function name,
argument type list), and no two entries name the same device routine. -/
theorem func_opcode_table_unique :
    (func_opcode_table.map func_opcode_key).Nodup ∧
    (func_opcode_table.map (fun e => e.FUNC_DEV_NAME)).Nodup := by
  constructor
  · have h := (mark_distinct_sound _ 0 func_opcode_key_hashes_distinct).1
    have e : (func_opcode_table.map (fun e => key_hash (func_opcode_key e)))
        = (func_opcode_table.map func_opcode_key).map key_hash := by
      rw [List.map_map]; rfl
    rw [e] at h
    exact List.Nodup.of_map _ h
  · have h := (mark_distinct_sound _ 0 func_opcode_dev_hashes_distinct).1
    have e : (func_opcode_table.map (fun e => str_hash e.FUNC_DEV_NAME))
        = (func_opcode_table.map (fun e => e.FUNC_DEV_NAME)).map str_hash := by
      rw [List.map_map]; rfl
    rw [e] at h
    exact List.Nodup.of_map _ h

/-- C15 (the code departs from the claim): for the pair A = int4, R = int8 the type-cast
section has no entry; the entry for A = int2, R = int8 names the device routine
int4_to_int8 instead of int2_to_int8; and the section holds an entry between numeric
types that is not a cast between distinct types, from int8 to int8. -/
theorem type_cast_int8_entries_wrong :
    cast_entries "int4" "int8" = [] ∧
    cast_entries "int2" "int8" = [FUNC_OPCODE "int8" ["int2"] DEVKERN__ANY "int4_to_int8" none] ∧
    cast_entries "int8" "int8" = [FUNC_OPCODE "int8" ["int8"] DEVKERN__ANY "int8_to_int8" none] ∧
    "int4" ∈ numeric_types ∧ "int2" ∈ numeric_types ∧ "int8" ∈ numeric_types := by
  decide

/-- Apart from the three int8 rows, the type-cast section is as C15 says: for every
other ordered pair (A, R) of distinct numeric types there is exactly one entry, and
its device routine is A_to_R. -/
theorem type_cast_other_entries_right :
    ∀ A ∈ numeric_types, ∀ R ∈ numeric_types, A ≠ R →
      ¬ (R = "int8" ∧ (A = "int2" ∨ A = "int4")) →
      (cast_entries A R).map (fun e => e.FUNC_DEV_NAME) = [A ++ "_to_" ++ R] := by
  decide

/-- C16 (the code departs from the claim): the entries int4up, int8up, int4um, int8um,
int4abs and int8abs declare the argument type int2, not int4 or int8. -/
theorem unary_int4_int8_argument_int2 :
    unary_operators.filter (fun e => some e.FUNC_ARGS != (unary_operand_type e.FUNC_SQL_NAME).map
        (fun T => [T]))
      = [__FUNC_OPCODE "int4up" ["int2"] none, __FUNC_OPCODE "int8up" ["int2"] none,
         __FUNC_OPCODE "int4um" ["int2"] none, __FUNC_OPCODE "int8um" ["int2"] none,
         __FUNC_OPCODE "int4abs" ["int2"] none, __FUNC_OPCODE "int8abs" ["int2"] none] ∧
    unary_operand_type "int4up" = some "int4" ∧ unary_operand_type "int8abs" = some "int8" := by
  decide

/-! ### Error reports of the host code -/

/-- C17: `pg_kern_ereport` never returns to its caller: every call raises a report of
level `ERROR` whose sqlerrcode is `kcxt->errcode`, and the message of the report is the
file name, a colon, the line number, two blanks and the error message, for a line
number that `%u` prints as it stands. -/
theorem pg_kern_ereport_raises (kcxt : kern_context) :
    pg_kern_ereport kcxt ≠ .ok () ∧
    ∃ edata, pg_kern_ereport kcxt = .error edata ∧
      edata.elevel = elevel.ERROR ∧ edata.sqlerrcode = kcxt.errcode ∧
      (0 ≤ kcxt.error_lineno ∧ kcxt.error_lineno < 2 ^ 32 →
        edata.message = kcxt.error_filename ++ ":" ++ toString kcxt.error_lineno.toNat
          ++ "  " ++ kcxt.error_message) := by
  have hraise : pg_kern_ereport kcxt = .error ⟨elevel.ERROR, kcxt.errcode,
      kcxt.error_filename ++ ":" ++ fmt_u kcxt.error_lineno ++ "  "
        ++ kcxt.error_message⟩ := by
    simp [pg_kern_ereport, ereport]
  refine ⟨by rw [hraise]; simp, _, hraise, rfl, rfl, ?_⟩
  intro hline
  have e : (kcxt.error_lineno % 2 ^ 32) = kcxt.error_lineno :=
    Int.emod_eq_of_lt hline.1 hline.2
  simp only [fmt_u]
  rw [e]

theorem pg_kern_ereport_raises_witness :
    (0 ≤ (⟨6, 120, "cuda_gpuscan.cu", "kern_gpuscan_main", "no space"⟩ :
        kern_context).error_lineno ∧
     (⟨6, 120, "cuda_gpuscan.cu", "kern_gpuscan_main", "no space"⟩ :
        kern_context).error_lineno < 2 ^ 32) ∧
    pg_kern_ereport ⟨6, 120, "cuda_gpuscan.cu", "kern_gpuscan_main", "no space"⟩
      = .error ⟨elevel.ERROR, 6, "cuda_gpuscan.cu:120  no space"⟩ := by
  refine ⟨by decide, ?_⟩
  obtain ⟨edata, h1, h2, h3, h4⟩ :=
    (pg_kern_ereport_raises ⟨6, 120, "cuda_gpuscan.cu", "kern_gpuscan_main", "no space"⟩).2
  have h5 := h4 (by decide)
  rw [h1]
  cases edata
  simp only [] at h2 h3 h5
  rw [h2, h3, h5]
  rfl

/-! ### CPU fallback of a scan -/

/-- C18: the tuple handed to `ExecFallbackCpuScan` is passed to
`pgstromStoreFallbackTuple`, once, if and only if the task has no `base_quals` or
`ExecQual` is true on that tuple, and otherwise the buffer is left as it was; the tuple
stored is the result of `fallback_proj` when there is one and the original tuple
otherwise. -/
theorem ExecFallbackCpuScan_stores (X : Executor) (pts : pgstromTaskState) (count : Nat)
    (tuple : HeapTuple) :
    ((pts.base_quals = none ∨
        ∃ base_quals, pts.base_quals = some base_quals ∧
          X.ExecQual base_quals ⟨some tuple⟩ = true) →
      (ExecFallbackCpuScan X pts count tuple).1.fallback_tuples =
        pts.fallback_tuples ++
          [match pts.fallback_proj with
           | some fallback_proj =>
             X.ExecProject fallback_proj
               { pts with
                 base_slot := some tuple
                 ps_ExprContext :=
                   if pts.base_quals.isSome then ⟨some tuple⟩ else pts.ps_ExprContext }
           | none => tuple]) ∧
    (¬ (pts.base_quals = none ∨
        ∃ base_quals, pts.base_quals = some base_quals ∧
          X.ExecQual base_quals ⟨some tuple⟩ = true) →
      (ExecFallbackCpuScan X pts count tuple).1.fallback_tuples = pts.fallback_tuples) := by
  obtain ⟨slot, quals, proj, ec, buf⟩ := pts
  cases quals with
  | none =>
    cases proj <;> simp [ExecFallbackCpuScan]
  | some q =>
    cases hq : X.ExecQual q ⟨some tuple⟩ <;> cases proj <;> simp [ExecFallbackCpuScan, hq]

theorem ExecFallbackCpuScan_stores_witness :
    (ExecFallbackCpuScan sample_executor ⟨none, some 3, some 100, ⟨none⟩, [7]⟩ 0 5).1.fallback_tuples
      = [7, 105] ∧
    (ExecFallbackCpuScan sample_executor ⟨none, some 3, some 100, ⟨none⟩, [7]⟩ 0 2).1.fallback_tuples
      = [7] :=
  ⟨(ExecFallbackCpuScan_stores sample_executor ⟨none, some 3, some 100, ⟨none⟩, [7]⟩ 0 5).1
      (Or.inr ⟨3, rfl, by decide⟩),
   (ExecFallbackCpuScan_stores sample_executor ⟨none, some 3, some 100, ⟨none⟩, [7]⟩ 0 2).2
      (by decide)⟩

/-! ### Removal of dummy plans -/

mutual
theorem removal_no_dummy : ∀ (p : Plan) (upper : Option (List TargetEntry)) (p' : Plan),
    pgstrom_removal_dummy_plans upper p = .ok p' → reaches_dummy p' = false
  | .null, upper, p', h => by
    cases upper with
    | none =>
      simp only [pgstrom_removal_dummy_plans] at h
      cases h
      rfl
    | some u => simp [pgstrom_removal_dummy_plans] at h
  | .node tag tl l r ps sub m, upper, p', h => by
    rw [pgstrom_removal_dummy_plans] at h
    split at h
    · cases h
    · next tl' _ =>
      split at h
      · exact removal_no_dummy l _ _ h
      · next hnd =>
        split at h
        · cases h
        · next ps' hps =>
          split at h
          · cases h
          · next sub' hsub =>
            split at h
            · cases h
            · next l' hl =>
              split at h
              · cases h
              · next r' hr =>
                cases h
                have h1 := removal_no_dummy l _ _ hl
                have h2 := removal_no_dummy r _ _ hr
                have h3 : (tag = T_Append ∨ tag = T_MergeAppend ∨ tag = T_BitmapAnd
                    ∨ tag = T_BitmapOr ∨ tag = T_CustomScan) → reaches_dummy_list ps' = false := by
                  intro ht
                  rw [if_pos ht] at hps
                  exact removal_list_no_dummy ps _ hps
                have h4 : tag = T_SubqueryScan → reaches_dummy sub' = false := by
                  intro ht
                  rw [if_pos ht] at hsub
                  exact removal_no_dummy sub _ _ hsub
                rw [reaches_dummy, h1, h2]
                by_cases ht : (tag = T_Append ∨ tag = T_MergeAppend ∨ tag = T_BitmapAnd
                    ∨ tag = T_BitmapOr ∨ tag = T_CustomScan)
                · by_cases hs : tag = T_SubqueryScan
                  · simp [h3 ht, h4 hs, hnd]
                  · simp [h3 ht, hs, hnd]
                · by_cases hs : tag = T_SubqueryScan
                  · simp [ht, h4 hs, hnd]
                  · simp [ht, hs, hnd]
theorem removal_list_no_dummy : ∀ (ps ps' : List Plan),
    pgstrom_removal_dummy_plans_list ps = .ok ps' → reaches_dummy_list ps' = false
  | [], ps', h => by
    simp only [pgstrom_removal_dummy_plans_list] at h
    cases h
    rfl
  | p :: ps, ps', h => by
    rw [pgstrom_removal_dummy_plans_list] at h
    split at h
    · cases h
    · next p1 hp =>
      split at h
      · cases h
      · next ps1 hps =>
        cases h
        rw [reaches_dummy_list, removal_no_dummy p _ _ hp, removal_list_no_dummy ps _ hps]
        rfl
end

/-- C19: after `pgstrom_removal_dummy_plans` has run on a plan tree, and after
`pgstrom_post_planner` has run it on `planTree` and on every entry of `subplans`, no
CustomScan node with the dummy methods is reachable through `lefttree`, `righttree`,
the child lists of Append, MergeAppend, BitmapAnd and BitmapOr, the subplan of a
SubqueryScan or the `custom_plans` of a CustomScan, dummy nodes stacked on one another
included. -/
theorem pgstrom_post_planner_no_dummy {α : Type} (planner_hook_next : α → PlannedStmt)
    (args : α) (pstmt : PlannedStmt) (plan plan1 : Plan)
    (hstmt : pgstrom_post_planner planner_hook_next args = .ok pstmt)
    (hplan : pgstrom_removal_dummy_plans none plan = .ok plan1) :
    reaches_dummy plan1 = false ∧
    reaches_dummy pstmt.planTree = false ∧ reaches_dummy_list pstmt.subplans = false := by
  refine ⟨removal_no_dummy plan none plan1 hplan, ?_⟩
  unfold pgstrom_post_planner at hstmt
  simp only [] at hstmt
  split at hstmt
  · cases hstmt
  · next planTree hp =>
    split at hstmt
    · cases hstmt
    · next subplans hs =>
      cases hstmt
      exact ⟨removal_no_dummy _ none _ hp, removal_list_no_dummy _ _ hs⟩

theorem pgstrom_post_planner_no_dummy_witness :
    reaches_dummy sample_planned_stmt.planTree = true ∧
    reaches_dummy_list sample_planned_stmt.subplans = true ∧
    reaches_dummy (sample_leaf [⟨23, some "a"⟩]) = false ∧
    reaches_dummy
      (.node T_Append [] .null .null
        [sample_leaf [⟨23, some "a"⟩],
         .node T_SubqueryScan [] .null .null [] (sample_leaf [⟨20, some "c"⟩]) (other 0)]
        .null (other 0)) = false ∧
    reaches_dummy_list
      [.node (T_Other 1) [] .null (sample_leaf []) [] .null (other 0)] = false :=
  ⟨rfl, rfl,
   pgstrom_post_planner_no_dummy (fun _ => sample_planned_stmt) ()
     ⟨.node T_Append [] .null .null
        [sample_leaf [⟨23, some "a"⟩],
         .node T_SubqueryScan [] .null .null [] (sample_leaf [⟨20, some "c"⟩]) (other 0)]
        .null (other 0),
      [.node (T_Other 1) [] .null (sample_leaf []) [] .null (other 0)]⟩
     (sample_dummy [⟨23, some "a"⟩] (sample_dummy [⟨23, some "b"⟩] (sample_leaf [⟨23, none⟩])))
     (sample_leaf [⟨23, some "a"⟩]) rfl rfl⟩

/-! ### Planner of the scan paths -/

theorem fetch_device_host_quals_dev (P : ScanPlanner) (allow_host_quals : Bool) :
    ∀ (l : List RestrictInfo) (acc acc' : List RestrictInfo × List Int × List RestrictInfo),
      fetch_device_host_quals P allow_host_quals l acc = some acc' →
      (∀ rinfo ∈ l, P.pgstrom_gpu_expression rinfo.clause = none) →
      acc'.1 = acc.1 := by
  intro l
  induction l with
  | nil =>
    intro acc acc' h _
    simp [fetch_device_host_quals] at h
    rw [h]
  | cons r rest ih =>
    rintro ⟨dq, dc, hq⟩ acc' h hall
    have hr := hall r (List.mem_cons_self _ _)
    simp only [fetch_device_host_quals, hr] at h
    split at h
    · exact ih (dq, dc, hq ++ [r]) acc' h (fun x hx => hall x (List.mem_cons_of_mem _ hx))
    · exact absurd h (by simp)

theorem buildOuterScanPlanInfo_no_device_quals (P : ScanPlanner) (xpu_task_flags : Nat)
    (parallel_path allow_host_quals : Bool)
    (hall : ∀ rinfo ∈ scan_clauses P, P.pgstrom_gpu_expression rinfo.clause = none) :
    buildOuterScanPlanInfo P xpu_task_flags parallel_path allow_host_quals false = .ok none := by
  have h1 : ∀ rinfo ∈ P.baserestrictinfo, P.pgstrom_gpu_expression rinfo.clause = none :=
    fun r hr => hall r (by simp [scan_clauses, hr])
  unfold buildOuterScanPlanInfo
  simp only []
  split
  · rfl
  split
  · rfl
  split
  · rfl
  rename_i acc hacc
  have e1 := fetch_device_host_quals_dev P allow_host_quals _ _ _ hacc h1
  split
  · rfl
  rename_i dq dc hq hres
  have e2 : dq = [] := by
    cases hp : P.get_baserel_parampathinfo with
    | none =>
      rw [hp] at hres
      simp only [Option.some.injEq] at hres
      rw [hres] at e1
      exact e1
    | some ppi =>
      rw [hp] at hres
      simp only [] at hres
      have h2 : ∀ rinfo ∈ ppi.ppi_clauses, P.pgstrom_gpu_expression rinfo.clause = none :=
        fun r hr => hall r (by simp [scan_clauses, hp, hr])
      have := fetch_device_host_quals_dev P allow_host_quals _ _ _ hres h2
      simp only [] at this
      rw [this]
      exact e1
  simp [e2]


theorem xpuScanAddScanPath_round_no_calls (P : ScanPlanner) (xpu_task_flags : Nat)
    (xpuscan_path_methods : CustomPathMethods)
    (hall : ∀ rinfo ∈ scan_clauses P, P.pgstrom_gpu_expression rinfo.clause = none)
    (acc : List PathCall × Option String) (try_parallel : Nat) :
    xpuScanAddScanPath_round P xpu_task_flags xpuscan_path_methods acc try_parallel = acc := by
  unfold xpuScanAddScanPath_round buildXpuScanPath
  rw [buildOuterScanPlanInfo_no_device_quals P xpu_task_flags _ true hall]
  cases h : acc.2 <;> simp

theorem xpuScanAddScanPathCommon_no_calls (P : ScanPlanner) (xpu_task_flags : Nat)
    (xpuscan_path_methods : CustomPathMethods)
    (hall : ∀ rinfo ∈ scan_clauses P, P.pgstrom_gpu_expression rinfo.clause = none) :
    __xpuScanAddScanPathCommon P xpu_task_flags xpuscan_path_methods = ([], none) := by
  unfold __xpuScanAddScanPathCommon
  split
  · rfl
  split
  · rfl
  simp [List.range, List.range.loop,
    xpuScanAddScanPath_round_no_calls P xpu_task_flags xpuscan_path_methods hall]

/-- C20: `__xpuScanAddScanPathCommon` calls `add_path` or `add_partial_path` only if the
relation is not a dummy relation, `rte->inh` is false and some clause of the relation is
accepted by `pgstrom_gpu_expression`; when no clause is accepted, `buildOuterScanPlanInfo`
called with `allow_no_device_quals = false` returns NULL and neither function is called. -/
theorem xpuScanAddScanPathCommon_requires_device_quals (P : ScanPlanner)
    (xpu_task_flags : Nat) (xpuscan_path_methods : CustomPathMethods) :
    ((__xpuScanAddScanPathCommon P xpu_task_flags xpuscan_path_methods).1 ≠ [] →
      P.is_dummy_rel = false ∧ P.rte_inh = false ∧
      ∃ rinfo ∈ scan_clauses P, (P.pgstrom_gpu_expression rinfo.clause).isSome = true) ∧
    ((∀ rinfo ∈ scan_clauses P, P.pgstrom_gpu_expression rinfo.clause = none) →
      (∀ parallel_path allow_host_quals,
        buildOuterScanPlanInfo P xpu_task_flags parallel_path allow_host_quals false
          = .ok none) ∧
      __xpuScanAddScanPathCommon P xpu_task_flags xpuscan_path_methods = ([], none)) := by
  refine ⟨fun hne => ?_, fun hall => ⟨fun pp ah =>
    buildOuterScanPlanInfo_no_device_quals P xpu_task_flags pp ah hall,
    xpuScanAddScanPathCommon_no_calls P xpu_task_flags xpuscan_path_methods hall⟩⟩
  refine ⟨?_, ?_, ?_⟩
  · cases hd : P.is_dummy_rel
    · rfl
    · exact absurd (by simp [__xpuScanAddScanPathCommon, hd]) hne
  · cases hi : P.rte_inh
    · rfl
    · exact absurd (by simp [__xpuScanAddScanPathCommon, hi]) hne
  · by_contra hex
    have hall : ∀ rinfo ∈ scan_clauses P, P.pgstrom_gpu_expression rinfo.clause = none := by
      intro r hr
      cases hg : P.pgstrom_gpu_expression r.clause with
      | none => rfl
      | some c => exact absurd ⟨r, hr, by simp [hg]⟩ hex
    exact hne (by
      rw [xpuScanAddScanPathCommon_no_calls P xpu_task_flags xpuscan_path_methods hall])

theorem xpuScanAddScanPathCommon_requires_device_quals_witness :
    ((__xpuScanAddScanPathCommon sample_scan_planner 0x101
        CustomPathMethods.gpuscan_path_methods).1 ≠ [] ∧
      ∃ rinfo ∈ scan_clauses sample_scan_planner,
        (sample_scan_planner.pgstrom_gpu_expression rinfo.clause).isSome = true) ∧
    ((∀ rinfo ∈ scan_clauses { sample_scan_planner with pgstrom_gpu_expression := fun _ => none },
        ({ sample_scan_planner with pgstrom_gpu_expression := fun _ => none } :
          ScanPlanner).pgstrom_gpu_expression rinfo.clause = none) ∧
      __xpuScanAddScanPathCommon
        { sample_scan_planner with pgstrom_gpu_expression := fun _ => none } 0x101
        CustomPathMethods.gpuscan_path_methods = ([], none)) :=
  ⟨⟨by decide,
    ((xpuScanAddScanPathCommon_requires_device_quals sample_scan_planner 0x101
      CustomPathMethods.gpuscan_path_methods).1 (by decide)).2.2⟩,
   ⟨fun _ _ => rfl,
    ((xpuScanAddScanPathCommon_requires_device_quals
      { sample_scan_planner with pgstrom_gpu_expression := fun _ => none } 0x101
      CustomPathMethods.gpuscan_path_methods).2 (fun _ _ => rfl)).2⟩⟩

/-! ### Boolean expressions -/

theorem BoolExpr_and_loop_false (args : List (Option Bool)) :
    args.foldl sql_and (some false) = some false := by
  induction args with
  | nil => rfl
  | cons a rest ih =>
    rcases a with _ | _ | _ <;> simpa [List.foldl_cons, sql_and] using ih

theorem BoolExpr_or_loop_true (args : List (Option Bool)) :
    args.foldl sql_or (some true) = some true := by
  induction args with
  | nil => rfl
  | cons a rest ih =>
    rcases a with _ | _ | _ <;> simpa [List.foldl_cons, sql_or] using ih

theorem BoolExpr_and_loop_foldl (args : List (Option Bool)) (anynull : Bool) :
    BoolExpr_and_loop args anynull
      = args.foldl sql_and (if anynull then none else some true) := by
  induction args generalizing anynull with
  | nil => simp [BoolExpr_and_loop]
  | cons a rest ih =>
    rcases a with _ | _ | _ <;> cases anynull <;>
      simp [BoolExpr_and_loop, sql_and, ih, BoolExpr_and_loop_false]

theorem BoolExpr_or_loop_foldl (args : List (Option Bool)) (anynull : Bool) :
    BoolExpr_or_loop args anynull
      = args.foldl sql_or (if anynull then none else some false) := by
  induction args generalizing anynull with
  | nil => simp [BoolExpr_or_loop]
  | cons a rest ih =>
    rcases a with _ | _ | _ <;> cases anynull <;>
      simp [BoolExpr_or_loop, sql_or, ih, BoolExpr_or_loop_true]

/-- C11: the evaluation of a `BoolExpr` node agrees with the truth tables of SQL on every
combination of the operand values true, false and NULL: for AND and OR with two
operands and with any number of operands taken from left to right, and for NOT; in
particular NULL AND false = false, NULL AND true = NULL, NULL OR false = NULL,
NULL OR true = true and NOT NULL = NULL. -/
theorem eval_BoolExpr_three_valued :
    (∀ a b, eval_BoolExpr .AND_EXPR [a, b] = .ok (sql_and a b)) ∧
    (∀ a b, eval_BoolExpr .OR_EXPR [a, b] = .ok (sql_or a b)) ∧
    (∀ a, eval_BoolExpr .NOT_EXPR [a] = .ok (sql_not a)) ∧
    (∀ args, eval_BoolExpr .AND_EXPR args = .ok (args.foldl sql_and (some true))) ∧
    (∀ args, eval_BoolExpr .OR_EXPR args = .ok (args.foldl sql_or (some false))) ∧
    eval_BoolExpr .AND_EXPR [none, some false] = .ok (some false) ∧
    eval_BoolExpr .AND_EXPR [none, some true] = .ok none ∧
    eval_BoolExpr .OR_EXPR [none, some false] = .ok none ∧
    eval_BoolExpr .OR_EXPR [none, some true] = .ok (some true) ∧
    eval_BoolExpr .NOT_EXPR [none] = .ok none := by
  refine ⟨?_, ?_, ?_, ?_, ?_, rfl, rfl, rfl, rfl, rfl⟩
  · intro a b
    rcases a with _ | _ | _ <;> rcases b with _ | _ | _ <;> rfl
  · intro a b
    rcases a with _ | _ | _ <;> rcases b with _ | _ | _ <;> rfl
  · intro a
    rcases a with _ | _ | _ <;> rfl
  · intro args
    simp [eval_BoolExpr, BoolExpr_and_loop_foldl]
  · intro args
    simp [eval_BoolExpr, BoolExpr_or_loop_foldl]

/-! ### Replay of the cache transaction log -/

theorem gcache_apply_redo_rowids_nodup (mode : gcache_insert_mode) (cache : List gcache_row)
    (entry : GCacheTxLog) (h : (cache.map (fun row => row.rowid)).Nodup) :
    ((gcache_apply_redo mode cache entry).map (fun row => row.rowid)).Nodup := by
  have hset : ∀ rowid current next,
      (gcache_set_state rowid current next cache).map (fun row => row.rowid)
        = cache.map (fun row => row.rowid) := by
    intro rowid current next
    unfold gcache_set_state
    rw [List.map_map]
    apply List.map_congr_left
    intro row _
    simp only [Function.comp]
    split <;> rfl
  have hdis : ∀ rowid current,
      ((gcache_discard rowid current cache).map (fun row => row.rowid)).Nodup := by
    intro rowid current
    exact h.sublist (List.Sublist.map _ (List.filter_sublist _))
  cases entry with
  | GCacheTxLogInsert type rowid htup =>
    simp only [gcache_apply_redo]
    split
    · unfold gcache_apply_insert
      split
      · rename_i hany
        cases mode with
        | upsert =>
          simp only []
          have : (cache.map (fun row =>
              if row.rowid = rowid then (⟨rowid, htup, gcache_row_state.INS_PENDING⟩ : gcache_row)
              else row)).map (fun row => row.rowid) = cache.map (fun row => row.rowid) := by
            rw [List.map_map]
            apply List.map_congr_left
            intro row _
            simp only [Function.comp]
            split
            · rename_i e
              exact e.symm
            · rfl
          rw [this]
          exact h
        | skip => exact h
      · rename_i hany
        rw [List.map_append]
        simp only [List.map_cons, List.map_nil]
        rw [List.nodup_append]
        refine ⟨h, List.nodup_singleton _, ?_⟩
        intro a ha hb
        simp only [List.mem_singleton] at hb
        subst hb
        apply hany
        simp only [List.mem_map] at ha
        obtain ⟨row, hrow, e⟩ := ha
        simp only [List.any_eq_true, decide_eq_true_eq]
        exact ⟨row, hrow, e⟩
    · exact h
  | GCacheTxLogDelete type xid rowid ctid =>
    simp only [gcache_apply_redo]
    split
    · rw [hset]
      exact h
    · exact h
  | GCacheTxLogXact type rowid =>
    simp only [gcache_apply_redo]
    split
    · rw [hset]
      exact h
    split
    · exact hdis _ _
    split
    · exact hdis _ _
    split
    · rw [hset]
      exact h
    · exact h

theorem gcache_replay_rowids_nodup (mode : gcache_insert_mode) (log : List GCacheTxLog) :
    ∀ cache : List gcache_row, (cache.map (fun row => row.rowid)).Nodup →
      ((gcache_replay mode log cache).map (fun row => row.rowid)).Nodup := by
  induction log with
  | nil => intro cache h; exact h
  | cons entry rest ih =>
    intro cache h
    exact ih _ (gcache_apply_redo_rowids_nodup mode cache entry h)

theorem gcache_set_state_rowids (rowid : Nat) (current next : gcache_row_state)
    (cache : List gcache_row) :
    (gcache_set_state rowid current next cache).map (fun row => row.rowid)
      = cache.map (fun row => row.rowid) := by
  unfold gcache_set_state
  rw [List.map_map]
  apply List.map_congr_left
  intro row _
  simp only [Function.comp]
  split <;> rfl

theorem gcache_set_state_idem (rowid : Nat) (current next : gcache_row_state)
    (cache : List gcache_row) :
    gcache_set_state rowid current next (gcache_set_state rowid current next cache)
      = gcache_set_state rowid current next cache := by
  unfold gcache_set_state
  rw [List.map_map]
  apply List.map_congr_left
  intro row _
  simp only [Function.comp]
  by_cases h : row.rowid = rowid ∧ row.state = current
  · by_cases e : next = current
    · simp [h, e]
    · simp [h, e]
  · simp [h]

theorem gcache_set_state_absent (rowid : Nat) (current next : gcache_row_state)
    (cache : List gcache_row) (h : ∀ row ∈ cache, row.rowid ≠ rowid) :
    gcache_set_state rowid current next cache = cache := by
  unfold gcache_set_state
  conv_rhs => rw [← List.map_id cache]
  apply List.map_congr_left
  intro row hrow
  simp [h row hrow]

theorem gcache_mem_rowids_iff_any (rowid : Nat) (cache : List gcache_row) :
    cache.any (fun row => decide (row.rowid = rowid)) = true
      ↔ rowid ∈ cache.map (fun row => row.rowid) := by
  simp only [List.any_eq_true, decide_eq_true_eq, List.mem_map]

/-- Applying an INSERT entry and its COMMIT entry a second time, right after the first,
changes nothing. -/
theorem gcache_insert_commit_twice (mode : gcache_insert_mode) (rowid htup : Nat)
    (cache : List gcache_row) :
    gcache_set_state rowid gcache_row_state.INS_PENDING gcache_row_state.COMMITTED
      (gcache_apply_insert mode rowid htup
        (gcache_set_state rowid gcache_row_state.INS_PENDING gcache_row_state.COMMITTED
          (gcache_apply_insert mode rowid htup cache)))
    = gcache_set_state rowid gcache_row_state.INS_PENDING gcache_row_state.COMMITTED
        (gcache_apply_insert mode rowid htup cache) := by
  by_cases hany : cache.any (fun row => decide (row.rowid = rowid)) = true
  · cases mode with
    | skip =>
      have h1 : gcache_apply_insert .skip rowid htup cache = cache := by
        simp only [gcache_apply_insert, hany, if_true]
      have hany2 : (gcache_set_state rowid gcache_row_state.INS_PENDING
          gcache_row_state.COMMITTED cache).any (fun row => decide (row.rowid = rowid))
            = true := by
        rw [gcache_mem_rowids_iff_any, gcache_set_state_rowids, ← gcache_mem_rowids_iff_any]
        exact hany
      rw [h1]
      have h2 : gcache_apply_insert .skip rowid htup
          (gcache_set_state rowid gcache_row_state.INS_PENDING
            gcache_row_state.COMMITTED cache)
          = gcache_set_state rowid gcache_row_state.INS_PENDING
            gcache_row_state.COMMITTED cache := by
        simp only [gcache_apply_insert, hany2, if_true]
      rw [h2, gcache_set_state_idem]
    | upsert =>
      have h1 : ∀ c : List gcache_row,
          c.any (fun row => decide (row.rowid = rowid)) = true →
          gcache_set_state rowid gcache_row_state.INS_PENDING gcache_row_state.COMMITTED
            (gcache_apply_insert .upsert rowid htup c)
          = c.map (fun row =>
              if row.rowid = rowid then ⟨rowid, htup, gcache_row_state.COMMITTED⟩
              else row) := by
        intro c hc
        simp only [gcache_apply_insert, hc, if_true, gcache_set_state, List.map_map]
        apply List.map_congr_left
        intro row _
        simp only [Function.comp]
        by_cases e : row.rowid = rowid
        · simp [e]
        · simp [e]
      rw [h1 cache hany]
      have hany2 : (cache.map (fun row =>
            if row.rowid = rowid then
              (⟨rowid, htup, gcache_row_state.COMMITTED⟩ : gcache_row)
            else row)).any (fun row => decide (row.rowid = rowid)) = true := by
        simp only [List.any_eq_true, decide_eq_true_eq, List.mem_map] at hany ⊢
        obtain ⟨row, hrow, e⟩ := hany
        exact ⟨_, ⟨row, hrow, rfl⟩, by simp [e]⟩
      rw [h1 _ hany2, List.map_map]
      apply List.map_congr_left
      intro row _
      simp only [Function.comp]
      by_cases e : row.rowid = rowid
      · simp [e]
      · simp [e]
  · have habs : ∀ row ∈ cache, row.rowid ≠ rowid := by
      intro row hrow e
      apply hany
      simp only [List.any_eq_true, decide_eq_true_eq]
      exact ⟨row, hrow, e⟩
    have h1 : gcache_set_state rowid gcache_row_state.INS_PENDING gcache_row_state.COMMITTED
        (gcache_apply_insert mode rowid htup cache)
        = cache ++ [⟨rowid, htup, gcache_row_state.COMMITTED⟩] := by
      have hins : gcache_apply_insert mode rowid htup cache
          = cache ++ [⟨rowid, htup, gcache_row_state.INS_PENDING⟩] := by
        unfold gcache_apply_insert
        rw [if_neg hany]
      rw [hins]
      simp only [gcache_set_state, List.map_append, List.map_cons, List.map_nil]
      have := gcache_set_state_absent rowid gcache_row_state.INS_PENDING
        gcache_row_state.COMMITTED cache habs
      unfold gcache_set_state at this
      rw [this]
      simp
    rw [h1]
    have hany2 : (cache ++ [(⟨rowid, htup, gcache_row_state.COMMITTED⟩ : gcache_row)]).any
        (fun row => decide (row.rowid = rowid)) = true := by
      simp
    cases mode with
    | skip =>
      simp only [gcache_apply_insert, hany2, if_true]
      simp only [gcache_set_state, List.map_append, List.map_cons, List.map_nil]
      have := gcache_set_state_absent rowid gcache_row_state.INS_PENDING
        gcache_row_state.COMMITTED cache habs
      unfold gcache_set_state at this
      rw [this]
      simp
    | upsert =>
      simp only [gcache_apply_insert, hany2, if_true]
      simp only [gcache_set_state, List.map_append, List.map_cons, List.map_nil, List.map_map]
      congr 1
      · conv_rhs => rw [← List.map_id cache]
        apply List.map_congr_left
        intro row hrow
        simp [Function.comp, habs row hrow]
      · simp

theorem gcache_visible_count (rowid : Nat) :
    ∀ cache : List gcache_row,
      (∀ row ∈ cache, row.rowid = rowid → gcache_row_visible row = true) →
      (cache.filter
        (fun row => decide (row.rowid = rowid) && gcache_row_visible row)).length
        = (cache.map (fun row => row.rowid)).count rowid := by
  intro cache
  induction cache with
  | nil => intro _; rfl
  | cons row rest ih =>
    intro h
    have ih1 := ih (fun x hx => h x (List.mem_cons_of_mem _ hx))
    by_cases e : row.rowid = rowid
    · have hv := h row (List.mem_cons_self _ _) e
      simp [List.filter_cons, e, hv, ih1]
    · simp [List.filter_cons, e, ih1, List.count_cons]

/-- C12: replaying a log in which an INSERT entry for a row id with its COMMIT entry
is followed at once by the same two entries gives the same cached rows as replaying
the log with the pair once, under either reading of "upsert-or-skip"; after the pair
has been replayed twice, one row with that row id is visible. -/
theorem gcache_replay_insert_commit_idempotent (mode : gcache_insert_mode)
    (before after : List GCacheTxLog) (rowid htup : Nat) :
    gcache_replay mode
        (before ++
          [.GCacheTxLogInsert GCACHE_TX_LOG__INSERT rowid htup,
           .GCacheTxLogXact GCACHE_TX_LOG__COMMIT_INS rowid,
           .GCacheTxLogInsert GCACHE_TX_LOG__INSERT rowid htup,
           .GCacheTxLogXact GCACHE_TX_LOG__COMMIT_INS rowid] ++ after) []
      = gcache_replay mode
        (before ++
          [.GCacheTxLogInsert GCACHE_TX_LOG__INSERT rowid htup,
           .GCacheTxLogXact GCACHE_TX_LOG__COMMIT_INS rowid] ++ after) [] ∧
    ((gcache_replay mode
        (before ++
          [.GCacheTxLogInsert GCACHE_TX_LOG__INSERT rowid htup,
           .GCacheTxLogXact GCACHE_TX_LOG__COMMIT_INS rowid,
           .GCacheTxLogInsert GCACHE_TX_LOG__INSERT rowid htup,
           .GCacheTxLogXact GCACHE_TX_LOG__COMMIT_INS rowid]) []).filter
      (fun row => decide (row.rowid = rowid) && gcache_row_visible row)).length = 1 := by
  have hpair : ∀ log : List GCacheTxLog,
      gcache_replay mode
        (before ++
          [.GCacheTxLogInsert GCACHE_TX_LOG__INSERT rowid htup,
           .GCacheTxLogXact GCACHE_TX_LOG__COMMIT_INS rowid,
           .GCacheTxLogInsert GCACHE_TX_LOG__INSERT rowid htup,
           .GCacheTxLogXact GCACHE_TX_LOG__COMMIT_INS rowid] ++ log) []
      = gcache_replay mode
        (before ++
          [.GCacheTxLogInsert GCACHE_TX_LOG__INSERT rowid htup,
           .GCacheTxLogXact GCACHE_TX_LOG__COMMIT_INS rowid] ++ log) [] := by
    intro log
    simp only [gcache_replay, List.foldl_append, List.foldl_cons, List.foldl_nil,
      gcache_apply_redo, if_true]
    rw [gcache_insert_commit_twice]
  refine ⟨hpair after, ?_⟩
  have h0 := hpair []
  simp only [List.append_nil] at h0
  rw [h0]
  have hnodup := gcache_replay_rowids_nodup mode
    (before ++
      [.GCacheTxLogInsert GCACHE_TX_LOG__INSERT rowid htup,
       .GCacheTxLogXact GCACHE_TX_LOG__COMMIT_INS rowid]) [] List.nodup_nil
  have hshape : gcache_replay mode
      (before ++
        [.GCacheTxLogInsert GCACHE_TX_LOG__INSERT rowid htup,
         .GCacheTxLogXact GCACHE_TX_LOG__COMMIT_INS rowid]) []
      = gcache_set_state rowid gcache_row_state.INS_PENDING gcache_row_state.COMMITTED
          (gcache_apply_insert mode rowid htup (gcache_replay mode before [])) := by
    simp only [gcache_replay, List.foldl_append, List.foldl_cons, List.foldl_nil,
      gcache_apply_redo, if_true]
  rw [hshape] at hnodup ⊢
  rw [gcache_visible_count]
  · apply List.count_eq_one_of_mem hnodup
    rw [gcache_set_state_rowids, ← gcache_mem_rowids_iff_any]
    unfold gcache_apply_insert
    split
    · rename_i hany
      cases mode with
      | skip => exact hany
      | upsert =>
        simp only [List.any_eq_true, decide_eq_true_eq, List.mem_map] at hany ⊢
        obtain ⟨row, hrow, e⟩ := hany
        exact ⟨_, ⟨row, hrow, rfl⟩, by simp [e]⟩
    · simp
  · intro row hrow e
    unfold gcache_set_state at hrow
    simp only [List.mem_map] at hrow
    obtain ⟨row0, _, e0⟩ := hrow
    by_cases c : row0.rowid = rowid ∧ row0.state = gcache_row_state.INS_PENDING
    · rw [if_pos c] at e0
      subst e0
      simp [gcache_row_visible]
    · rw [if_neg c] at e0
      subst e0
      simp only [gcache_row_visible, decide_eq_true_eq]
      exact fun hs => c ⟨e, hs⟩

/-! ### Atomic maximum of doubles -/

/-- The CUDA branch of `__atomic_max_fp64` returns after at most one round with the old
content, and leaves the greater of the two values in the cell. -/
theorem atomic_max_fp64_cuda_is_max (fuel mem fval : Nat) :
    __atomic_max_fp64_cuda (fuel + 1) mem fval
      = some (mem, if fp64_gt fval mem then fval else mem) := by
  unfold __atomic_max_fp64_cuda __atomic_max_fp64_cuda_loop atomicCAS
  by_cases h : fp64_gt fval mem = true <;> simp [h]

/-- The host branch of `__atomic_max_fp64` returns after at most one round with the old
content, and leaves the smaller of the two values in the cell. -/
theorem atomic_max_fp64_host_is_min (fuel mem fval : Nat) :
    __atomic_max_fp64_host (fuel + 1) mem fval
      = some (mem, if fp64_gt mem fval then fval else mem) := by
  unfold __atomic_max_fp64_host __atomic_max_fp64_host_loop __atomic_compare_exchange_n
  by_cases h : fp64_gt mem fval = true <;> simp [h]

/-- C21 (the code departs from the claim): with the doubles 5.0 and 3.0, neither a NaN,
the host branch of `__atomic_max_fp64` does not agree with the CUDA branch.  With 5.0 in
`*ptr` and `fval` = 3.0 the host branch stores 3.0 where the CUDA branch leaves 5.0; with
3.0 in `*ptr` and `fval` = 5.0 the host branch leaves 3.0 where the CUDA branch stores
5.0.  Both return the old content. -/
theorem atomic_max_fp64_host_differs_from_cuda :
    fp64_isnan 0x4014000000000000 = false ∧ fp64_isnan 0x4008000000000000 = false ∧
    fp64_gt 0x4014000000000000 0x4008000000000000 = true ∧
    __atomic_max_fp64_host 1 0x4014000000000000 0x4008000000000000
      = some (0x4014000000000000, 0x4008000000000000) ∧
    __atomic_max_fp64_cuda 1 0x4014000000000000 0x4008000000000000
      = some (0x4014000000000000, 0x4014000000000000) ∧
    __atomic_max_fp64_host 1 0x4008000000000000 0x4014000000000000
      = some (0x4008000000000000, 0x4008000000000000) ∧
    __atomic_max_fp64_cuda 1 0x4008000000000000 0x4014000000000000
      = some (0x4008000000000000, 0x4014000000000000) := by
  decide
/-! ### Tags of the cache transaction log -/

/-- C22: the six tags of the cache log are pairwise distinct 32-bit values; each has
the magic number 0xEBAD7C00 in its upper 24 bits, and the low bytes are the ASCII
codes of I, D, C, c, A and a in this order, so two tags with the same low byte are the
same tag. -/
theorem gcache_tx_log_tags_distinct :
    [GCACHE_TX_LOG__INSERT, GCACHE_TX_LOG__DELETE, GCACHE_TX_LOG__COMMIT_INS,
      GCACHE_TX_LOG__COMMIT_DEL, GCACHE_TX_LOG__ABORT_INS, GCACHE_TX_LOG__ABORT_DEL].Nodup ∧
    (∀ tag ∈ [GCACHE_TX_LOG__INSERT, GCACHE_TX_LOG__DELETE, GCACHE_TX_LOG__COMMIT_INS,
        GCACHE_TX_LOG__COMMIT_DEL, GCACHE_TX_LOG__ABORT_INS, GCACHE_TX_LOG__ABORT_DEL],
      tag < 2 ^ 32 ∧ tag &&& 0xFFFFFF00 = GCACHE_TX_LOG__MAGIC) ∧
    GCACHE_TX_LOG__MAGIC = 0xEBAD7C00 ∧
    [GCACHE_TX_LOG__INSERT, GCACHE_TX_LOG__DELETE, GCACHE_TX_LOG__COMMIT_INS,
      GCACHE_TX_LOG__COMMIT_DEL, GCACHE_TX_LOG__ABORT_INS, GCACHE_TX_LOG__ABORT_DEL].map
        (fun tag => tag &&& 0xFF)
      = ['I'.toNat, 'D'.toNat, 'C'.toNat, 'c'.toNat, 'A'.toNat, 'a'.toNat] ∧
    ['I'.toNat, 'D'.toNat, 'C'.toNat, 'c'.toNat, 'A'.toNat, 'a'.toNat]
      = [73, 68, 67, 99, 65, 97] ∧
    ([GCACHE_TX_LOG__INSERT, GCACHE_TX_LOG__DELETE, GCACHE_TX_LOG__COMMIT_INS,
      GCACHE_TX_LOG__COMMIT_DEL, GCACHE_TX_LOG__ABORT_INS, GCACHE_TX_LOG__ABORT_DEL].map
        (fun tag => tag &&& 0xFF)).Nodup := by
  decide

/-! ### Registration of the path hook -/

/-- When another extension has installed a hook before, both registrations leave
`XpuScanAddScanPath` in `set_rel_pathlist_hook` and the earlier hook in
`set_rel_pathlist_next`, and a call of `XpuScanAddScanPath` returns without a nested
call of itself. -/
theorem PG_init_chains_earlier_hook (id : Nat) (G : XpuScanSettings)
    (other_hook : Nat → List PathCall) (P : ScanPlanner) :
    _PG_init true true (.other id) = ⟨.XpuScanAddScanPath, .other id⟩ ∧
    (XpuScanAddScanPath (_PG_init true true (.other id)) G other_hook P 1).isSome = true := by
  constructor
  · simp [_PG_init, pgstrom_init_gpu_scan, pgstrom_init_dpu_scan]
  · simp [_PG_init, pgstrom_init_gpu_scan, pgstrom_init_dpu_scan, XpuScanAddScanPath]

/-- With one device kind only, the hook found is saved also when it is NULL. -/
theorem PG_init_one_device (h : set_rel_pathlist_hook_type) :
    _PG_init true false h = ⟨.XpuScanAddScanPath, h⟩ ∧
    _PG_init false true h = ⟨.XpuScanAddScanPath, h⟩ := by
  simp [_PG_init, pgstrom_init_gpu_scan, pgstrom_init_dpu_scan]

theorem XpuScanAddScanPath_self_next (G : XpuScanSettings)
    (other_hook : Nat → List PathCall) (P : ScanPlanner) (h : set_rel_pathlist_hook_type) :
    ∀ depth, XpuScanAddScanPath ⟨h, .XpuScanAddScanPath⟩ G other_hook P depth = none := by
  intro depth
  induction depth with
  | zero => rfl
  | succ n ih => simp [XpuScanAddScanPath, ih]

/-- C23 (the code departs from the claim): when `set_rel_pathlist_hook` is NULL at load
time and both a GPU and a DPU device are present, `pgstrom_init_gpu_scan` saves NULL in
`set_rel_pathlist_next`, so `pgstrom_init_dpu_scan` registers again and saves
`XpuScanAddScanPath` itself: afterwards a call of `XpuScanAddScanPath` calls itself
through the secondary hook at every depth and never returns. -/
theorem XpuScanAddScanPath_reenters_itself :
    pgstrom_init_gpu_scan ⟨.NULL, .NULL⟩ = ⟨.XpuScanAddScanPath, .NULL⟩ ∧
    _PG_init true true .NULL = ⟨.XpuScanAddScanPath, .XpuScanAddScanPath⟩ ∧
    ∀ (G : XpuScanSettings) (other_hook : Nat → List PathCall) (P : ScanPlanner)
      (depth : Nat),
      XpuScanAddScanPath (_PG_init true true .NULL) G other_hook P depth = none := by
  refine ⟨by decide, by decide, ?_⟩
  intro G other_hook P depth
  have e : _PG_init true true .NULL = ⟨.XpuScanAddScanPath, .XpuScanAddScanPath⟩ := by decide
  rw [e]
  exact XpuScanAddScanPath_self_next G other_hook P _ depth

/-! ### Order of the device qualifiers -/

theorem list_zip_set {α β : Type} : ∀ (l : List α) (l' : List β) (n : Nat) (a : α) (b : β),
    (l.set n a).zip (l'.set n b) = (l.zip l').set n (a, b)
  | [], _, _, _, _ => by simp
  | _ :: _, [], n, _, _ => by cases n <;> simp
  | _ :: _, _ :: _, 0, _, _ => by simp
  | _ :: l, _ :: l', n + 1, a, b => by simp [list_zip_set l l' n a b]

theorem list_swap_perm {β : Type} (l : List β) (i k : Nat) (hi : i < l.length)
    (hk : k < l.length) : ((l.set k l[i]).set i l[k]).Perm l := by
  classical
  rw [List.perm_iff_count]
  intro x
  have hk' : i < (l.set k l[i]).length := by simpa using hi
  rw [List.count_set _ _ _ _ hk', List.count_set _ _ _ _ hk]
  have e1 : (l.set k l[i])[i] = l[i] := by
    rw [List.getElem_set]
    split <;> rfl
  rw [e1]
  have h1 : (if (l[k] == x) = true then 1 else 0) ≤ l.count x := by
    split
    · rename_i e
      have : l[k] = x := by simpa using e
      rw [← this]
      exact List.count_pos_iff.mpr (List.getElem_mem hk)
    · exact Nat.zero_le _
  omega

theorem sort_device_qualifiers_inner_spec {α : Type} (dev_quals : List α)
    (dev_costs : List Int) (N i : Nat) :
    ∀ (n j : Nat) (dcost : Int) (dqual : Option α) (k : Nat),
      j + n = N → i ≤ k → k < j → dcost = dev_costs.getD k 0 → dqual = dev_quals[k]? →
      (∀ m, i ≤ m → m < j → dcost ≤ dev_costs.getD m 0) →
      i ≤ (sort_device_qualifiers_inner dev_quals dev_costs n j (dcost, dqual, k)).2.2 ∧
      (sort_device_qualifiers_inner dev_quals dev_costs n j (dcost, dqual, k)).2.2 < N ∧
      (sort_device_qualifiers_inner dev_quals dev_costs n j (dcost, dqual, k)).1
        = dev_costs.getD
            (sort_device_qualifiers_inner dev_quals dev_costs n j (dcost, dqual, k)).2.2 0 ∧
      (sort_device_qualifiers_inner dev_quals dev_costs n j (dcost, dqual, k)).2.1
        = dev_quals[
            (sort_device_qualifiers_inner dev_quals dev_costs n j (dcost, dqual, k)).2.2]? ∧
      ∀ m, i ≤ m → m < N →
        (sort_device_qualifiers_inner dev_quals dev_costs n j (dcost, dqual, k)).1
          ≤ dev_costs.getD m 0 := by
  intro n
  induction n with
  | zero =>
    intro j dcost dqual k hj hik hkj hc hq hmin
    simp only [Nat.add_zero] at hj
    subst hj
    simp only [sort_device_qualifiers_inner]
    exact ⟨hik, hkj, hc, hq, hmin⟩
  | succ n ih =>
    intro j dcost dqual k hj hik hkj hc hq hmin
    rw [sort_device_qualifiers_inner]
    split
    · rename_i hgt
      apply ih (j + 1) _ _ j (by omega) (by omega) (by omega) rfl rfl
      intro m h1 h2
      by_cases e : m = j
      · subst e; exact le_refl _
      · have := hmin m h1 (by omega)
        omega
    · rename_i hgt
      apply ih (j + 1) _ _ k (by omega) hik (by omega) hc hq
      intro m h1 h2
      by_cases e : m = j
      · subst e; omega
      · exact hmin m h1 (by omega)

theorem sort_device_qualifiers_outer_spec {α : Type} (N : Nat) (quals0 : List α)
    (costs0 : List Int) :
    ∀ (n i : Nat) (s : List α × List Int), i + n = N → sort_inv N quals0 costs0 i s →
      sort_inv N quals0 costs0 N (sort_device_qualifiers_outer N n i s) := by
  intro n
  induction n with
  | zero =>
    intro i s hi h
    simp only [Nat.add_zero] at hi
    subst hi
    simpa [sort_device_qualifiers_outer] using h
  | succ n ih =>
    rintro i ⟨qs, cs⟩ hi ⟨hq, hc, hperm, hsorted⟩
    simp only [] at hq hc hperm hsorted
    have hiN : i < N := by omega
    obtain ⟨h1, h2, h3, h4, h5⟩ := sort_device_qualifiers_inner_spec qs cs N i
      (N - (i + 1)) (i + 1) (cs.getD i 0) qs[i]? i (by omega) (le_refl _) (by omega) rfl rfl
      (by
        intro m hm1 hm2
        have : m = i := by omega
        subst this
        exact le_refl _)
    rw [sort_device_qualifiers_outer]
    simp only []
    generalize sort_device_qualifiers_inner qs cs (N - (i + 1)) (i + 1) (cs.getD i 0, qs[i]?, i)
      = r at h1 h2 h3 h4 h5
    obtain ⟨dcost, dqual, k⟩ := r
    simp only [] at h1 h2 h3 h4 h5
    have hiq : i < qs.length := by omega
    have hkq : k < qs.length := by omega
    have hic : i < cs.length := by omega
    have hkc : k < cs.length := by omega
    have hci : cs.getD i 0 = cs[i] := by simp [List.getD_eq_getElem?_getD, hic]
    have hck : cs.getD k 0 = cs[k] := by simp [List.getD_eq_getElem?_getD, hkc]
    split
    · rename_i hne
      apply ih (i + 1) _ (by omega)
      have hqi : qs[i]? = some qs[i] := by simp [hiq]
      have hqk : dqual = some qs[k] := by rw [h4]; simp [hkq]
      rw [hqi, hqk]
      simp only []
      refine ⟨by simp [hq], by simp [hc], ?_, ?_⟩
      · simp only []
        rw [h3, hci, hck, list_zip_set, list_zip_set]
        have hzi : i < (qs.zip cs).length := by simp; omega
        have hzk : k < (qs.zip cs).length := by simp; omega
        have ezi : (qs[i], cs[i]) = (qs.zip cs)[i] := by simp
        have ezk : (qs[k], cs[k]) = (qs.zip cs)[k] := by simp
        rw [ezi, ezk]
        exact (list_swap_perm (qs.zip cs) i k hzi hzk).trans hperm
      · intro a b ha hab hb
        simp only []
        have h5' : ∀ m, i ≤ m → m < N → cs.getD k 0 ≤ cs.getD m 0 := by
          intro m hm1 hm2
          have := h5 m hm1 hm2
          rw [h3] at this
          exact this
        have key : ∀ m, ((cs.set k (cs.getD i 0)).set i dcost).getD m 0
            = if m = i then cs.getD k 0 else if m = k then cs.getD i 0 else cs.getD m 0 := by
          intro m
          rw [h3]
          simp only [List.getD_eq_getElem?_getD, List.getElem?_set, List.length_set]
          by_cases e1 : m = i
          · subst e1
            simp [hic]
          · have e1' : ¬ i = m := fun e => e1 e.symm
            rw [if_neg e1, if_neg e1']
            by_cases e2 : m = k
            · subst e2
              simp [hkc]
            · have e2' : ¬ k = m := fun e => e2 e.symm
              rw [if_neg e2, if_neg e2']
        rw [key a, key b]
        by_cases ea : a = i
        · subst ea
          rw [if_pos rfl]
          split_ifs with e1 e2
          · exact le_refl _
          · exact h5' a (le_refl _) hiN
          · exact h5' b hab hb
        · have hai : a < i := by omega
          have hak : ¬ a = k := by omega
          rw [if_neg ea, if_neg hak]
          split_ifs with e1 e2
          · exact hsorted a k hai (by omega) h2
          · exact hsorted a i hai (by omega) hiN
          · exact hsorted a b hai hab hb
    · rename_i hne
      have hk : k = i := by
        by_contra hh
        exact hne (fun e => hh e.symm)
      subst hk
      apply ih (k + 1) _ (by omega)
      refine ⟨hq, hc, hperm, ?_⟩
      intro a b ha hab hb
      by_cases ea : a = k
      · subst ea
        have := h5 b hab hb
        rw [h3] at this
        exact this
      · exact hsorted a b (by omega) hab hb

theorem sort_device_qualifiers_spec {α : Type} (dev_quals_list : List α)
    (dev_costs_list : List Int) (hlen : dev_quals_list.length = dev_costs_list.length) :
    sort_inv dev_quals_list.length dev_quals_list dev_costs_list dev_quals_list.length
      (sort_device_qualifiers_outer dev_quals_list.length dev_quals_list.length 0
        (dev_quals_list, dev_costs_list)) := by
  apply sort_device_qualifiers_outer_spec _ _ _ _ 0 _ (by omega)
  exact ⟨rfl, hlen.symm, List.Perm.refl _, fun a b ha => absurd ha (Nat.not_lt_zero a)⟩

theorem sort_device_qualifiers_perm {α : Type} (dev_quals_list : List α)
    (dev_costs_list : List Int) (hlen : dev_quals_list.length = dev_costs_list.length) :
    (sort_device_qualifiers dev_quals_list dev_costs_list).Perm dev_quals_list := by
  obtain ⟨h1, h2, h3, _⟩ := sort_device_qualifiers_spec dev_quals_list dev_costs_list hlen
  have := h3.map Prod.fst
  rw [List.map_fst_zip _ _ (by omega), List.map_fst_zip _ _ (by omega)] at this
  exact this

/-- C24: for two lists of the same length, after `sort_device_qualifiers` the costs in the
local array are in non-decreasing order, and the pairs of a qualifier in a cell of
`dev_quals_list` and the cost at the same position are, up to their order, the pairs of
the input: the qualifiers are stored in non-decreasing order of their costs. -/
theorem sort_device_qualifiers_sorted {α : Type} (dev_quals_list : List α)
    (dev_costs_list : List Int) (hlen : dev_quals_list.length = dev_costs_list.length) :
    ((sort_device_qualifiers dev_quals_list dev_costs_list).zip
        (sort_device_qualifiers_dev_costs dev_quals_list dev_costs_list)).Perm
      (dev_quals_list.zip dev_costs_list) ∧
    (sort_device_qualifiers_dev_costs dev_quals_list dev_costs_list).length
      = (sort_device_qualifiers dev_quals_list dev_costs_list).length ∧
    (sort_device_qualifiers_dev_costs dev_quals_list dev_costs_list).Pairwise
      (fun x y => x ≤ y) := by
  obtain ⟨h1, h2, h3, h4⟩ := sort_device_qualifiers_spec dev_quals_list dev_costs_list hlen
  refine ⟨h3, ?_, ?_⟩
  · simp only [sort_device_qualifiers_dev_costs, sort_device_qualifiers]
    omega
  · rw [List.pairwise_iff_getElem]
    intro i j hi hj hij
    simp only [sort_device_qualifiers_dev_costs] at hi hj ⊢
    have := h4 i j (by omega) (by omega) (by omega)
    simpa [List.getD_eq_getElem?_getD, hi, hj] using this

theorem sort_device_qualifiers_sorted_witness :
    (["a", "b", "c", "d", "e"].length = [(5 : Int), 3, 9, 3, 1].length) ∧
    sort_device_qualifiers ["a", "b", "c", "d", "e"] [5, 3, 9, 3, 1]
      = ["e", "b", "d", "a", "c"] ∧
    sort_device_qualifiers_dev_costs ["a", "b", "c", "d", "e"] [5, 3, 9, 3, 1]
      = [1, 3, 3, 5, 9] ∧
    (sort_device_qualifiers_dev_costs ["a", "b", "c", "d", "e"] [5, 3, 9, 3, 1]).Pairwise
      (fun x y => x ≤ y) :=
  ⟨by decide, by decide, by decide,
   (sort_device_qualifiers_sorted ["a", "b", "c", "d", "e"] [5, 3, 9, 3, 1] (by decide)).2.2⟩

/-- C25: for two lists of the same length, `sort_device_qualifiers` only permutes the
values in the cells of `dev_quals_list`: the list has the same length and holds the same
qualifiers as before, each as often as before, and the pairs of a qualifier and the
cost at the same position of the local array are the pairs of the input. -/
theorem sort_device_qualifiers_permutes {α : Type} (dev_quals_list : List α)
    (dev_costs_list : List Int) (hlen : dev_quals_list.length = dev_costs_list.length) :
    (sort_device_qualifiers dev_quals_list dev_costs_list).length = dev_quals_list.length ∧
    (sort_device_qualifiers dev_quals_list dev_costs_list).Perm dev_quals_list ∧
    ((sort_device_qualifiers dev_quals_list dev_costs_list).zip
        (sort_device_qualifiers_dev_costs dev_quals_list dev_costs_list)).Perm
      (dev_quals_list.zip dev_costs_list) := by
  obtain ⟨h1, _, h3, _⟩ := sort_device_qualifiers_spec dev_quals_list dev_costs_list hlen
  exact ⟨h1, sort_device_qualifiers_perm dev_quals_list dev_costs_list hlen, h3⟩

theorem sort_device_qualifiers_permutes_witness :
    (["x", "y", "x", "z"].length = [(7 : Int), 2, 1, 2].length) ∧
    sort_device_qualifiers ["x", "y", "x", "z"] [7, 2, 1, 2] = ["x", "y", "z", "x"] ∧
    (sort_device_qualifiers ["x", "y", "x", "z"] [7, 2, 1, 2]).length = 4 ∧
    (sort_device_qualifiers ["x", "y", "x", "z"] [7, 2, 1, 2]).Perm ["x", "y", "x", "z"] :=
  ⟨by decide, by decide, by decide,
   (sort_device_qualifiers_permutes ["x", "y", "x", "z"] [7, 2, 1, 2] (by decide)).2.1⟩

/-! ### Device and host qualifiers of a scan -/

theorem fetch_device_host_quals_split (P : ScanPlanner) (allow_host_quals : Bool) :
    ∀ (l : List RestrictInfo) (acc acc' : List RestrictInfo × List Int × List RestrictInfo),
      fetch_device_host_quals P allow_host_quals l acc = some acc' →
      acc'.1 = acc.1 ++ l.filter (fun r => (P.pgstrom_gpu_expression r.clause).isSome) ∧
      acc'.2.2 = acc.2.2 ++ l.filter (fun r => (P.pgstrom_gpu_expression r.clause).isNone) ∧
      (acc.1.length = acc.2.1.length → acc'.1.length = acc'.2.1.length) := by
  intro l
  induction l with
  | nil =>
    intro acc acc' h
    simp only [fetch_device_host_quals, Option.some.injEq] at h
    subst h
    simp
  | cons r rest ih =>
    rintro ⟨dq, dc, hq⟩ acc' h
    rw [fetch_device_host_quals] at h
    split at h
    · rename_i devcost hg
      obtain ⟨h1, h2, h3⟩ := ih _ _ h
      simp only [] at h1 h2 h3 ⊢
      refine ⟨?_, ?_, ?_⟩
      · rw [h1]; simp [List.filter_cons, hg]
      · rw [h2]; simp [List.filter_cons, hg]
      · intro hl
        apply h3
        simp [hl]
    · rename_i hg
      split at h
      · obtain ⟨h1, h2, h3⟩ := ih _ _ h
        simp only [] at h1 h2 h3 ⊢
        refine ⟨?_, ?_, ?_⟩
        · rw [h1]; simp [List.filter_cons, hg]
        · rw [h2]; simp [List.filter_cons, hg]
        · exact h3
      · exact absurd h (by simp)

theorem buildOuterScanPlanInfo_quals (P : ScanPlanner) (xpu_task_flags : Nat)
    (parallel_path : Bool) (dev_quals host_quals : List RestrictInfo)
    (pp_info : pgstromPlanInfo)
    (h : __buildOuterScanPlanInfo P xpu_task_flags parallel_path dev_quals host_quals
      = .ok (some pp_info)) :
    pp_info.host_quals = extract_actual_clauses host_quals false ∧
    pp_info.scan_quals = extract_actual_clauses dev_quals false := by
  unfold __buildOuterScanPlanInfo at h
  simp only [] at h
  split_ifs at h
  all_goals (try split at h)
  all_goals first
    | (simp at h; done)
    | (simp only [Except.ok.injEq, Option.some.injEq] at h
       subst h
       exact ⟨rfl, rfl⟩)

theorem buildOuterScanPlanInfo_partition (P : ScanPlanner) (xpu_task_flags : Nat)
    (parallel_path allow_host_quals allow_no_device_quals : Bool)
    (pp_info : pgstromPlanInfo) (param_info : Option ParamPathInfo)
    (h : buildOuterScanPlanInfo P xpu_task_flags parallel_path allow_host_quals
      allow_no_device_quals = .ok (some (pp_info, param_info))) :
    pp_info.host_quals
      = ((scan_clauses P).filter (fun r =>
          (P.pgstrom_gpu_expression r.clause).isNone && !r.pseudoconstant)).map
            (fun r => r.clause) ∧
    pp_info.scan_quals.Perm
      (((scan_clauses P).filter (fun r =>
          (P.pgstrom_gpu_expression r.clause).isSome && !r.pseudoconstant)).map
            (fun r => r.clause)) := by
  unfold buildOuterScanPlanInfo at h
  simp only [] at h
  split at h
  · cases h
  split at h
  · cases h
  split at h
  · cases h
  rename_i acc hacc
  obtain ⟨a1, a2, a3⟩ := fetch_device_host_quals_split P allow_host_quals _ _ _ hacc
  simp only [List.nil_append] at a1 a2
  have a3' := a3 rfl
  split at h
  · cases h
  rename_i dq dc hq hres
  have hsplit : dq = (scan_clauses P).filter
        (fun r => (P.pgstrom_gpu_expression r.clause).isSome) ∧
      hq = (scan_clauses P).filter
        (fun r => (P.pgstrom_gpu_expression r.clause).isNone) ∧
      dq.length = dc.length := by
    cases hp : P.get_baserel_parampathinfo with
    | none =>
      rw [hp] at hres
      simp only [Option.some.injEq] at hres
      rw [hres] at a1 a2 a3'
      simp only [scan_clauses, hp, List.append_nil]
      exact ⟨a1, a2, a3'⟩
    | some ppi =>
      rw [hp] at hres
      simp only [] at hres
      obtain ⟨b1, b2, b3⟩ := fetch_device_host_quals_split P allow_host_quals _ _ _ hres
      simp only [] at b1 b2 b3
      simp only [scan_clauses, hp, List.filter_append]
      refine ⟨?_, ?_, b3 a3'⟩
      · rw [b1, a1]
      · rw [b2, a2]
  obtain ⟨e1, e2, e3⟩ := hsplit
  split at h
  · cases h
  split at h
  · cases h
  · cases h
  · rename_i pp hb
    simp only [Except.ok.injEq, Option.some.injEq, Prod.mk.injEq] at h
    obtain ⟨hpp, _⟩ := h
    subst hpp
    obtain ⟨q1, q2⟩ := buildOuterScanPlanInfo_quals P xpu_task_flags parallel_path _ _ _ hb
    constructor
    · rw [q1, e2]
      simp only [extract_actual_clauses, List.filter_filter]
      congr 1
      apply List.filter_congr
      intro r _
      cases r.pseudoconstant <;> simp
    · rw [q2]
      simp only [extract_actual_clauses]
      apply List.Perm.map
      have hp := sort_device_qualifiers_perm dq dc e3
      have := hp.filter (fun rinfo => decide (rinfo.pseudoconstant = false))
      refine this.trans ?_
      rw [e1, List.filter_filter]
      apply List.Perm.of_eq
      apply List.filter_congr
      intro r _
      cases r.pseudoconstant <;> simp

theorem gpu_partition_count (P : ScanPlanner) (x : Nat) :
    ∀ l : List RestrictInfo,
      ((l.filter (fun r => (P.pgstrom_gpu_expression r.clause).isNone
          && !r.pseudoconstant)).map (fun r => r.clause)).count x
      + ((l.filter (fun r => (P.pgstrom_gpu_expression r.clause).isSome
          && !r.pseudoconstant)).map (fun r => r.clause)).count x
      = ((l.filter (fun r => !r.pseudoconstant)).map (fun r => r.clause)).count x := by
  intro l
  induction l with
  | nil => rfl
  | cons r rest ih =>
    cases hp : r.pseudoconstant <;> cases hg : P.pgstrom_gpu_expression r.clause <;>
      simp [List.filter_cons, hp, hg, List.count_cons] at ih ⊢ <;> omega

/-- C26, with the pseudoconstant clauses set apart: whenever `buildOuterScanPlanInfo`
returns a plan info, `host_quals` holds the clauses of `baserestrictinfo` and of the
parameterised `ppi_clauses` that `pgstrom_gpu_expression` does not accept and that are
not pseudoconstant, in the order of the input, and `scan_quals` holds, in some order,
those that it accepts and that are not pseudoconstant; a clause of one list is not in
the other, and every clause occurs in the two lists together as often as among the
clauses of the input that are not pseudoconstant. -/
theorem buildOuterScanPlanInfo_partitions_clauses (P : ScanPlanner) (xpu_task_flags : Nat)
    (parallel_path allow_host_quals allow_no_device_quals : Bool)
    (pp_info : pgstromPlanInfo) (param_info : Option ParamPathInfo)
    (h : buildOuterScanPlanInfo P xpu_task_flags parallel_path allow_host_quals
      allow_no_device_quals = .ok (some (pp_info, param_info))) :
    pp_info.host_quals
      = ((scan_clauses P).filter (fun r =>
          (P.pgstrom_gpu_expression r.clause).isNone && !r.pseudoconstant)).map
            (fun r => r.clause) ∧
    pp_info.scan_quals.Perm
      (((scan_clauses P).filter (fun r =>
          (P.pgstrom_gpu_expression r.clause).isSome && !r.pseudoconstant)).map
            (fun r => r.clause)) ∧
    (∀ x ∈ pp_info.scan_quals, x ∉ pp_info.host_quals) ∧
    (∀ x, pp_info.host_quals.count x + pp_info.scan_quals.count x
      = (((scan_clauses P).filter (fun r => !r.pseudoconstant)).map
          (fun r => r.clause)).count x) := by
  obtain ⟨h1, h2⟩ := buildOuterScanPlanInfo_partition P xpu_task_flags parallel_path
    allow_host_quals allow_no_device_quals pp_info param_info h
  refine ⟨h1, h2, ?_, ?_⟩
  · intro x hx hx'
    have hx2 := h2.subset hx
    rw [h1] at hx'
    simp only [List.mem_map, List.mem_filter, Bool.and_eq_true] at hx2 hx'
    obtain ⟨r, ⟨_, hr, _⟩, e⟩ := hx2
    obtain ⟨r', ⟨_, hr', _⟩, e'⟩ := hx'
    rw [e] at hr
    rw [e'] at hr'
    cases hg : P.pgstrom_gpu_expression x <;> simp [hg] at hr hr'
  · intro x
    rw [h2.count_eq, h1]
    exact gpu_partition_count P x _

theorem buildOuterScanPlanInfo_partitions_clauses_witness :
    buildOuterScanPlanInfo sample_scan_planner 0x101 false true false
      = .ok (some (⟨0x101, -1, none, [2], [3, 1], 0⟩, none)) ∧
    ([3, 1] : List Nat).Perm
      (((scan_clauses sample_scan_planner).filter (fun r =>
          (sample_scan_planner.pgstrom_gpu_expression r.clause).isSome
            && !r.pseudoconstant)).map (fun r => r.clause)) :=
  ⟨rfl,
   (buildOuterScanPlanInfo_partitions_clauses sample_scan_planner 0x101 false true false
     ⟨0x101, -1, none, [2], [3, 1], 0⟩ none rfl).2.1⟩

/-- Counterexample to C26 as stated: the clause `2` of `baserestrictinfo` is not accepted
by `pgstrom_gpu_expression`, so it should be in `host_quals`, but it is pseudoconstant
and `extract_actual_clauses` leaves it out: it is in neither list of the plan info
returned. -/
theorem buildOuterScanPlanInfo_drops_pseudoconstant :
    buildOuterScanPlanInfo sample_scan_planner_pseudoconstant 0x101 false true false
      = .ok (some (⟨0x101, -1, none, [4], [1], 0⟩, some ⟨[⟨4, false⟩]⟩)) ∧
    (⟨2, true⟩ : RestrictInfo) ∈ sample_scan_planner_pseudoconstant.baserestrictinfo ∧
    sample_scan_planner_pseudoconstant.pgstrom_gpu_expression 2 = none ∧
    2 ∉ [4] ∧ 2 ∉ [1] :=
  ⟨rfl, by decide, rfl, by decide, by decide⟩

end PgStrom
